import Mathlib

/-!
# CheckerGDDR6: timing-legality checker of the GDDR6 controller

Shallow embedding of `DRAMSys/library/src/controller/checker/CheckerGDDR6.cpp`.

Conventions of the embedding.

* `sc_time` is the time type of the SystemC library: an unsigned 64-bit
  count of resolution units, here a natural number. `+` and `-` on `sc_time`
  are the operations of the 64-bit representation and wrap modulo `2 ^ 64`
  (`sc_time_add`, `sc_time_sub`); `unsigned * sc_time` converts both factors
  to `double`, adds 0.5 to the product and truncates (`sc_time_mul`).
  `sc_max_time()` is the largest 64-bit value; the source uses it as the
  "never scheduled" marker of a history cell.
* `std::vector<sc_time>` is a `List Nat`; an access outside the vector is
  undefined in C++ and is the error `Error.outOfRange` here. The outer tables
  are indexed by the command kind itself (the ordinals of `Command` are declared
  in a header outside this file).
* `std::queue<sc_time>` is a `List Nat`: `front` is the head, `push` appends
  at the end, `pop` drops the head.
* `sc_time_stamp()` is an explicit argument of `timeToSatisfyConstraints`
  and of `insert`.
* `SC_REPORT_FATAL`, a failed `assert` (taken as checked, as in a build
  without `NDEBUG`) and a division by zero end the call: the functions return
  in `Except Error`.
* The topology counts are `unsigned`; only the increment of the refresh
  counter can wrap and carries its `% 2 ^ 32`.
-/

namespace CheckerGDDR6

/-- Modelled from the spec: the command kinds of `Command` (its header is not
part of the checker source). The fifteen kinds the checker has a branch for,
and `NOP` for a kind it has no branch for. -/
inductive Command where
  | NOP | RD | WR | RDA | WRA | ACT | PREPB | REFPB | PREAB | REFAB
  | PDEA | PDEP | SREFEN | PDXA | PDXP | SREFEX
  deriving DecidableEq, Repr

/-- The ways a call of the checker can end without a result. -/
inductive Error where
  | fatal (msg : String)
  | assertion
  | outOfRange
  | divisionByZero
  | conversion
  deriving DecidableEq, Repr

/-- The value of `sc_max_time()`: all 64 bits set. -/
def sc_max_time : Nat := 18446744073709551615

/-- Addition of two `sc_time` values: `m_value += t.m_value` on the unsigned
64-bit representation, the sum reduced modulo `2 ^ 64`. -/
def sc_time_add (a b : Nat) : Nat := (a + b) % 18446744073709551616

/-- Subtraction of two `sc_time` values on the 64-bit representation. -/
def sc_time_sub (a b : Nat) : Nat :=
  if b ≤ a then a - b else (a + 18446744073709551616 - b) % 18446744073709551616

/-- The number of low bits a natural number loses when it is stored in a
`double`, whose significand holds 53 bits: the number of halvings that bring
it below `2 ^ 53`. The fuel covers every product of two 64-bit values. -/
def doubleShift : Nat → Nat → Nat
  | 0, _ => 0
  | fuel + 1, n => if n < 9007199254740992 then 0 else doubleShift fuel (n / 2) + 1

/-- The `double` nearest to a natural number (round to nearest, ties to the
even significand), as a natural number. Below `2 ^ 53` it is the number
itself. -/
def roundToDouble (n : Nat) : Nat :=
  let e := doubleShift 80 n
  let q := n / 2 ^ e
  let r := n % 2 ^ e
  if 2 * r < 2 ^ e then q * 2 ^ e
  else if 2 ^ e < 2 * r then (q + 1) * 2 ^ e
  else if q % 2 = 0 then q * 2 ^ e else (q + 1) * 2 ^ e

/-- The product `d * t` of an `unsigned` and an `sc_time`. The library has
`operator*(double, const sc_time&)` only: it computes
`uint64_to_double(m_value) * d + 0.5` in `double` and converts the result to a
64-bit signed integer by truncation. `product` is the rounded product of the
two `double` factors; adding 0.5 to it and truncating gives it back, except
between `2 ^ 52` and `2 ^ 53`, where the sum lies halfway between two `double`
values and an odd product is rounded up to the next even one. A value of
`2 ^ 63` or more is outside the range of the conversion, which is then
undefined: the error `Error.conversion`. -/
def sc_time_mul (d t : Nat) : Except Error Nat :=
  let product := roundToDouble (roundToDouble d * roundToDouble t)
  let rounded :=
    if 4503599627370496 ≤ product ∧ product < 9007199254740992 ∧ product % 2 = 1
    then product + 1 else product
  if rounded < 9223372036854775808 then pure rounded else throw Error.conversion

/-- The fields of `MemSpecGDDR6` the checker reads: topology counts
(`unsigned`) and timings (`sc_time`). -/
structure MemSpecGDDR6 where
  banksPerChannel : Nat
  bankGroupsPerChannel : Nat
  ranksPerChannel : Nat
  banksPerRank : Nat
  defaultBurstLength : Nat
  dataRate : Nat
  tCK : Nat
  tRL : Nat
  tWL : Nat
  tWCK2CKPIN : Nat
  tWCK2CK : Nat
  tWCK2DQO : Nat
  tWCK2DQI : Nat
  tRTRS : Nat
  tWTRS : Nat
  tWTRL : Nat
  tWR : Nat
  tRCDRD : Nat
  tRCDWR : Nat
  tCCDL : Nat
  tCCDS : Nat
  tRTP : Nat
  tRTW : Nat
  tXP : Nat
  tLK : Nat
  tRC : Nat
  tRRDL : Nat
  tRRDS : Nat
  tRP : Nat
  tRAS : Nat
  tPPD : Nat
  tRFCab : Nat
  tRFCpb : Nat
  tRREFD : Nat
  tXS : Nat
  tFAW : Nat
  tACTPDE : Nat
  tPREPDE : Nat
  tREFPDE : Nat
  tPD : Nat
  tCKESR : Nat
  deriving Repr

/-- The memory specification held by a `Configuration`: the GDDR6 one or one
of another standard (on which the `dynamic_cast` of the constructor fails). -/
inductive MemSpec where
  | gddr6 (m : MemSpecGDDR6)
  | other

/-- The part of `Configuration` the constructor reads. -/
structure Configuration where
  memSpec : MemSpec

/-- What `ControllerExtension` resolves from a `tlm_generic_payload`. -/
structure Payload where
  rank : Nat
  bankGroup : Nat
  bank : Nat
  burstLength : Nat
  deriving DecidableEq, Repr

/-- The member variables of `CheckerGDDR6`. -/
structure Checker where
  memSpec : MemSpecGDDR6
  lastScheduledByCommandAndBank : Command → List Nat
  lastScheduledByCommandAndBankGroup : Command → List Nat
  lastScheduledByCommandAndRank : Command → List Nat
  lastScheduledByCommand : Command → Nat
  lastCommandOnBus : Nat
  last4Activates : List (List Nat)
  bankwiseRefreshCounter : List Nat
  tBURST : Nat
  tRDSRE : Nat
  tWRSRE : Nat
  tRDWR_R : Nat
  tWRRD_R : Nat
  tWRRD_S : Nat
  tWRRD_L : Nat
  tWRPRE : Nat

/-- Read `v[i]` of a vector. -/
def index {α : Type} (v : List α) (i : Nat) : Except Error α :=
  match v[i]? with
  | some x => pure x
  | none => throw Error.outOfRange

/-- Write `v[i] = x` of a vector. -/
def assign {α : Type} (v : List α) (i : Nat) (x : α) : Except Error (List α) :=
  if i < v.length then pure (v.set i x) else throw Error.outOfRange

/-- The `front()` of a queue. -/
def front (q : List Nat) : Except Error Nat :=
  match q with
  | x :: _ => pure x
  | [] => throw Error.outOfRange

/-- The body of the constructor after the `dynamic_cast` (lines 48 to 67).
`defaultBurstLength / dataRate` is the division of two `unsigned`; its product
with `tCK` is `sc_time_mul`, and the derived delays are sums and differences
of `sc_time`, taken from left to right as the source writes them. -/
def construct (memSpec : MemSpecGDDR6) : Except Error Checker := do
  if memSpec.dataRate = 0 then throw Error.divisionByZero
  let tBURST ← sc_time_mul (memSpec.defaultBurstLength / memSpec.dataRate) memSpec.tCK
  pure {
    memSpec := memSpec
    lastScheduledByCommandAndBank := fun _ => List.replicate memSpec.banksPerChannel sc_max_time
    lastScheduledByCommandAndBankGroup :=
      fun _ => List.replicate memSpec.bankGroupsPerChannel sc_max_time
    lastScheduledByCommandAndRank := fun _ => List.replicate memSpec.ranksPerChannel sc_max_time
    lastScheduledByCommand := fun _ => sc_max_time
    lastCommandOnBus := sc_max_time
    last4Activates := List.replicate memSpec.ranksPerChannel []
    bankwiseRefreshCounter := List.replicate memSpec.ranksPerChannel 0
    tBURST := tBURST
    tRDSRE :=
      sc_time_add (sc_time_add (sc_time_add (sc_time_add memSpec.tRL memSpec.tWCK2CKPIN)
        memSpec.tWCK2CK) memSpec.tWCK2DQO) tBURST
    tWRSRE :=
      sc_time_add (sc_time_add (sc_time_add (sc_time_add memSpec.tWL memSpec.tWCK2CKPIN)
        memSpec.tWCK2CK) memSpec.tWCK2DQI) tBURST
    tRDWR_R :=
      sc_time_sub (sc_time_add (sc_time_add memSpec.tRL tBURST) memSpec.tRTRS) memSpec.tWL
    tWRRD_R :=
      sc_time_sub (sc_time_add (sc_time_add memSpec.tWL tBURST) memSpec.tRTRS) memSpec.tRL
    tWRRD_S := sc_time_add (sc_time_add memSpec.tWL tBURST) memSpec.tWTRS
    tWRRD_L := sc_time_add (sc_time_add memSpec.tWL tBURST) memSpec.tWTRL
    tWRPRE := sc_time_add (sc_time_add memSpec.tWL tBURST) memSpec.tWR }

/-- `CheckerGDDR6::CheckerGDDR6(const Configuration&)`. -/
def create (config : Configuration) : Except Error Checker :=
  match config.memSpec with
  | MemSpec.gddr6 memSpec => construct memSpec
  | MemSpec.other => throw (Error.fatal "Wrong MemSpec chosen")

/-- The recurring two lines
`if (lastCommandStart != sc_max_time())
   earliestTimeToStart = std::max(earliestTimeToStart, lastCommandStart + delay);`
with the sum of `sc_time`. -/
def rule (earliestTimeToStart lastCommandStart delay : Nat) : Nat :=
  if lastCommandStart ≠ sc_max_time then
    max earliestTimeToStart (sc_time_add lastCommandStart delay)
  else earliestTimeToStart

/-- The same two lines where the source adds two delays in turn:
`if (lastCommandStart != sc_max_time())
   earliestTimeToStart = std::max(earliestTimeToStart, lastCommandStart + a + b);`. -/
def rule2 (earliestTimeToStart lastCommandStart a b : Nat) : Nat :=
  if lastCommandStart ≠ sc_max_time then
    max earliestTimeToStart (sc_time_add (sc_time_add lastCommandStart a) b)
  else earliestTimeToStart

/-- The recurring conditional
`lastScheduledByCommand[X] != lastScheduledByCommandAndRank[X][rank.ID()]
   ? lastScheduledByCommand[X] : sc_max_time()`. -/
def otherRank (lastByCommand lastByCommandAndRank : Nat) : Nat :=
  if lastByCommand ≠ lastByCommandAndRank then lastByCommand else sc_max_time

/-- The branch `command == Command::RD || command == Command::RDA`
(lines 79 to 149). -/
def constraintsRead (s : Checker) (command : Command) (payload : Payload)
    (earliestTimeToStart : Nat) : Except Error Nat := do
  let rank := payload.rank
  let bankGroup := payload.bankGroup
  let bank := payload.bank
  if payload.burstLength ≠ 16 then throw Error.assertion
  let lastCommandStart ← index (s.lastScheduledByCommandAndBank Command.ACT) bank
  let earliestTimeToStart := rule earliestTimeToStart lastCommandStart s.memSpec.tRCDRD
  let lastCommandStart ← index (s.lastScheduledByCommandAndBankGroup Command.RD) bankGroup
  let earliestTimeToStart := rule earliestTimeToStart lastCommandStart s.memSpec.tCCDL
  let lastCommandStart ← index (s.lastScheduledByCommandAndRank Command.RD) rank
  let earliestTimeToStart := rule earliestTimeToStart lastCommandStart s.memSpec.tCCDS
  let lastByRank ← index (s.lastScheduledByCommandAndRank Command.RD) rank
  let lastCommandStart := otherRank (s.lastScheduledByCommand Command.RD) lastByRank
  let earliestTimeToStart :=
    rule2 earliestTimeToStart lastCommandStart s.tBURST s.memSpec.tRTRS
  let lastCommandStart ← index (s.lastScheduledByCommandAndBankGroup Command.RDA) bankGroup
  let earliestTimeToStart := rule earliestTimeToStart lastCommandStart s.memSpec.tCCDL
  let lastCommandStart ← index (s.lastScheduledByCommandAndRank Command.RDA) rank
  let earliestTimeToStart := rule earliestTimeToStart lastCommandStart s.memSpec.tCCDS
  let lastByRank ← index (s.lastScheduledByCommandAndRank Command.RDA) rank
  let lastCommandStart := otherRank (s.lastScheduledByCommand Command.RDA) lastByRank
  let earliestTimeToStart :=
    rule2 earliestTimeToStart lastCommandStart s.tBURST s.memSpec.tRTRS
  let earliestTimeToStart ←
    if command = Command.RDA then do
      let lastCommandStart ← index (s.lastScheduledByCommandAndBank Command.WR) bank
      pure (if lastCommandStart ≠ sc_max_time
        then max earliestTimeToStart
          (sc_time_sub (sc_time_add lastCommandStart s.tWRPRE) s.memSpec.tRTP)
        else earliestTimeToStart)
    else pure earliestTimeToStart
  let lastCommandStart ← index (s.lastScheduledByCommandAndBankGroup Command.WR) bankGroup
  let earliestTimeToStart := rule earliestTimeToStart lastCommandStart s.tWRRD_L
  let lastCommandStart ← index (s.lastScheduledByCommandAndRank Command.WR) rank
  let earliestTimeToStart := rule earliestTimeToStart lastCommandStart s.tWRRD_S
  let lastByRank ← index (s.lastScheduledByCommandAndRank Command.WR) rank
  let lastCommandStart := otherRank (s.lastScheduledByCommand Command.WR) lastByRank
  let earliestTimeToStart := rule earliestTimeToStart lastCommandStart s.tWRRD_R
  let lastCommandStart ← index (s.lastScheduledByCommandAndBankGroup Command.WRA) bankGroup
  let earliestTimeToStart := rule earliestTimeToStart lastCommandStart s.tWRRD_L
  let lastCommandStart ← index (s.lastScheduledByCommandAndRank Command.WRA) rank
  let earliestTimeToStart := rule earliestTimeToStart lastCommandStart s.tWRRD_S
  let lastByRank ← index (s.lastScheduledByCommandAndRank Command.WRA) rank
  let lastCommandStart := otherRank (s.lastScheduledByCommand Command.WRA) lastByRank
  let earliestTimeToStart := rule earliestTimeToStart lastCommandStart s.tWRRD_R
  let lastCommandStart ← index (s.lastScheduledByCommandAndRank Command.PDXA) rank
  let earliestTimeToStart := rule earliestTimeToStart lastCommandStart s.memSpec.tXP
  let lastCommandStart ← index (s.lastScheduledByCommandAndRank Command.SREFEX) rank
  let earliestTimeToStart := rule earliestTimeToStart lastCommandStart s.memSpec.tLK
  pure earliestTimeToStart

/-- The branch `command == Command::WR || command == Command::WRA`
(lines 150 to 205). -/
def constraintsWrite (s : Checker) (payload : Payload)
    (earliestTimeToStart : Nat) : Except Error Nat := do
  let rank := payload.rank
  let bankGroup := payload.bankGroup
  let bank := payload.bank
  if payload.burstLength ≠ 16 then throw Error.assertion
  let lastCommandStart ← index (s.lastScheduledByCommandAndBank Command.ACT) bank
  let earliestTimeToStart := rule earliestTimeToStart lastCommandStart s.memSpec.tRCDWR
  let lastCommandStart ← index (s.lastScheduledByCommandAndRank Command.RD) rank
  let earliestTimeToStart := rule earliestTimeToStart lastCommandStart s.memSpec.tRTW
  let lastByRank ← index (s.lastScheduledByCommandAndRank Command.RD) rank
  let lastCommandStart := otherRank (s.lastScheduledByCommand Command.RD) lastByRank
  let earliestTimeToStart := rule earliestTimeToStart lastCommandStart s.tRDWR_R
  let lastCommandStart ← index (s.lastScheduledByCommandAndRank Command.RDA) rank
  let earliestTimeToStart := rule earliestTimeToStart lastCommandStart s.memSpec.tRTW
  let lastByRank ← index (s.lastScheduledByCommandAndRank Command.RDA) rank
  let lastCommandStart := otherRank (s.lastScheduledByCommand Command.RDA) lastByRank
  let earliestTimeToStart := rule earliestTimeToStart lastCommandStart s.tRDWR_R
  let lastCommandStart ← index (s.lastScheduledByCommandAndBankGroup Command.WR) bankGroup
  let earliestTimeToStart := rule earliestTimeToStart lastCommandStart s.memSpec.tCCDL
  let lastCommandStart ← index (s.lastScheduledByCommandAndRank Command.WR) rank
  let earliestTimeToStart := rule earliestTimeToStart lastCommandStart s.memSpec.tCCDS
  let lastByRank ← index (s.lastScheduledByCommandAndRank Command.WR) rank
  let lastCommandStart := otherRank (s.lastScheduledByCommand Command.WR) lastByRank
  let earliestTimeToStart :=
    rule2 earliestTimeToStart lastCommandStart s.tBURST s.memSpec.tRTRS
  let lastCommandStart ← index (s.lastScheduledByCommandAndBankGroup Command.WRA) bankGroup
  let earliestTimeToStart := rule earliestTimeToStart lastCommandStart s.memSpec.tCCDL
  let lastCommandStart ← index (s.lastScheduledByCommandAndRank Command.WRA) rank
  let earliestTimeToStart := rule earliestTimeToStart lastCommandStart s.memSpec.tCCDS
  let lastByRank ← index (s.lastScheduledByCommandAndRank Command.WRA) rank
  let lastCommandStart := otherRank (s.lastScheduledByCommand Command.WRA) lastByRank
  let earliestTimeToStart :=
    rule2 earliestTimeToStart lastCommandStart s.tBURST s.memSpec.tRTRS
  let lastCommandStart ← index (s.lastScheduledByCommandAndRank Command.PDXA) rank
  let earliestTimeToStart := rule earliestTimeToStart lastCommandStart s.memSpec.tXP
  let lastCommandStart ← index (s.lastScheduledByCommandAndRank Command.SREFEX) rank
  let earliestTimeToStart := rule earliestTimeToStart lastCommandStart s.memSpec.tLK
  pure earliestTimeToStart

/-- The test on the four-activate window that closes the ACT and the REFPB
branch:
`if (last4Activates[rank.ID()].size() >= 4)
   earliestTimeToStart = std::max(earliestTimeToStart,
                                  last4Activates[rank.ID()].front() + memSpec->tFAW);`. -/
def fourActivates (s : Checker) (rank : Nat) (earliestTimeToStart : Nat) : Except Error Nat := do
  let window ← index s.last4Activates rank
  if window.length ≥ 4 then do
    let oldest ← front window
    pure (max earliestTimeToStart (sc_time_add oldest s.memSpec.tFAW))
  else pure earliestTimeToStart

/-- The branch `command == Command::ACT` (lines 206 to 262). -/
def constraintsACT (s : Checker) (payload : Payload)
    (earliestTimeToStart : Nat) : Except Error Nat := do
  let rank := payload.rank
  let bankGroup := payload.bankGroup
  let bank := payload.bank
  let lastCommandStart ← index (s.lastScheduledByCommandAndBank Command.ACT) bank
  let earliestTimeToStart := rule earliestTimeToStart lastCommandStart s.memSpec.tRC
  let lastCommandStart ← index (s.lastScheduledByCommandAndBankGroup Command.ACT) bankGroup
  let earliestTimeToStart := rule earliestTimeToStart lastCommandStart s.memSpec.tRRDL
  let lastCommandStart ← index (s.lastScheduledByCommandAndRank Command.ACT) rank
  let earliestTimeToStart := rule earliestTimeToStart lastCommandStart s.memSpec.tRRDS
  let lastCommandStart ← index (s.lastScheduledByCommandAndBank Command.RDA) bank
  let earliestTimeToStart :=
    rule2 earliestTimeToStart lastCommandStart s.memSpec.tRTP s.memSpec.tRP
  let lastCommandStart ← index (s.lastScheduledByCommandAndBank Command.WRA) bank
  let earliestTimeToStart := rule2 earliestTimeToStart lastCommandStart s.tWRPRE s.memSpec.tRP
  let lastCommandStart ← index (s.lastScheduledByCommandAndBank Command.PREPB) bank
  let earliestTimeToStart := rule earliestTimeToStart lastCommandStart s.memSpec.tRP
  let lastCommandStart ← index (s.lastScheduledByCommandAndRank Command.PREAB) rank
  let earliestTimeToStart := rule earliestTimeToStart lastCommandStart s.memSpec.tRP
  let lastCommandStart ← index (s.lastScheduledByCommandAndRank Command.PDXA) rank
  let earliestTimeToStart := rule earliestTimeToStart lastCommandStart s.memSpec.tXP
  let lastCommandStart ← index (s.lastScheduledByCommandAndRank Command.PDXP) rank
  let earliestTimeToStart := rule earliestTimeToStart lastCommandStart s.memSpec.tXP
  let lastCommandStart ← index (s.lastScheduledByCommandAndRank Command.REFAB) rank
  let earliestTimeToStart := rule earliestTimeToStart lastCommandStart s.memSpec.tRFCab
  let lastCommandStart ← index (s.lastScheduledByCommandAndBank Command.REFPB) bank
  let earliestTimeToStart := rule earliestTimeToStart lastCommandStart s.memSpec.tRFCpb
  let lastCommandStart ← index (s.lastScheduledByCommandAndRank Command.REFPB) rank
  let earliestTimeToStart := rule earliestTimeToStart lastCommandStart s.memSpec.tRREFD
  let lastCommandStart ← index (s.lastScheduledByCommandAndRank Command.SREFEX) rank
  let earliestTimeToStart := rule earliestTimeToStart lastCommandStart s.memSpec.tXS
  fourActivates s rank earliestTimeToStart

/-- The branch `command == Command::PREPB` (lines 263 to 284). -/
def constraintsPREPB (s : Checker) (payload : Payload)
    (earliestTimeToStart : Nat) : Except Error Nat := do
  let rank := payload.rank
  let bank := payload.bank
  let lastCommandStart ← index (s.lastScheduledByCommandAndBank Command.ACT) bank
  let earliestTimeToStart := rule earliestTimeToStart lastCommandStart s.memSpec.tRAS
  let lastCommandStart ← index (s.lastScheduledByCommandAndBank Command.RD) bank
  let earliestTimeToStart := rule earliestTimeToStart lastCommandStart s.memSpec.tRTP
  let lastCommandStart ← index (s.lastScheduledByCommandAndBank Command.WR) bank
  let earliestTimeToStart := rule earliestTimeToStart lastCommandStart s.tWRPRE
  let lastCommandStart ← index (s.lastScheduledByCommandAndRank Command.PREPB) rank
  let earliestTimeToStart := rule earliestTimeToStart lastCommandStart s.memSpec.tPPD
  let lastCommandStart ← index (s.lastScheduledByCommandAndRank Command.PDXA) rank
  let earliestTimeToStart := rule earliestTimeToStart lastCommandStart s.memSpec.tXP
  pure earliestTimeToStart

/-- The branch `command == Command::PREAB` (lines 285 to 318). -/
def constraintsPREAB (s : Checker) (payload : Payload)
    (earliestTimeToStart : Nat) : Except Error Nat := do
  let rank := payload.rank
  let lastCommandStart ← index (s.lastScheduledByCommandAndRank Command.ACT) rank
  let earliestTimeToStart := rule earliestTimeToStart lastCommandStart s.memSpec.tRAS
  let lastCommandStart ← index (s.lastScheduledByCommandAndRank Command.RD) rank
  let earliestTimeToStart := rule earliestTimeToStart lastCommandStart s.memSpec.tRTP
  let lastCommandStart ← index (s.lastScheduledByCommandAndRank Command.RDA) rank
  let earliestTimeToStart := rule earliestTimeToStart lastCommandStart s.memSpec.tRTP
  let lastCommandStart ← index (s.lastScheduledByCommandAndRank Command.WR) rank
  let earliestTimeToStart := rule earliestTimeToStart lastCommandStart s.tWRPRE
  let lastCommandStart ← index (s.lastScheduledByCommandAndRank Command.WRA) rank
  let earliestTimeToStart := rule earliestTimeToStart lastCommandStart s.tWRPRE
  let lastCommandStart ← index (s.lastScheduledByCommandAndRank Command.PREPB) rank
  let earliestTimeToStart := rule earliestTimeToStart lastCommandStart s.memSpec.tPPD
  let lastCommandStart ← index (s.lastScheduledByCommandAndRank Command.PDXA) rank
  let earliestTimeToStart := rule earliestTimeToStart lastCommandStart s.memSpec.tXP
  let lastCommandStart ← index (s.lastScheduledByCommandAndRank Command.REFPB) rank
  let earliestTimeToStart := rule earliestTimeToStart lastCommandStart s.memSpec.tRFCpb
  pure earliestTimeToStart

/-- The branch `command == Command::REFAB` (lines 319 to 356). -/
def constraintsREFAB (s : Checker) (payload : Payload)
    (earliestTimeToStart : Nat) : Except Error Nat := do
  let rank := payload.rank
  let lastCommandStart ← index (s.lastScheduledByCommandAndRank Command.ACT) rank
  let earliestTimeToStart := rule earliestTimeToStart lastCommandStart s.memSpec.tRC
  let lastCommandStart ← index (s.lastScheduledByCommandAndRank Command.RDA) rank
  let earliestTimeToStart :=
    rule2 earliestTimeToStart lastCommandStart s.memSpec.tRTP s.memSpec.tRP
  let lastCommandStart ← index (s.lastScheduledByCommandAndRank Command.WRA) rank
  let earliestTimeToStart := rule2 earliestTimeToStart lastCommandStart s.tWRPRE s.memSpec.tRP
  let lastCommandStart ← index (s.lastScheduledByCommandAndRank Command.PREPB) rank
  let earliestTimeToStart := rule earliestTimeToStart lastCommandStart s.memSpec.tRP
  let lastCommandStart ← index (s.lastScheduledByCommandAndRank Command.PREAB) rank
  let earliestTimeToStart := rule earliestTimeToStart lastCommandStart s.memSpec.tRP
  let lastCommandStart ← index (s.lastScheduledByCommandAndRank Command.PDXP) rank
  let earliestTimeToStart := rule earliestTimeToStart lastCommandStart s.memSpec.tXP
  let lastCommandStart ← index (s.lastScheduledByCommandAndRank Command.REFAB) rank
  let earliestTimeToStart := rule earliestTimeToStart lastCommandStart s.memSpec.tRFCab
  let lastCommandStart ← index (s.lastScheduledByCommandAndRank Command.REFPB) rank
  let earliestTimeToStart := rule earliestTimeToStart lastCommandStart s.memSpec.tRFCpb
  let lastCommandStart ← index (s.lastScheduledByCommandAndRank Command.SREFEX) rank
  let earliestTimeToStart := rule earliestTimeToStart lastCommandStart s.memSpec.tXS
  pure earliestTimeToStart

/-- The branch `command == Command::REFPB` (lines 357 to 418). -/
def constraintsREFPB (s : Checker) (payload : Payload)
    (earliestTimeToStart : Nat) : Except Error Nat := do
  let rank := payload.rank
  let bankGroup := payload.bankGroup
  let bank := payload.bank
  let lastCommandStart ← index (s.lastScheduledByCommandAndBank Command.ACT) bank
  let earliestTimeToStart := rule earliestTimeToStart lastCommandStart s.memSpec.tRC
  let lastCommandStart ← index (s.lastScheduledByCommandAndBankGroup Command.ACT) bankGroup
  let earliestTimeToStart := rule earliestTimeToStart lastCommandStart s.memSpec.tRRDL
  let lastCommandStart ← index (s.lastScheduledByCommandAndRank Command.ACT) rank
  let earliestTimeToStart := rule earliestTimeToStart lastCommandStart s.memSpec.tRRDS
  let lastCommandStart ← index (s.lastScheduledByCommandAndBank Command.RDA) bank
  let earliestTimeToStart :=
    rule2 earliestTimeToStart lastCommandStart s.memSpec.tRTP s.memSpec.tRP
  let lastCommandStart ← index (s.lastScheduledByCommandAndBank Command.WRA) bank
  let earliestTimeToStart := rule2 earliestTimeToStart lastCommandStart s.tWRPRE s.memSpec.tRP
  let lastCommandStart ← index (s.lastScheduledByCommandAndBank Command.PREPB) bank
  let earliestTimeToStart := rule earliestTimeToStart lastCommandStart s.memSpec.tRP
  let lastCommandStart ← index (s.lastScheduledByCommandAndRank Command.PREAB) rank
  let earliestTimeToStart := rule earliestTimeToStart lastCommandStart s.memSpec.tRP
  let lastCommandStart ← index (s.lastScheduledByCommandAndRank Command.PDXA) rank
  let earliestTimeToStart := rule earliestTimeToStart lastCommandStart s.memSpec.tXP
  let lastCommandStart ← index (s.lastScheduledByCommandAndRank Command.PDXP) rank
  let earliestTimeToStart := rule earliestTimeToStart lastCommandStart s.memSpec.tXP
  let lastCommandStart ← index (s.lastScheduledByCommandAndRank Command.REFAB) rank
  let earliestTimeToStart := rule earliestTimeToStart lastCommandStart s.memSpec.tRFCab
  let lastCommandStart ← index (s.lastScheduledByCommandAndBank Command.REFPB) bank
  let earliestTimeToStart := rule earliestTimeToStart lastCommandStart s.memSpec.tRFCpb
  let lastCommandStart ← index (s.lastScheduledByCommandAndRank Command.REFPB) rank
  let earliestTimeToStart ←
    if lastCommandStart ≠ sc_max_time then do
      let counter ← index s.bankwiseRefreshCounter rank
      if counter = 0 then
        pure (max earliestTimeToStart (sc_time_add lastCommandStart s.memSpec.tRFCpb))
      else
        pure (max earliestTimeToStart (sc_time_add lastCommandStart s.memSpec.tRREFD))
    else pure earliestTimeToStart
  let lastCommandStart ← index (s.lastScheduledByCommandAndRank Command.SREFEX) rank
  let earliestTimeToStart := rule earliestTimeToStart lastCommandStart s.memSpec.tXS
  fourActivates s rank earliestTimeToStart

/-- The branch `command == Command::PDEA` (lines 419 to 452). -/
def constraintsPDEA (s : Checker) (payload : Payload)
    (earliestTimeToStart : Nat) : Except Error Nat := do
  let rank := payload.rank
  let lastCommandStart ← index (s.lastScheduledByCommandAndRank Command.ACT) rank
  let earliestTimeToStart := rule earliestTimeToStart lastCommandStart s.memSpec.tACTPDE
  let lastCommandStart ← index (s.lastScheduledByCommandAndRank Command.RD) rank
  let earliestTimeToStart := rule earliestTimeToStart lastCommandStart s.tRDSRE
  let lastCommandStart ← index (s.lastScheduledByCommandAndRank Command.RDA) rank
  let earliestTimeToStart := rule earliestTimeToStart lastCommandStart s.tRDSRE
  let lastCommandStart ← index (s.lastScheduledByCommandAndRank Command.WR) rank
  let earliestTimeToStart := rule earliestTimeToStart lastCommandStart s.tWRSRE
  let lastCommandStart ← index (s.lastScheduledByCommandAndRank Command.WRA) rank
  let earliestTimeToStart := rule earliestTimeToStart lastCommandStart s.tWRSRE
  let lastCommandStart ← index (s.lastScheduledByCommandAndRank Command.PREPB) rank
  let earliestTimeToStart := rule earliestTimeToStart lastCommandStart s.memSpec.tPREPDE
  let lastCommandStart ← index (s.lastScheduledByCommandAndRank Command.REFPB) rank
  let earliestTimeToStart := rule earliestTimeToStart lastCommandStart s.memSpec.tREFPDE
  let lastCommandStart ← index (s.lastScheduledByCommandAndRank Command.PDXA) rank
  let earliestTimeToStart := rule earliestTimeToStart lastCommandStart s.memSpec.tXP
  pure earliestTimeToStart

/-- The branch `command == Command::PDXA` (lines 453 to 458). -/
def constraintsPDXA (s : Checker) (payload : Payload)
    (earliestTimeToStart : Nat) : Except Error Nat := do
  let rank := payload.rank
  let lastCommandStart ← index (s.lastScheduledByCommandAndRank Command.PDEA) rank
  let earliestTimeToStart := rule earliestTimeToStart lastCommandStart s.memSpec.tPD
  pure earliestTimeToStart

/-- The branch `command == Command::PDEP` (lines 459 to 496). -/
def constraintsPDEP (s : Checker) (payload : Payload)
    (earliestTimeToStart : Nat) : Except Error Nat := do
  let rank := payload.rank
  let lastCommandStart ← index (s.lastScheduledByCommandAndRank Command.RD) rank
  let earliestTimeToStart := rule earliestTimeToStart lastCommandStart s.tRDSRE
  let lastCommandStart ← index (s.lastScheduledByCommandAndRank Command.RDA) rank
  let earliestTimeToStart := rule earliestTimeToStart lastCommandStart s.tRDSRE
  let lastCommandStart ← index (s.lastScheduledByCommandAndRank Command.WRA) rank
  let earliestTimeToStart := rule earliestTimeToStart lastCommandStart s.tWRSRE
  let lastCommandStart ← index (s.lastScheduledByCommandAndRank Command.PREPB) rank
  let earliestTimeToStart := rule earliestTimeToStart lastCommandStart s.memSpec.tPREPDE
  let lastCommandStart ← index (s.lastScheduledByCommandAndRank Command.PREAB) rank
  let earliestTimeToStart := rule earliestTimeToStart lastCommandStart s.memSpec.tPREPDE
  let lastCommandStart ← index (s.lastScheduledByCommandAndRank Command.REFAB) rank
  let earliestTimeToStart := rule earliestTimeToStart lastCommandStart s.memSpec.tREFPDE
  let lastCommandStart ← index (s.lastScheduledByCommandAndRank Command.REFPB) rank
  let earliestTimeToStart := rule earliestTimeToStart lastCommandStart s.memSpec.tREFPDE
  let lastCommandStart ← index (s.lastScheduledByCommandAndRank Command.PDXP) rank
  let earliestTimeToStart := rule earliestTimeToStart lastCommandStart s.memSpec.tXP
  let lastCommandStart ← index (s.lastScheduledByCommandAndRank Command.SREFEX) rank
  let earliestTimeToStart := rule earliestTimeToStart lastCommandStart s.memSpec.tXS
  pure earliestTimeToStart

/-- The branch `command == Command::PDXP` (lines 497 to 502). -/
def constraintsPDXP (s : Checker) (payload : Payload)
    (earliestTimeToStart : Nat) : Except Error Nat := do
  let rank := payload.rank
  let lastCommandStart ← index (s.lastScheduledByCommandAndRank Command.PDEP) rank
  let earliestTimeToStart := rule earliestTimeToStart lastCommandStart s.memSpec.tPD
  pure earliestTimeToStart

/-- The branch `command == Command::SREFEN` (lines 503 to 544). -/
def constraintsSREFEN (s : Checker) (payload : Payload)
    (earliestTimeToStart : Nat) : Except Error Nat := do
  let rank := payload.rank
  let lastCommandStart ← index (s.lastScheduledByCommandAndRank Command.ACT) rank
  let earliestTimeToStart := rule earliestTimeToStart lastCommandStart s.memSpec.tRC
  let lastCommandStart ← index (s.lastScheduledByCommandAndRank Command.RD) rank
  let earliestTimeToStart := rule earliestTimeToStart lastCommandStart s.tRDSRE
  let lastCommandStart ← index (s.lastScheduledByCommandAndRank Command.RDA) rank
  let earliestTimeToStart :=
    rule earliestTimeToStart lastCommandStart
      (max (sc_time_add s.memSpec.tRTP s.memSpec.tRP) s.tRDSRE)
  let lastCommandStart ← index (s.lastScheduledByCommandAndRank Command.WRA) rank
  let earliestTimeToStart := rule2 earliestTimeToStart lastCommandStart s.tWRPRE s.memSpec.tRP
  let lastCommandStart ← index (s.lastScheduledByCommandAndRank Command.PREPB) rank
  let earliestTimeToStart := rule earliestTimeToStart lastCommandStart s.memSpec.tRP
  let lastCommandStart ← index (s.lastScheduledByCommandAndRank Command.PREAB) rank
  let earliestTimeToStart := rule earliestTimeToStart lastCommandStart s.memSpec.tRP
  let lastCommandStart ← index (s.lastScheduledByCommandAndRank Command.PDXP) rank
  let earliestTimeToStart := rule earliestTimeToStart lastCommandStart s.memSpec.tXP
  let lastCommandStart ← index (s.lastScheduledByCommandAndRank Command.REFAB) rank
  let earliestTimeToStart := rule earliestTimeToStart lastCommandStart s.memSpec.tRFCab
  let lastCommandStart ← index (s.lastScheduledByCommandAndRank Command.REFPB) rank
  let earliestTimeToStart := rule earliestTimeToStart lastCommandStart s.memSpec.tRFCpb
  let lastCommandStart ← index (s.lastScheduledByCommandAndRank Command.SREFEX) rank
  let earliestTimeToStart := rule earliestTimeToStart lastCommandStart s.memSpec.tXS
  pure earliestTimeToStart

/-- The branch `command == Command::SREFEX` (lines 545 to 550). -/
def constraintsSREFEX (s : Checker) (payload : Payload)
    (earliestTimeToStart : Nat) : Except Error Nat := do
  let rank := payload.rank
  let lastCommandStart ← index (s.lastScheduledByCommandAndRank Command.SREFEN) rank
  let earliestTimeToStart := rule earliestTimeToStart lastCommandStart s.memSpec.tCKESR
  pure earliestTimeToStart

/-- The chain of `if (command == ...) ... else if ... else SC_REPORT_FATAL`
(lines 79 to 552): the value of `earliestTimeToStart` after the branch of the
command. -/
def commandConstraints (s : Checker) (command : Command) (payload : Payload)
    (earliestTimeToStart : Nat) : Except Error Nat :=
  if command = Command.RD ∨ command = Command.RDA then
    constraintsRead s command payload earliestTimeToStart
  else if command = Command.WR ∨ command = Command.WRA then
    constraintsWrite s payload earliestTimeToStart
  else if command = Command.ACT then constraintsACT s payload earliestTimeToStart
  else if command = Command.PREPB then constraintsPREPB s payload earliestTimeToStart
  else if command = Command.PREAB then constraintsPREAB s payload earliestTimeToStart
  else if command = Command.REFAB then constraintsREFAB s payload earliestTimeToStart
  else if command = Command.REFPB then constraintsREFPB s payload earliestTimeToStart
  else if command = Command.PDEA then constraintsPDEA s payload earliestTimeToStart
  else if command = Command.PDXA then constraintsPDXA s payload earliestTimeToStart
  else if command = Command.PDEP then constraintsPDEP s payload earliestTimeToStart
  else if command = Command.PDXP then constraintsPDXP s payload earliestTimeToStart
  else if command = Command.SREFEN then constraintsSREFEN s payload earliestTimeToStart
  else if command = Command.SREFEX then constraintsSREFEX s payload earliestTimeToStart
  else throw (Error.fatal "Unknown command!")

/-- `CheckerGDDR6::timeToSatisfyConstraints(command, payload)`, called while
`sc_time_stamp()` is `sc_time_stamp`. -/
def timeToSatisfyConstraints (s : Checker) (sc_time_stamp : Nat) (command : Command)
    (payload : Payload) : Except Error Nat := do
  let earliestTimeToStart := sc_time_stamp
  let earliestTimeToStart ← commandConstraints s command payload earliestTimeToStart
  -- Check if command bus is free
  let earliestTimeToStart := rule earliestTimeToStart s.lastCommandOnBus s.memSpec.tCK
  pure earliestTimeToStart

/-- `CheckerGDDR6::insert(command, payload)`, called while `sc_time_stamp()`
is `sc_time_stamp`. The counter is an `unsigned`: its increment is taken
modulo `2 ^ 32` before the remainder by `banksPerRank`. -/
def insert (s : Checker) (sc_time_stamp : Nat) (command : Command) (payload : Payload) :
    Except Error Checker := do
  let rank := payload.rank
  let bankGroup := payload.bankGroup
  let bank := payload.bank
  let byBank ← assign (s.lastScheduledByCommandAndBank command) bank sc_time_stamp
  let byBankGroup ←
    assign (s.lastScheduledByCommandAndBankGroup command) bankGroup sc_time_stamp
  let byRank ← assign (s.lastScheduledByCommandAndRank command) rank sc_time_stamp
  let lastCommandOnBus := sc_time_stamp
  let last4Activates ←
    if command = Command.ACT ∨ command = Command.REFPB then do
      let window ← index s.last4Activates rank
      let window := if window.length = 4 then window.tail else window
      assign s.last4Activates rank (window ++ [lastCommandOnBus])
    else pure s.last4Activates
  let bankwiseRefreshCounter ←
    if command = Command.REFPB then do
      let counter ← index s.bankwiseRefreshCounter rank
      if s.memSpec.banksPerRank = 0 then throw Error.divisionByZero
      assign s.bankwiseRefreshCounter rank ((counter + 1) % 4294967296 % s.memSpec.banksPerRank)
    else pure s.bankwiseRefreshCounter
  pure { s with
    lastScheduledByCommandAndBank :=
      fun c => if c = command then byBank else s.lastScheduledByCommandAndBank c
    lastScheduledByCommandAndBankGroup :=
      fun c => if c = command then byBankGroup else s.lastScheduledByCommandAndBankGroup c
    lastScheduledByCommandAndRank :=
      fun c => if c = command then byRank else s.lastScheduledByCommandAndRank c
    lastScheduledByCommand :=
      fun c => if c = command then sc_time_stamp else s.lastScheduledByCommand c
    lastCommandOnBus := lastCommandOnBus
    last4Activates := last4Activates
    bankwiseRefreshCounter := bankwiseRefreshCounter }

/-- One call of `insert` by the controller: the simulation time of the call,
the command and the payload. -/
structure Event where
  time : Nat
  command : Command
  payload : Payload
  deriving DecidableEq, Repr

/-- The calls of `insert` of a list of events, one after the other. -/
def insertAll (s : Checker) : List Event → Except Error Checker
  | [] => pure s
  | e :: es => do
    let s ← insert s e.time e.command e.payload
    insertAll s es

/-! ## Vocabulary of the statements -/

/-- The fifteen command kinds `timeToSatisfyConstraints` has a branch for. -/
def supportedCommands : List Command :=
  [Command.RD, Command.RDA, Command.WR, Command.WRA, Command.ACT, Command.PREPB,
   Command.PREAB, Command.REFAB, Command.REFPB, Command.PDEA, Command.PDXA, Command.PDEP,
   Command.PDXP, Command.SREFEN, Command.SREFEX]

/-- The data-bearing command kinds, whose branches assert the burst length. -/
def dataCommands : List Command := [Command.RD, Command.RDA, Command.WR, Command.WRA]

/-- The rank, bank group and bank of the payload are below the counts of the
memory specification. -/
def Payload.inRange (p : Payload) (m : MemSpecGDDR6) : Prop :=
  p.rank < m.ranksPerChannel ∧ p.bankGroup < m.bankGroupsPerChannel ∧ p.bank < m.banksPerChannel

/-- The precondition of a query: identifiers in range and, for a data-bearing
command, the burst length the branch asserts. -/
def Payload.admissible (p : Payload) (m : MemSpecGDDR6) (command : Command) : Prop :=
  p.inRange m ∧ (command ∈ dataCommands → p.burstLength = 16)

instance (p : Payload) (m : MemSpecGDDR6) : Decidable (p.inRange m) :=
  inferInstanceAs (Decidable (_ ∧ _ ∧ _))

instance (p : Payload) (m : MemSpecGDDR6) (command : Command) :
    Decidable (p.admissible m command) :=
  inferInstanceAs (Decidable (_ ∧ (_ → _)))

/-- A value of the simulation clock: any time but the marker `sc_max_time()`. -/
def isTimestamp (t : Nat) : Prop := t ≠ sc_max_time

instance (t : Nat) : Decidable (isTimestamp t) :=
  inferInstanceAs (Decidable (t ≠ sc_max_time))

/-- The vectors of the checker have the sizes the constructor gives them. -/
structure Checker.sized (s : Checker) : Prop where
  byBank : ∀ c, (s.lastScheduledByCommandAndBank c).length = s.memSpec.banksPerChannel
  byBankGroup :
    ∀ c, (s.lastScheduledByCommandAndBankGroup c).length = s.memSpec.bankGroupsPerChannel
  byRank : ∀ c, (s.lastScheduledByCommandAndRank c).length = s.memSpec.ranksPerChannel
  windows : s.last4Activates.length = s.memSpec.ranksPerChannel
  counters : s.bankwiseRefreshCounter.length = s.memSpec.ranksPerChannel

/-- The history is empty: every cell and the bus hold `sc_max_time()` and
every activate window is empty. -/
structure Checker.emptyHistory (s : Checker) : Prop where
  byBank : ∀ c, ∀ x ∈ s.lastScheduledByCommandAndBank c, x = sc_max_time
  byBankGroup : ∀ c, ∀ x ∈ s.lastScheduledByCommandAndBankGroup c, x = sc_max_time
  byRank : ∀ c, ∀ x ∈ s.lastScheduledByCommandAndRank c, x = sc_max_time
  byCommand : ∀ c, s.lastScheduledByCommand c = sc_max_time
  bus : s.lastCommandOnBus = sc_max_time
  windows : ∀ w ∈ s.last4Activates, w = []

/-- The state right after construction, whatever the derived delays: sized,
empty history, every refresh counter zero. -/
structure Checker.initial (s : Checker) : Prop where
  sized : s.sized
  empty : s.emptyHistory
  counters : ∀ n ∈ s.bankwiseRefreshCounter, n = 0

/-- The cell `lastScheduledByCommandAndBank[command][bank]`; the statements
use it for a bank inside the vector. -/
def Checker.bankCell (s : Checker) (command : Command) (bank : Nat) : Nat :=
  (s.lastScheduledByCommandAndBank command).getD bank sc_max_time

/-- The cell `lastScheduledByCommandAndBankGroup[command][bankGroup]`; the
statements use it for a bank group inside the vector. -/
def Checker.bankGroupCell (s : Checker) (command : Command) (bankGroup : Nat) : Nat :=
  (s.lastScheduledByCommandAndBankGroup command).getD bankGroup sc_max_time

/-- The cell `lastScheduledByCommandAndRank[command][rank]`; the statements
use it for a rank inside the vector. -/
def Checker.rankCell (s : Checker) (command : Command) (rank : Nat) : Nat :=
  (s.lastScheduledByCommandAndRank command).getD rank sc_max_time

/-- The queue `last4Activates[rank]`, for a rank inside the vector. -/
def Checker.window (s : Checker) (rank : Nat) : List Nat :=
  s.last4Activates.getD rank []

/-- The counter `bankwiseRefreshCounter[rank]`, for a rank inside the vector. -/
def Checker.counter (s : Checker) (rank : Nat) : Nat :=
  s.bankwiseRefreshCounter.getD rank 0

/-- A memory specification for the concrete instances: 2 ranks of 2 bank
groups of 2 banks, burst length 16 at data rate 4. -/
def exampleSpec : MemSpecGDDR6 where
  banksPerChannel := 8
  bankGroupsPerChannel := 4
  ranksPerChannel := 2
  banksPerRank := 4
  defaultBurstLength := 16
  dataRate := 4
  tCK := 2
  tRL := 10
  tWL := 8
  tWCK2CKPIN := 1
  tWCK2CK := 1
  tWCK2DQO := 1
  tWCK2DQI := 1
  tRTRS := 2
  tWTRS := 6
  tWTRL := 8
  tWR := 20
  tRCDRD := 24
  tRCDWR := 20
  tCCDL := 6
  tCCDS := 3
  tRTP := 4
  tRTW := 18
  tXP := 10
  tLK := 30
  tRC := 60
  tRRDL := 8
  tRRDS := 6
  tRP := 22
  tRAS := 38
  tPPD := 4
  tRFCab := 120
  tRFCpb := 60
  tRREFD := 12
  tXS := 130
  tFAW := 40
  tACTPDE := 4
  tPREPDE := 4
  tREFPDE := 4
  tPD := 10
  tCKESR := 12

/-- The checker constructed for `exampleSpec`, written out. -/
def exampleChecker : Checker where
  memSpec := exampleSpec
  lastScheduledByCommandAndBank := fun _ => List.replicate 8 sc_max_time
  lastScheduledByCommandAndBankGroup := fun _ => List.replicate 4 sc_max_time
  lastScheduledByCommandAndRank := fun _ => List.replicate 2 sc_max_time
  lastScheduledByCommand := fun _ => sc_max_time
  lastCommandOnBus := sc_max_time
  last4Activates := [[], []]
  bankwiseRefreshCounter := [0, 0]
  tBURST := 8
  tRDSRE := 21
  tWRSRE := 19
  tRDWR_R := 12
  tWRRD_R := 8
  tWRRD_S := 22
  tWRRD_L := 24
  tWRPRE := 36

/-- The queue after the `pop` at size four and the `push` of `insert`. -/
def pushWindow (window : List Nat) (t : Nat) : List Nat :=
  (if window.length = 4 then window.tail else window) ++ [t]

/-- The state `insert` leaves when every access is in range and
`banksPerRank` is not zero, written without the error monad. -/
def insertResult (s : Checker) (sc_time_stamp : Nat) (command : Command) (payload : Payload) :
    Checker :=
  { s with
    lastScheduledByCommandAndBank := fun c =>
      if c = command then (s.lastScheduledByCommandAndBank command).set payload.bank sc_time_stamp
      else s.lastScheduledByCommandAndBank c
    lastScheduledByCommandAndBankGroup := fun c =>
      if c = command then
        (s.lastScheduledByCommandAndBankGroup command).set payload.bankGroup sc_time_stamp
      else s.lastScheduledByCommandAndBankGroup c
    lastScheduledByCommandAndRank := fun c =>
      if c = command then (s.lastScheduledByCommandAndRank command).set payload.rank sc_time_stamp
      else s.lastScheduledByCommandAndRank c
    lastScheduledByCommand := fun c =>
      if c = command then sc_time_stamp else s.lastScheduledByCommand c
    lastCommandOnBus := sc_time_stamp
    last4Activates :=
      if command = Command.ACT ∨ command = Command.REFPB then
        s.last4Activates.set payload.rank
          ((if (s.window payload.rank).length = 4 then (s.window payload.rank).tail
            else s.window payload.rank) ++ [sc_time_stamp])
      else s.last4Activates
    bankwiseRefreshCounter :=
      if command = Command.REFPB then
        s.bankwiseRefreshCounter.set payload.rank
          ((s.counter payload.rank + 1) % 4294967296 % s.memSpec.banksPerRank)
      else s.bankwiseRefreshCounter }

/-- The state `insertAll` leaves when every `insert` of the list succeeds. -/
def insertAllResult (s : Checker) : List Event → Checker
  | [] => s
  | e :: es => insertAllResult (insertResult s e.time e.command e.payload) es

/-- The activate-class commands: the kinds `insert` pushes onto the window. -/
def isActivateClass (command : Command) : Prop :=
  command = Command.ACT ∨ command = Command.REFPB

instance (command : Command) : Decidable (isActivateClass command) :=
  inferInstanceAs (Decidable (_ ∨ _))

/-- The insert times of the activate-class events on rank `r`, oldest first. -/
def activateTimes (r : Nat) (events : List Event) : List Nat :=
  (events.filter (fun e => isActivateClass e.command ∧ e.payload.rank = r)).map Event.time

/-- The number of REFPB events on rank `r`. -/
def refreshCount (r : Nat) (events : List Event) : Nat :=
  (events.filter (fun e => e.command = Command.REFPB ∧ e.payload.rank = r)).length

/-- The last `n` entries of a list, in order. -/
def lastN (n : Nat) (l : List Nat) : List Nat := l.drop (l.length - n)

/-- A term of a rule table: `cell + delay`, present when the cell holds a
timestamp. -/
def cellTerm (cell delay : Nat) : Option Nat :=
  if cell = sc_max_time then none else some (cell + delay)

/-- The term of the activate window: its oldest entry plus `tFAW`, present
when the window holds four entries. -/
def windowTerm (window : List Nat) (tFAW : Nat) : Option Nat :=
  if window.length = 4 then window.head?.map (fun oldest => oldest + tFAW) else none

/-- The maximum of the current time and of the terms that are present. -/
def maxOfTerms (now : Nat) (terms : List (Option Nat)) : Nat :=
  (terms.filterMap id).foldl max now

/-- The state with the cell `lastScheduledByCommandAndRank[command][rank]` put
back to `sc_max_time()`; used to measure what one cell adds to a query. -/
def clearRankCell (s : Checker) (command : Command) (rank : Nat) : Checker :=
  { s with
    lastScheduledByCommandAndRank := fun c =>
      if c = command then (s.lastScheduledByCommandAndRank command).set rank sc_max_time
      else s.lastScheduledByCommandAndRank c }

/-- A cross-rank term of a rule table: `channel + delay`, present when the
channel-wide cell holds a timestamp that differs from the cell of the queried
rank. -/
def crossRankTerm (channel rank delay : Nat) : Option Nat :=
  if channel = rank then none else cellTerm channel delay

/-- A term of a rule table with a subtraction: `cell + plus - minus` in the
arithmetic of `sc_time`, present when the cell holds a timestamp. -/
def differenceTerm (cell plus minus : Nat) : Option Nat :=
  if cell = sc_max_time then none else some (sc_time_sub (sc_time_add cell plus) minus)

/-- Every term of a rule table that is present is a value of `sc_time`: the
sum `cell + delay` is at most `sc_max_time()`, so the 64-bit addition of the
source does not wrap. An absent term counts as zero. -/
def termsFit (terms : List (Option Nat)) : Prop :=
  ∀ t ∈ terms, t.getD 0 ≤ sc_max_time

instance (terms : List (Option Nat)) : Decidable (termsFit terms) :=
  inferInstanceAs (Decidable (∀ t ∈ terms, _))

/-- The terms of a rule table as the 64-bit addition of `sc_time` gives them:
each sum reduced modulo `2 ^ 64`. -/
def wrapTerms (terms : List (Option Nat)) : List (Option Nat) :=
  terms.map (Option.map (fun v => v % 18446744073709551616))

/-- The rule table of the ACT query as the specification lists it. -/
def tableACT (s : Checker) (p : Payload) : List (Option Nat) :=
  [cellTerm (s.bankCell Command.ACT p.bank) s.memSpec.tRC,
   cellTerm (s.bankGroupCell Command.ACT p.bankGroup) s.memSpec.tRRDL,
   cellTerm (s.rankCell Command.ACT p.rank) s.memSpec.tRRDS,
   cellTerm (s.bankCell Command.RDA p.bank) (s.memSpec.tRTP + s.memSpec.tRP),
   cellTerm (s.bankCell Command.WRA p.bank) (s.tWRPRE + s.memSpec.tRP),
   cellTerm (s.bankCell Command.PREPB p.bank) s.memSpec.tRP,
   cellTerm (s.rankCell Command.PREAB p.rank) s.memSpec.tRP,
   cellTerm (s.rankCell Command.PDXA p.rank) s.memSpec.tXP,
   cellTerm (s.rankCell Command.PDXP p.rank) s.memSpec.tXP,
   cellTerm (s.rankCell Command.REFAB p.rank) s.memSpec.tRFCab,
   cellTerm (s.bankCell Command.REFPB p.bank) s.memSpec.tRFCpb,
   cellTerm (s.rankCell Command.REFPB p.rank) s.memSpec.tRREFD,
   cellTerm (s.rankCell Command.SREFEX p.rank) s.memSpec.tXS,
   windowTerm (s.window p.rank) s.memSpec.tFAW,
   cellTerm s.lastCommandOnBus s.memSpec.tCK]

/-- The rule table of the RD and RDA query as the specification lists it,
without the rule of RDA alone. -/
def tableRead (s : Checker) (p : Payload) : List (Option Nat) :=
  [cellTerm (s.bankCell Command.ACT p.bank) s.memSpec.tRCDRD,
   cellTerm (s.bankGroupCell Command.RD p.bankGroup) s.memSpec.tCCDL,
   cellTerm (s.rankCell Command.RD p.rank) s.memSpec.tCCDS,
   crossRankTerm (s.lastScheduledByCommand Command.RD) (s.rankCell Command.RD p.rank)
     (s.tBURST + s.memSpec.tRTRS),
   cellTerm (s.bankGroupCell Command.RDA p.bankGroup) s.memSpec.tCCDL,
   cellTerm (s.rankCell Command.RDA p.rank) s.memSpec.tCCDS,
   crossRankTerm (s.lastScheduledByCommand Command.RDA) (s.rankCell Command.RDA p.rank)
     (s.tBURST + s.memSpec.tRTRS),
   cellTerm (s.bankGroupCell Command.WR p.bankGroup) s.tWRRD_L,
   cellTerm (s.rankCell Command.WR p.rank) s.tWRRD_S,
   crossRankTerm (s.lastScheduledByCommand Command.WR) (s.rankCell Command.WR p.rank)
     s.tWRRD_R,
   cellTerm (s.bankGroupCell Command.WRA p.bankGroup) s.tWRRD_L,
   cellTerm (s.rankCell Command.WRA p.rank) s.tWRRD_S,
   crossRankTerm (s.lastScheduledByCommand Command.WRA) (s.rankCell Command.WRA p.rank)
     s.tWRRD_R,
   cellTerm (s.rankCell Command.PDXA p.rank) s.memSpec.tXP,
   cellTerm (s.rankCell Command.SREFEX p.rank) s.memSpec.tLK,
   cellTerm s.lastCommandOnBus s.memSpec.tCK]

/-- The rule of the RDA query alone: WR[bank] + tWRPRE - tRTP. -/
def termAutoPrecharge (s : Checker) (p : Payload) : Option Nat :=
  differenceTerm (s.bankCell Command.WR p.bank) s.tWRPRE s.memSpec.tRTP

/-- The rule table of the WR and WRA query as the specification lists it. -/
def tableWrite (s : Checker) (p : Payload) : List (Option Nat) :=
  [cellTerm (s.bankCell Command.ACT p.bank) s.memSpec.tRCDWR,
   cellTerm (s.rankCell Command.RD p.rank) s.memSpec.tRTW,
   crossRankTerm (s.lastScheduledByCommand Command.RD) (s.rankCell Command.RD p.rank)
     s.tRDWR_R,
   cellTerm (s.rankCell Command.RDA p.rank) s.memSpec.tRTW,
   crossRankTerm (s.lastScheduledByCommand Command.RDA) (s.rankCell Command.RDA p.rank)
     s.tRDWR_R,
   cellTerm (s.bankGroupCell Command.WR p.bankGroup) s.memSpec.tCCDL,
   cellTerm (s.rankCell Command.WR p.rank) s.memSpec.tCCDS,
   crossRankTerm (s.lastScheduledByCommand Command.WR) (s.rankCell Command.WR p.rank)
     (s.tBURST + s.memSpec.tRTRS),
   cellTerm (s.bankGroupCell Command.WRA p.bankGroup) s.memSpec.tCCDL,
   cellTerm (s.rankCell Command.WRA p.rank) s.memSpec.tCCDS,
   crossRankTerm (s.lastScheduledByCommand Command.WRA) (s.rankCell Command.WRA p.rank)
     (s.tBURST + s.memSpec.tRTRS),
   cellTerm (s.rankCell Command.PDXA p.rank) s.memSpec.tXP,
   cellTerm (s.rankCell Command.SREFEX p.rank) s.memSpec.tLK,
   cellTerm s.lastCommandOnBus s.memSpec.tCK]

/-- The rule table of the PREPB query as the specification lists it. -/
def tablePREPB (s : Checker) (p : Payload) : List (Option Nat) :=
  [cellTerm (s.bankCell Command.ACT p.bank) s.memSpec.tRAS,
   cellTerm (s.bankCell Command.RD p.bank) s.memSpec.tRTP,
   cellTerm (s.bankCell Command.WR p.bank) s.tWRPRE,
   cellTerm (s.rankCell Command.PREPB p.rank) s.memSpec.tPPD,
   cellTerm (s.rankCell Command.PDXA p.rank) s.memSpec.tXP,
   cellTerm s.lastCommandOnBus s.memSpec.tCK]

/-- The rule table of the PREAB query as the specification lists it: the
rules of PREPB at rank scope and the refresh-bank rule. -/
def tablePREABClaimed (s : Checker) (p : Payload) : List (Option Nat) :=
  [cellTerm (s.rankCell Command.ACT p.rank) s.memSpec.tRAS,
   cellTerm (s.rankCell Command.RD p.rank) s.memSpec.tRTP,
   cellTerm (s.rankCell Command.WR p.rank) s.tWRPRE,
   cellTerm (s.rankCell Command.PREPB p.rank) s.memSpec.tPPD,
   cellTerm (s.rankCell Command.PDXA p.rank) s.memSpec.tXP,
   cellTerm (s.rankCell Command.REFPB p.rank) s.memSpec.tRFCpb,
   cellTerm s.lastCommandOnBus s.memSpec.tCK]

/-- The rule table of the PREAB query with the two rules the specification
leaves out: RDA[rank] + tRTP and WRA[rank] + tWRPRE. -/
def tablePREAB (s : Checker) (p : Payload) : List (Option Nat) :=
  [cellTerm (s.rankCell Command.ACT p.rank) s.memSpec.tRAS,
   cellTerm (s.rankCell Command.RD p.rank) s.memSpec.tRTP,
   cellTerm (s.rankCell Command.RDA p.rank) s.memSpec.tRTP,
   cellTerm (s.rankCell Command.WR p.rank) s.tWRPRE,
   cellTerm (s.rankCell Command.WRA p.rank) s.tWRPRE,
   cellTerm (s.rankCell Command.PREPB p.rank) s.memSpec.tPPD,
   cellTerm (s.rankCell Command.PDXA p.rank) s.memSpec.tXP,
   cellTerm (s.rankCell Command.REFPB p.rank) s.memSpec.tRFCpb,
   cellTerm s.lastCommandOnBus s.memSpec.tCK]

/-- The rule table of the REFAB query as the specification lists it. -/
def tableREFAB (s : Checker) (p : Payload) : List (Option Nat) :=
  [cellTerm (s.rankCell Command.ACT p.rank) s.memSpec.tRC,
   cellTerm (s.rankCell Command.RDA p.rank) (s.memSpec.tRTP + s.memSpec.tRP),
   cellTerm (s.rankCell Command.WRA p.rank) (s.tWRPRE + s.memSpec.tRP),
   cellTerm (s.rankCell Command.PREPB p.rank) s.memSpec.tRP,
   cellTerm (s.rankCell Command.PREAB p.rank) s.memSpec.tRP,
   cellTerm (s.rankCell Command.PDXP p.rank) s.memSpec.tXP,
   cellTerm (s.rankCell Command.REFAB p.rank) s.memSpec.tRFCab,
   cellTerm (s.rankCell Command.REFPB p.rank) s.memSpec.tRFCpb,
   cellTerm (s.rankCell Command.SREFEX p.rank) s.memSpec.tXS,
   cellTerm s.lastCommandOnBus s.memSpec.tCK]

/-- The rules of the refresh-all row that the specification counts into the
REFPB query and that the REFPB branch does not hold: the rank-scoped rules on
ACT, RDA, WRA and PREPB, and REFPB[rank] + tRFCpb whatever the counter. -/
def tableREFPBClaimedOnly (s : Checker) (p : Payload) : List (Option Nat) :=
  [cellTerm (s.rankCell Command.ACT p.rank) s.memSpec.tRC,
   cellTerm (s.rankCell Command.RDA p.rank) (s.memSpec.tRTP + s.memSpec.tRP),
   cellTerm (s.rankCell Command.WRA p.rank) (s.tWRPRE + s.memSpec.tRP),
   cellTerm (s.rankCell Command.PREPB p.rank) s.memSpec.tRP,
   cellTerm (s.rankCell Command.REFPB p.rank) s.memSpec.tRFCpb]

/-- The rule table of the REFPB query as the branch holds it: the rules of the
activate row, the refresh-bank rule at rank scope with the delay chosen by the
refresh counter of the rank, the activate window and the bus. -/
def tableREFPB (s : Checker) (p : Payload) : List (Option Nat) :=
  [cellTerm (s.bankCell Command.ACT p.bank) s.memSpec.tRC,
   cellTerm (s.bankGroupCell Command.ACT p.bankGroup) s.memSpec.tRRDL,
   cellTerm (s.rankCell Command.ACT p.rank) s.memSpec.tRRDS,
   cellTerm (s.bankCell Command.RDA p.bank) (s.memSpec.tRTP + s.memSpec.tRP),
   cellTerm (s.bankCell Command.WRA p.bank) (s.tWRPRE + s.memSpec.tRP),
   cellTerm (s.bankCell Command.PREPB p.bank) s.memSpec.tRP,
   cellTerm (s.rankCell Command.PREAB p.rank) s.memSpec.tRP,
   cellTerm (s.rankCell Command.PDXA p.rank) s.memSpec.tXP,
   cellTerm (s.rankCell Command.PDXP p.rank) s.memSpec.tXP,
   cellTerm (s.rankCell Command.REFAB p.rank) s.memSpec.tRFCab,
   cellTerm (s.bankCell Command.REFPB p.bank) s.memSpec.tRFCpb,
   cellTerm (s.rankCell Command.REFPB p.rank)
     (if s.counter p.rank = 0 then s.memSpec.tRFCpb else s.memSpec.tRREFD),
   cellTerm (s.rankCell Command.SREFEX p.rank) s.memSpec.tXS,
   windowTerm (s.window p.rank) s.memSpec.tFAW,
   cellTerm s.lastCommandOnBus s.memSpec.tCK]

/-- The rule table of the PDEA query as the specification lists it. -/
def tablePDEA (s : Checker) (p : Payload) : List (Option Nat) :=
  [cellTerm (s.rankCell Command.ACT p.rank) s.memSpec.tACTPDE,
   cellTerm (s.rankCell Command.RD p.rank) s.tRDSRE,
   cellTerm (s.rankCell Command.RDA p.rank) s.tRDSRE,
   cellTerm (s.rankCell Command.WR p.rank) s.tWRSRE,
   cellTerm (s.rankCell Command.WRA p.rank) s.tWRSRE,
   cellTerm (s.rankCell Command.PREPB p.rank) s.memSpec.tPREPDE,
   cellTerm (s.rankCell Command.REFPB p.rank) s.memSpec.tREFPDE,
   cellTerm (s.rankCell Command.PDXA p.rank) s.memSpec.tXP,
   cellTerm s.lastCommandOnBus s.memSpec.tCK]

/-- The rule table of the PDEP query as the specification lists it. -/
def tablePDEP (s : Checker) (p : Payload) : List (Option Nat) :=
  [cellTerm (s.rankCell Command.RD p.rank) s.tRDSRE,
   cellTerm (s.rankCell Command.RDA p.rank) s.tRDSRE,
   cellTerm (s.rankCell Command.WRA p.rank) s.tWRSRE,
   cellTerm (s.rankCell Command.PREPB p.rank) s.memSpec.tPREPDE,
   cellTerm (s.rankCell Command.PREAB p.rank) s.memSpec.tPREPDE,
   cellTerm (s.rankCell Command.REFAB p.rank) s.memSpec.tREFPDE,
   cellTerm (s.rankCell Command.REFPB p.rank) s.memSpec.tREFPDE,
   cellTerm (s.rankCell Command.PDXP p.rank) s.memSpec.tXP,
   cellTerm (s.rankCell Command.SREFEX p.rank) s.memSpec.tXS,
   cellTerm s.lastCommandOnBus s.memSpec.tCK]

/-- The rule table of the PDXA query as the specification lists it. -/
def tablePDXA (s : Checker) (p : Payload) : List (Option Nat) :=
  [cellTerm (s.rankCell Command.PDEA p.rank) s.memSpec.tPD,
   cellTerm s.lastCommandOnBus s.memSpec.tCK]

/-- The rule table of the PDXP query as the specification lists it. -/
def tablePDXP (s : Checker) (p : Payload) : List (Option Nat) :=
  [cellTerm (s.rankCell Command.PDEP p.rank) s.memSpec.tPD,
   cellTerm s.lastCommandOnBus s.memSpec.tCK]

/-- The rule table of the SREFEN query as the specification lists it. -/
def tableSREFEN (s : Checker) (p : Payload) : List (Option Nat) :=
  [cellTerm (s.rankCell Command.ACT p.rank) s.memSpec.tRC,
   cellTerm (s.rankCell Command.RD p.rank) s.tRDSRE,
   cellTerm (s.rankCell Command.RDA p.rank) (max (s.memSpec.tRTP + s.memSpec.tRP) s.tRDSRE),
   cellTerm (s.rankCell Command.WRA p.rank) (s.tWRPRE + s.memSpec.tRP),
   cellTerm (s.rankCell Command.PREPB p.rank) s.memSpec.tRP,
   cellTerm (s.rankCell Command.PREAB p.rank) s.memSpec.tRP,
   cellTerm (s.rankCell Command.PDXP p.rank) s.memSpec.tXP,
   cellTerm (s.rankCell Command.REFAB p.rank) s.memSpec.tRFCab,
   cellTerm (s.rankCell Command.REFPB p.rank) s.memSpec.tRFCpb,
   cellTerm (s.rankCell Command.SREFEX p.rank) s.memSpec.tXS,
   cellTerm s.lastCommandOnBus s.memSpec.tCK]

/-- The rule table of the SREFEX query as the specification lists it. -/
def tableSREFEX (s : Checker) (p : Payload) : List (Option Nat) :=
  [cellTerm (s.rankCell Command.SREFEN p.rank) s.memSpec.tCKESR,
   cellTerm s.lastCommandOnBus s.memSpec.tCK]

/-- The state with the rows of one command kind replaced in the three tables
and its channel-wide cell replaced; used to state that a query does not read
a command kind. -/
def replaceCommand (s : Checker) (command : Command) (byBank byBankGroup byRank : List Nat)
    (channel : Nat) : Checker :=
  { s with
    lastScheduledByCommandAndBank := fun c =>
      if c = command then byBank else s.lastScheduledByCommandAndBank c
    lastScheduledByCommandAndBankGroup := fun c =>
      if c = command then byBankGroup else s.lastScheduledByCommandAndBankGroup c
    lastScheduledByCommandAndRank := fun c =>
      if c = command then byRank else s.lastScheduledByCommandAndRank c
    lastScheduledByCommand := fun c =>
      if c = command then channel else s.lastScheduledByCommand c }

/-- The state with the bank-scoped row of one command kind replaced; used to
state that a query does not read that row. -/
def replaceBankRow (s : Checker) (command : Command) (byBank : List Nat) : Checker :=
  { s with
    lastScheduledByCommandAndBank := fun c =>
      if c = command then byBank else s.lastScheduledByCommandAndBank c }

/-- The state with the channel-wide cell `lastScheduledByCommand[command]` put
back to `sc_max_time()`; used to measure what that cell adds to a query. -/
def clearChannelCell (s : Checker) (command : Command) : Checker :=
  { s with
    lastScheduledByCommand := fun c =>
      if c = command then sc_max_time else s.lastScheduledByCommand c }

/-- Every timestamp the history holds is at most `b`: the cells of the three
tables and the channel-wide cells that are not `sc_max_time()`, and every
entry of every activate window. -/
structure Checker.boundedBy (s : Checker) (b : Nat) : Prop where
  byBank : ∀ c i, s.bankCell c i ≠ sc_max_time → s.bankCell c i ≤ b
  byBankGroup : ∀ c i, s.bankGroupCell c i ≠ sc_max_time → s.bankGroupCell c i ≤ b
  byRank : ∀ c i, s.rankCell c i ≠ sc_max_time → s.rankCell c i ≤ b
  byCommand : ∀ c, s.lastScheduledByCommand c ≠ sc_max_time → s.lastScheduledByCommand c ≤ b
  windows : ∀ r, ∀ x ∈ s.window r, x ≤ b

/-- Every activate window is in non-decreasing order, oldest entry first. -/
def Checker.windowsSorted (s : Checker) : Prop :=
  ∀ r, (s.window r).Pairwise (fun a b => a ≤ b)

/-- The clock of a list of events never decreases. -/
def nonDecreasing (events : List Event) : Prop :=
  (events.map Event.time).Pairwise (fun a b => a ≤ b)

instance (events : List Event) : Decidable (nonDecreasing events) :=
  inferInstanceAs (Decidable (List.Pairwise _ _))

/-- The contract of the caller for the activate-class inserts of a list of
events: each ACT or REFPB insert is made at a time not earlier than a value
the query returned for that command and payload in the state just before the
insert. -/
def legalActivates (s : Checker) : List Event → Prop
  | [] => True
  | e :: es =>
    (isActivateClass e.command →
      ∃ now v, timeToSatisfyConstraints s now e.command e.payload = Except.ok v ∧ v ≤ e.time)
    ∧ match insert s e.time e.command e.payload with
      | Except.ok s1 => legalActivates s1 es
      | Except.error _ => False

/-- Any five consecutive entries `a1 .. a5` of a list of times satisfy
`a1 + tFAW ≤ a5`. -/
def fawSpaced (tFAW : Nat) (times : List Nat) : Prop :=
  ∀ i, i + 4 < times.length → times.getD i 0 + tFAW ≤ times.getD (i + 4) 0

/-- A trace on the example channel: four ACT on rank 0 and one on rank 1, each
at a time its query allows, then a REFPB on rank 0 at time 40, the earliest
its query allows. -/
def exampleTrace : List Event :=
  [⟨0, Command.ACT, ⟨0, 0, 0, 16⟩⟩, ⟨10, Command.ACT, ⟨0, 1, 1, 16⟩⟩,
   ⟨12, Command.ACT, ⟨1, 2, 6, 16⟩⟩, ⟨20, Command.ACT, ⟨0, 2, 2, 16⟩⟩,
   ⟨30, Command.ACT, ⟨0, 3, 3, 16⟩⟩, ⟨40, Command.REFPB, ⟨0, 1, 5, 16⟩⟩]

/-! ## Lemmas on the vector accesses -/

theorem index_eq_getD {α : Type} (v : List α) (i : Nat) (d : α) (h : i < v.length) :
    index v i = pure (v.getD i d) := by
  simp [index, List.getD, List.getElem?_eq_getElem h]

theorem assign_eq {α : Type} (v : List α) (i : Nat) (x : α) (h : i < v.length) :
    assign v i x = pure (v.set i x) := by
  simp [assign, h]

theorem construct_exampleSpec : construct exampleSpec = Except.ok exampleChecker := rfl

theorem index_bank {s : Checker} {p : Payload} (hs : s.sized) (hp : p.inRange s.memSpec)
    (c : Command) :
    index (s.lastScheduledByCommandAndBank c) p.bank = pure (s.bankCell c p.bank) :=
  index_eq_getD _ _ _ (by rw [hs.byBank c]; exact hp.2.2)

theorem index_bankGroup {s : Checker} {p : Payload} (hs : s.sized) (hp : p.inRange s.memSpec)
    (c : Command) :
    index (s.lastScheduledByCommandAndBankGroup c) p.bankGroup
      = pure (s.bankGroupCell c p.bankGroup) :=
  index_eq_getD _ _ _ (by rw [hs.byBankGroup c]; exact hp.2.1)

theorem index_rank {s : Checker} {p : Payload} (hs : s.sized) (hp : p.inRange s.memSpec)
    (c : Command) :
    index (s.lastScheduledByCommandAndRank c) p.rank = pure (s.rankCell c p.rank) :=
  index_eq_getD _ _ _ (by rw [hs.byRank c]; exact hp.1)

theorem index_window {s : Checker} {p : Payload} (hs : s.sized) (hp : p.inRange s.memSpec) :
    index s.last4Activates p.rank = pure (s.window p.rank) :=
  index_eq_getD _ _ _ (by rw [hs.windows]; exact hp.1)

theorem index_counter {s : Checker} {p : Payload} (hs : s.sized) (hp : p.inRange s.memSpec) :
    index s.bankwiseRefreshCounter p.rank = pure (s.counter p.rank) :=
  index_eq_getD _ _ _ (by rw [hs.counters]; exact hp.1)

theorem front_eq_headD (q : List Nat) (h : 4 ≤ q.length) : front q = pure (q.headD 0) := by
  cases q with
  | nil => simp at h
  | cons x xs => rfl

theorem ite_pure {α : Type} (c : Prop) [Decidable c] (a b : α) :
    (if c then (pure a : Except Error α) else pure b) = pure (if c then a else b) := by
  split <;> rfl

theorem fourActivates_eq {s : Checker} {p : Payload} (hs : s.sized) (hp : p.inRange s.memSpec)
    (e : Nat) :
    fourActivates s p.rank e
      = pure (if 4 ≤ (s.window p.rank).length
          then max e (sc_time_add ((s.window p.rank).headD 0) s.memSpec.tFAW) else e) := by
  simp only [fourActivates, index_window hs hp, pure_bind, ge_iff_le]
  split
  · next h => simp only [front_eq_headD _ h, pure_bind]
  · rfl

theorem rule_never (e d : Nat) : rule e sc_max_time d = e := by
  simp [rule]

theorem rule_timestamp (e l d : Nat) (h : l ≠ sc_max_time) :
    rule e l d = max e (sc_time_add l d) := by
  simp [rule, h]

theorem sc_time_add_of_le (a b : Nat) (h : a + b ≤ sc_max_time) : sc_time_add a b = a + b := by
  unfold sc_time_add
  unfold sc_max_time at h
  omega

theorem sc_time_add_le (a b : Nat) : sc_time_add a b ≤ sc_max_time := by
  unfold sc_time_add sc_max_time
  omega

theorem rule_fit (e l d : Nat) (h : l ≠ sc_max_time) (hf : l + d ≤ sc_max_time) :
    rule e l d = max e (l + d) := by
  rw [rule_timestamp _ _ _ h, sc_time_add_of_le _ _ hf]

theorem rule2_eq (e l a b : Nat) : rule2 e l a b = rule e l (a + b) := by
  unfold rule2 rule sc_time_add
  split
  · congr 1
    omega
  · rfl

theorem le_rule (e l d : Nat) : e ≤ rule e l d := by
  unfold rule
  split
  · exact le_max_left _ _
  · exact le_refl _

theorem otherRank_same (l : Nat) : otherRank l l = sc_max_time := by
  simp [otherRank]

/-! ## Empty history -/

theorem bankCell_empty {s : Checker} (h : s.emptyHistory) (c : Command) (i : Nat) :
    s.bankCell c i = sc_max_time := by
  unfold Checker.bankCell
  by_cases hi : i < (s.lastScheduledByCommandAndBank c).length
  · rw [List.getD_eq_getElem _ _ hi]
    exact h.byBank c _ (List.getElem_mem hi)
  · rw [List.getD_eq_default _ _ (by omega)]

theorem bankGroupCell_empty {s : Checker} (h : s.emptyHistory) (c : Command) (i : Nat) :
    s.bankGroupCell c i = sc_max_time := by
  unfold Checker.bankGroupCell
  by_cases hi : i < (s.lastScheduledByCommandAndBankGroup c).length
  · rw [List.getD_eq_getElem _ _ hi]
    exact h.byBankGroup c _ (List.getElem_mem hi)
  · rw [List.getD_eq_default _ _ (by omega)]

theorem rankCell_empty {s : Checker} (h : s.emptyHistory) (c : Command) (i : Nat) :
    s.rankCell c i = sc_max_time := by
  unfold Checker.rankCell
  by_cases hi : i < (s.lastScheduledByCommandAndRank c).length
  · rw [List.getD_eq_getElem _ _ hi]
    exact h.byRank c _ (List.getElem_mem hi)
  · rw [List.getD_eq_default _ _ (by omega)]

theorem window_empty {s : Checker} (h : s.emptyHistory) (i : Nat) : s.window i = [] := by
  unfold Checker.window
  by_cases hi : i < s.last4Activates.length
  · rw [List.getD_eq_getElem _ _ hi]
    exact h.windows _ (List.getElem_mem hi)
  · rw [List.getD_eq_default _ _ (by omega)]

theorem query_empty {s : Checker} {p : Payload} {c : Command} (hs : s.sized)
    (he : s.emptyHistory) (hc : c ∈ supportedCommands) (hp : p.admissible s.memSpec c)
    (now : Nat) : timeToSatisfyConstraints s now c p = Except.ok now := by
  obtain ⟨hr, hb⟩ := hp
  simp only [supportedCommands, List.mem_cons, List.mem_singleton, List.not_mem_nil,
    or_false] at hc
  rcases hc with rfl | rfl | rfl | rfl | rfl | rfl | rfl | rfl | rfl | rfl | rfl | rfl | rfl
    | rfl | rfl <;>
  simp [dataCommands] at hb <;>
  simp [timeToSatisfyConstraints, commandConstraints, constraintsRead, constraintsWrite,
    constraintsACT, constraintsPREPB, constraintsPREAB, constraintsREFAB, constraintsREFPB,
    constraintsPDEA, constraintsPDXA, constraintsPDEP, constraintsPDXP, constraintsSREFEN,
    constraintsSREFEX, fourActivates_eq hs hr, index_bank hs hr, index_bankGroup hs hr,
    index_rank hs hr, index_counter hs hr, bankCell_empty he, bankGroupCell_empty he,
    rankCell_empty he, window_empty he, rule_never, otherRank_same, he.byCommand, he.bus, hb] <;>
  rfl

/-! ## The state after `insert` -/

theorem insert_eq {s : Checker} {p : Payload} (hs : s.sized) (hp : p.inRange s.memSpec)
    (c : Command) (hb : c = Command.REFPB → 0 < s.memSpec.banksPerRank) (t : Nat) :
    insert s t c p = Except.ok (insertResult s t c p) := by
  have h1 : p.bank < (s.lastScheduledByCommandAndBank c).length := by
    rw [hs.byBank c]; exact hp.2.2
  have h2 : p.bankGroup < (s.lastScheduledByCommandAndBankGroup c).length := by
    rw [hs.byBankGroup c]; exact hp.2.1
  have h3 : p.rank < (s.lastScheduledByCommandAndRank c).length := by
    rw [hs.byRank c]; exact hp.1
  have h4 : p.rank < s.last4Activates.length := by rw [hs.windows]; exact hp.1
  have h5 : p.rank < s.bankwiseRefreshCounter.length := by rw [hs.counters]; exact hp.1
  simp only [insert, assign_eq _ _ _ h1, assign_eq _ _ _ h2, assign_eq _ _ _ h3,
    assign_eq _ _ _ h4, assign_eq _ _ _ h5, index_window hs hp, index_counter hs hp, pure_bind]
  by_cases hA : c = Command.ACT
  · subst hA
    simp [insertResult]
    rfl
  · by_cases hR : c = Command.REFPB
    · have hz : s.memSpec.banksPerRank ≠ 0 := Nat.pos_iff_ne_zero.mp (hb hR)
      subst hR
      simp [insertResult, hz]
      rfl
    · simp [insertResult, hA, hR]
      rfl

theorem getD_set {α : Type} (l : List α) (i j : Nat) (x d : α) (hi : i < l.length) :
    (l.set i x).getD j d = if j = i then x else l.getD j d := by
  simp only [List.getD_eq_getElem?_getD, List.getElem?_set, hi, if_true]
  by_cases h : i = j
  · subst h; simp
  · have h2 : ¬ j = i := fun e => h e.symm
    simp [h, h2]

theorem insertResult_memSpec (s : Checker) (t : Nat) (c : Command) (p : Payload) :
    (insertResult s t c p).memSpec = s.memSpec := rfl

theorem insertResult_bus (s : Checker) (t : Nat) (c : Command) (p : Payload) :
    (insertResult s t c p).lastCommandOnBus = t := rfl

theorem insertResult_byCommand (s : Checker) (t : Nat) (c : Command) (p : Payload)
    (c2 : Command) :
    (insertResult s t c p).lastScheduledByCommand c2
      = if c2 = c then t else s.lastScheduledByCommand c2 := rfl

theorem insertResult_sized {s : Checker} (hs : s.sized) (t : Nat) (c : Command) (p : Payload) :
    (insertResult s t c p).sized := by
  constructor
  · intro c2
    show (if c2 = c then _ else _ : List Nat).length = _
    split
    · rw [List.length_set]; exact hs.byBank c
    · exact hs.byBank c2
  · intro c2
    show (if c2 = c then _ else _ : List Nat).length = _
    split
    · rw [List.length_set]; exact hs.byBankGroup c
    · exact hs.byBankGroup c2
  · intro c2
    show (if c2 = c then _ else _ : List Nat).length = _
    split
    · rw [List.length_set]; exact hs.byRank c
    · exact hs.byRank c2
  · show (if _ then _ else _ : List (List Nat)).length = _
    split
    · rw [List.length_set]; exact hs.windows
    · exact hs.windows
  · show (if _ then _ else _ : List Nat).length = _
    split
    · rw [List.length_set]; exact hs.counters
    · exact hs.counters

theorem insertResult_bankCell {s : Checker} {p : Payload} (hs : s.sized)
    (hp : p.inRange s.memSpec) (t : Nat) (c c2 : Command) (b : Nat) :
    (insertResult s t c p).bankCell c2 b
      = if c2 = c ∧ b = p.bank then t else s.bankCell c2 b := by
  have h1 : p.bank < (s.lastScheduledByCommandAndBank c).length := by
    rw [hs.byBank c]; exact hp.2.2
  show (if c2 = c then _ else _ : List Nat).getD b sc_max_time = _
  by_cases h : c2 = c
  · subst h
    simp only [if_true, true_and]
    rw [getD_set _ _ _ _ _ h1]
    rfl
  · simp only [h, if_false, false_and]
    rfl

theorem insertResult_bankGroupCell {s : Checker} {p : Payload} (hs : s.sized)
    (hp : p.inRange s.memSpec) (t : Nat) (c c2 : Command) (g : Nat) :
    (insertResult s t c p).bankGroupCell c2 g
      = if c2 = c ∧ g = p.bankGroup then t else s.bankGroupCell c2 g := by
  have h1 : p.bankGroup < (s.lastScheduledByCommandAndBankGroup c).length := by
    rw [hs.byBankGroup c]; exact hp.2.1
  show (if c2 = c then _ else _ : List Nat).getD g sc_max_time = _
  by_cases h : c2 = c
  · subst h
    simp only [if_true, true_and]
    rw [getD_set _ _ _ _ _ h1]
    rfl
  · simp only [h, if_false, false_and]
    rfl

theorem insertResult_rankCell {s : Checker} {p : Payload} (hs : s.sized)
    (hp : p.inRange s.memSpec) (t : Nat) (c c2 : Command) (r : Nat) :
    (insertResult s t c p).rankCell c2 r
      = if c2 = c ∧ r = p.rank then t else s.rankCell c2 r := by
  have h1 : p.rank < (s.lastScheduledByCommandAndRank c).length := by
    rw [hs.byRank c]; exact hp.1
  show (if c2 = c then _ else _ : List Nat).getD r sc_max_time = _
  by_cases h : c2 = c
  · subst h
    simp only [if_true, true_and]
    rw [getD_set _ _ _ _ _ h1]
    rfl
  · simp only [h, if_false, false_and]
    rfl

theorem insertResult_window {s : Checker} {p : Payload} (hs : s.sized)
    (hp : p.inRange s.memSpec) (t : Nat) (c : Command) (r : Nat) :
    (insertResult s t c p).window r
      = if (c = Command.ACT ∨ c = Command.REFPB) ∧ r = p.rank then pushWindow (s.window r) t
        else s.window r := by
  have h4 : p.rank < s.last4Activates.length := by rw [hs.windows]; exact hp.1
  unfold Checker.window insertResult
  by_cases h : c = Command.ACT ∨ c = Command.REFPB
  · simp only [h, if_true, true_and]
    rw [getD_set _ _ _ _ _ h4]
    by_cases hr : r = p.rank
    · subst hr; simp only [if_true]; rfl
    · simp only [hr, if_false]
  · simp only [h, if_false, false_and]

theorem insertResult_counter {s : Checker} {p : Payload} (hs : s.sized)
    (hp : p.inRange s.memSpec) (t : Nat) (c : Command) (r : Nat) :
    (insertResult s t c p).counter r
      = if c = Command.REFPB ∧ r = p.rank
        then (s.counter r + 1) % 4294967296 % s.memSpec.banksPerRank
        else s.counter r := by
  have h5 : p.rank < s.bankwiseRefreshCounter.length := by rw [hs.counters]; exact hp.1
  unfold Checker.counter insertResult
  by_cases h : c = Command.REFPB
  · simp only [h, if_true, true_and]
    rw [getD_set _ _ _ _ _ h5]
    by_cases hr : r = p.rank
    · subst hr; simp only [if_true]; rfl
    · simp only [hr, if_false]
  · simp only [h, if_false, false_and]

/-! ## The constructed state -/

theorem construct_initial {m : MemSpecGDDR6} {s : Checker} (h : construct m = Except.ok s) :
    s.initial ∧ s.memSpec = m := by
  unfold construct at h
  by_cases hd : m.dataRate = 0
  · simp [hd] at h
    cases h
  · simp only [hd, if_false] at h
    cases hm : sc_time_mul (m.defaultBurstLength / m.dataRate) m.tCK with
    | error e =>
      rw [hm] at h
      cases h
    | ok b =>
    rw [hm] at h
    injection h with h
    subst h
    refine ⟨⟨⟨?_, ?_, ?_, ?_, ?_⟩, ⟨?_, ?_, ?_, ?_, ?_, ?_⟩, ?_⟩, rfl⟩
    · intro c; exact List.length_replicate _ _
    · intro c; exact List.length_replicate _ _
    · intro c; exact List.length_replicate _ _
    · exact List.length_replicate _ _
    · exact List.length_replicate _ _
    · intro c x hx; exact List.eq_of_mem_replicate hx
    · intro c x hx; exact List.eq_of_mem_replicate hx
    · intro c x hx; exact List.eq_of_mem_replicate hx
    · intro c; rfl
    · rfl
    · intro w hw; exact List.eq_of_mem_replicate hw
    · intro n hn; exact List.eq_of_mem_replicate hn

theorem exampleChecker_initial : exampleChecker.initial :=
  (construct_initial construct_exampleSpec).1

/-! ## Every supported query returns -/

theorem query_total {s : Checker} {p : Payload} {c : Command} (hs : s.sized)
    (hc : c ∈ supportedCommands) (hp : p.admissible s.memSpec c) (now : Nat) :
    ∃ e, timeToSatisfyConstraints s now c p
      = Except.ok (rule e s.lastCommandOnBus s.memSpec.tCK) := by
  obtain ⟨hr, hb⟩ := hp
  simp only [supportedCommands, List.mem_cons, List.mem_singleton, List.not_mem_nil,
    or_false] at hc
  rcases hc with rfl | rfl | rfl | rfl | rfl | rfl | rfl | rfl | rfl | rfl | rfl | rfl | rfl
    | rfl | rfl <;>
  simp [dataCommands] at hb <;>
  simp only [rule2_eq, timeToSatisfyConstraints, commandConstraints, constraintsRead, constraintsWrite,
    constraintsACT, constraintsPREPB, constraintsPREAB, constraintsREFAB, constraintsREFPB,
    constraintsPDEA, constraintsPDXA, constraintsPDEP, constraintsPDXP, constraintsSREFEN,
    constraintsSREFEX, fourActivates_eq hs hr, index_bank hs hr, index_bankGroup hs hr,
    index_rank hs hr, index_counter hs hr, hb, pure_bind, ite_pure, reduceCtorEq, or_false,
    false_or, or_true, true_or, if_true, if_false, ne_eq, not_true_eq_false] <;>
  exact ⟨_, rfl⟩

/-! ## Sequences of inserts -/

theorem insertAllResult_sized {s : Checker} (hs : s.sized) (events : List Event) :
    (insertAllResult s events).sized := by
  induction events generalizing s with
  | nil => exact hs
  | cons e es ih => exact ih (insertResult_sized hs e.time e.command e.payload)

theorem insertAllResult_memSpec (s : Checker) (events : List Event) :
    (insertAllResult s events).memSpec = s.memSpec := by
  induction events generalizing s with
  | nil => rfl
  | cons e es ih => exact (ih (insertResult s e.time e.command e.payload)).trans rfl

theorem insertAll_eq {s : Checker} (hs : s.sized) (events : List Event)
    (hp : ∀ e ∈ events, e.payload.inRange s.memSpec)
    (hb : (∃ e ∈ events, e.command = Command.REFPB) → 0 < s.memSpec.banksPerRank) :
    insertAll s events = Except.ok (insertAllResult s events) := by
  induction events generalizing s with
  | nil => rfl
  | cons e es ih =>
    have he : e.payload.inRange s.memSpec := hp e (List.mem_cons_self _ _)
    have hbe : e.command = Command.REFPB → 0 < s.memSpec.banksPerRank :=
      fun h => hb ⟨e, List.mem_cons_self _ _, h⟩
    simp only [insertAll, insert_eq hs he e.command hbe e.time]
    show insertAll (insertResult s e.time e.command e.payload) es = _
    exact ih (insertResult_sized hs e.time e.command e.payload)
      (fun x hx => hp x (List.mem_cons_of_mem _ hx))
      (fun ⟨x, hx, hc⟩ => hb ⟨x, List.mem_cons_of_mem _ hx, hc⟩)

theorem lastN_of_length_le (n : Nat) (l : List Nat) (h : l.length ≤ n) : lastN n l = l := by
  unfold lastN
  rw [Nat.sub_eq_zero_of_le h]
  rfl

theorem lastN_cons_of_le (n : Nat) (x : Nat) (l : List Nat) (h : n ≤ l.length) :
    lastN n (x :: l) = lastN n l := by
  unfold lastN
  have : (x :: l).length - n = (l.length - n) + 1 := by simp only [List.length_cons]; omega
  rw [this]
  rfl

theorem length_lastN (n : Nat) (l : List Nat) : (lastN n l).length = min n l.length := by
  unfold lastN
  rw [List.length_drop]
  omega

theorem length_pushWindow_le (w : List Nat) (t : Nat) (h : w.length ≤ 4) :
    (pushWindow w t).length ≤ 4 := by
  unfold pushWindow
  split
  · next h4 => simp [h4]
  · next h4 => simp only [List.length_append, List.length_singleton]; omega

theorem lastN_pushWindow_append (w : List Nat) (t : Nat) (rest : List Nat) (h : w.length ≤ 4) :
    lastN 4 (pushWindow w t ++ rest) = lastN 4 (w ++ t :: rest) := by
  unfold pushWindow
  split
  · next h4 =>
    cases w with
    | nil => simp at h4
    | cons x xs =>
      simp only [List.length_cons] at h4
      simp only [List.tail_cons, List.cons_append, List.append_assoc, List.singleton_append]
      rw [lastN_cons_of_le]
      · rfl
      · simp only [List.length_append, List.length_cons]
        omega
  · rw [List.append_assoc]
    rfl

theorem activateTimes_cons (r : Nat) (e : Event) (es : List Event) :
    activateTimes r (e :: es)
      = if isActivateClass e.command ∧ e.payload.rank = r then e.time :: activateTimes r es
        else activateTimes r es := by
  unfold activateTimes
  by_cases h : isActivateClass e.command ∧ e.payload.rank = r
  · simp [List.filter_cons, h]
  · simp [List.filter_cons, h]

theorem insertAllResult_window {s : Checker} (hs : s.sized) (events : List Event)
    (hp : ∀ e ∈ events, e.payload.inRange s.memSpec) (r : Nat)
    (hw : (s.window r).length ≤ 4) :
    (insertAllResult s events).window r = lastN 4 (s.window r ++ activateTimes r events) := by
  induction events generalizing s with
  | nil =>
    simp only [activateTimes, List.filter_nil, List.map_nil, List.append_nil]
    exact (lastN_of_length_le 4 _ hw).symm
  | cons e es ih =>
    have he : e.payload.inRange s.memSpec := hp e (List.mem_cons_self _ _)
    have hs1 := insertResult_sized hs e.time e.command e.payload
    have hw1 := insertResult_window hs he e.time e.command r
    have step := ih hs1 (fun x hx => hp x (List.mem_cons_of_mem _ hx))
    show (insertAllResult (insertResult s e.time e.command e.payload) es).window r = _
    rw [activateTimes_cons]
    by_cases h : isActivateClass e.command ∧ e.payload.rank = r
    · have h2 : (e.command = Command.ACT ∨ e.command = Command.REFPB) ∧ r = e.payload.rank :=
        ⟨h.1, h.2.symm⟩
      rw [if_pos h2] at hw1
      rw [if_pos h, step (by rw [hw1]; exact length_pushWindow_le _ _ hw), hw1]
      exact lastN_pushWindow_append _ _ _ hw
    · have h2 : ¬ ((e.command = Command.ACT ∨ e.command = Command.REFPB)
          ∧ r = e.payload.rank) := fun h3 => h ⟨h3.1, h3.2.symm⟩
      rw [if_neg h2] at hw1
      rw [if_neg h, step (by rw [hw1]; exact hw), hw1]

theorem refreshCount_cons (r : Nat) (e : Event) (es : List Event) :
    refreshCount r (e :: es)
      = (if e.command = Command.REFPB ∧ e.payload.rank = r then 1 else 0)
          + refreshCount r es := by
  unfold refreshCount
  by_cases h : e.command = Command.REFPB ∧ e.payload.rank = r
  · simp [List.filter_cons, h]; omega
  · simp [List.filter_cons, h]

theorem insertAllResult_counter {s : Checker} (hs : s.sized) (events : List Event)
    (hp : ∀ e ∈ events, e.payload.inRange s.memSpec) (r : Nat)
    (hb : s.memSpec.banksPerRank < 4294967296) (hc : s.counter r < s.memSpec.banksPerRank) :
    (insertAllResult s events).counter r
      = (s.counter r + refreshCount r events) % s.memSpec.banksPerRank := by
  induction events generalizing s with
  | nil =>
    simp only [refreshCount, List.filter_nil, List.length_nil, Nat.add_zero]
    exact (Nat.mod_eq_of_lt hc).symm
  | cons e es ih =>
    have he : e.payload.inRange s.memSpec := hp e (List.mem_cons_self _ _)
    have hs1 := insertResult_sized hs e.time e.command e.payload
    have hc1 := insertResult_counter hs he e.time e.command r
    have step := ih hs1 (fun x hx => hp x (List.mem_cons_of_mem _ hx)) hb
    show (insertAllResult (insertResult s e.time e.command e.payload) es).counter r = _
    rw [refreshCount_cons]
    by_cases h : e.command = Command.REFPB ∧ e.payload.rank = r
    · have h2 : e.command = Command.REFPB ∧ r = e.payload.rank := ⟨h.1, h.2.symm⟩
      rw [if_pos h2] at hc1
      have hsmall : (s.counter r + 1) % 4294967296 = s.counter r + 1 :=
        Nat.mod_eq_of_lt (by omega)
      rw [hsmall] at hc1
      have hlt : (insertResult s e.time e.command e.payload).counter r
          < s.memSpec.banksPerRank := by
        rw [hc1]; exact Nat.mod_lt _ (by omega)
      rw [if_pos h, step hlt, hc1, insertResult_memSpec, Nat.mod_add_mod]
      congr 1
      omega
    · have h2 : ¬ (e.command = Command.REFPB ∧ r = e.payload.rank) :=
        fun h3 => h ⟨h3.1, h3.2.symm⟩
      rw [if_neg h2] at hc1
      rw [if_neg h, step (by rw [hc1]; exact hc), hc1, insertResult_memSpec, Nat.zero_add]

theorem getElem?_of_getD {α : Type} (l : List α) (i : Nat) (d : α) (h : i < l.length) :
    l[i]? = some (l.getD i d) := by
  simp [List.getElem?_eq_getElem h]

theorem window_initial {s : Checker} (h : s.initial) (r : Nat) : s.window r = [] :=
  window_empty h.empty r

theorem counter_initial {s : Checker} (h : s.initial) (r : Nat) : s.counter r = 0 := by
  unfold Checker.counter
  by_cases hi : r < s.bankwiseRefreshCounter.length
  · rw [List.getD_eq_getElem _ _ hi]
    exact h.counters _ (List.getElem_mem hi)
  · rw [List.getD_eq_default _ _ (by omega)]

theorem query_ACT_window {s : Checker} {p : Payload} (hs : s.sized) (hp : p.inRange s.memSpec)
    (now : Nat) (hw : 4 ≤ (s.window p.rank).length) :
    ∃ v, timeToSatisfyConstraints s now Command.ACT p = Except.ok v
      ∧ sc_time_add ((s.window p.rank).headD 0) s.memSpec.tFAW ≤ v := by
  simp only [rule2_eq, timeToSatisfyConstraints, commandConstraints, constraintsACT,
    fourActivates_eq hs hp, index_bank hs hp, index_bankGroup hs hp, index_rank hs hp,
    pure_bind, reduceCtorEq, or_false, false_or, if_true, if_false, if_pos hw]
  exact ⟨_, rfl, le_trans (le_max_right _ _) (le_rule _ _ _)⟩

/-! ## The refresh-bank branch -/

theorem clearRankCell_sized {s : Checker} (hs : s.sized) (c : Command) (r : Nat) :
    (clearRankCell s c r).sized := by
  refine ⟨hs.byBank, hs.byBankGroup, ?_, hs.windows, hs.counters⟩
  intro c2
  show (if c2 = c then _ else _ : List Nat).length = _
  split
  · rw [List.length_set]; exact hs.byRank c
  · exact hs.byRank c2

theorem clearRankCell_rankCell {s : Checker} (c : Command) (r : Nat)
    (hr : r < (s.lastScheduledByCommandAndRank c).length) (c2 : Command) (r2 : Nat) :
    (clearRankCell s c r).rankCell c2 r2
      = if c2 = c ∧ r2 = r then sc_max_time else s.rankCell c2 r2 := by
  show (if c2 = c then _ else _ : List Nat).getD r2 sc_max_time = _
  by_cases h : c2 = c
  · subst h
    simp only [if_true, true_and]
    rw [getD_set _ _ _ _ _ hr]
    rfl
  · simp only [h, if_false, false_and]
    rfl

theorem rule_max (e a l d : Nat) : rule (max e a) l d = max (rule e l d) a := by
  unfold rule
  split <;> omega

theorem ite_max_max (c : Prop) [Decidable c] (e a k : Nat) :
    (if c then max (max e a) k else max e a) = max (if c then max e k else e) a := by
  split <;> omega

theorem le_ite_max (c : Prop) [Decidable c] (e k : Nat) :
    e ≤ if c then max e k else e := by
  split
  · exact le_max_left _ _
  · exact le_refl _

theorem query_REFPB_counter_zero {s : Checker} {p : Payload} (hs : s.sized)
    (hp : p.inRange s.memSpec) (now : Nat)
    (hT : isTimestamp (s.rankCell Command.REFPB p.rank)) (h0 : s.counter p.rank = 0) :
    ∃ v, timeToSatisfyConstraints s now Command.REFPB p = Except.ok v
      ∧ sc_time_add (s.rankCell Command.REFPB p.rank) s.memSpec.tRFCpb ≤ v := by
  have hT : s.rankCell Command.REFPB p.rank ≠ sc_max_time := hT
  simp only [rule2_eq, timeToSatisfyConstraints, commandConstraints, constraintsREFPB,
    fourActivates_eq hs hp, index_bank hs hp, index_bankGroup hs hp, index_rank hs hp,
    index_counter hs hp, pure_bind, ite_pure, reduceCtorEq, or_false, false_or, if_true,
    if_false, ne_eq, hT, not_false_eq_true, h0]
  exact ⟨_, rfl, le_trans (le_trans (le_trans (le_max_right _ _) (le_rule _ _ _))
    (le_ite_max _ _ _)) (le_rule _ _ _)⟩

theorem query_REFPB_counter_pos {s : Checker} {p : Payload} (hs : s.sized)
    (hp : p.inRange s.memSpec) (now : Nat)
    (hT : isTimestamp (s.rankCell Command.REFPB p.rank)) (h0 : s.counter p.rank ≠ 0) :
    ∃ v0, timeToSatisfyConstraints (clearRankCell s Command.REFPB p.rank) now Command.REFPB p
        = Except.ok v0
      ∧ timeToSatisfyConstraints s now Command.REFPB p
        = Except.ok (max v0 (sc_time_add (s.rankCell Command.REFPB p.rank)
            s.memSpec.tRREFD)) := by
  have hT : s.rankCell Command.REFPB p.rank ≠ sc_max_time := hT
  have hs2 := clearRankCell_sized hs Command.REFPB p.rank
  have hp2 : p.inRange (clearRankCell s Command.REFPB p.rank).memSpec := hp
  have hr : p.rank < (s.lastScheduledByCommandAndRank Command.REFPB).length := by
    rw [hs.byRank]; exact hp.1
  have hcell := clearRankCell_rankCell (s := s) Command.REFPB p.rank hr
  have hb : ∀ c, (clearRankCell s Command.REFPB p.rank).bankCell c p.bank
      = s.bankCell c p.bank := fun _ => rfl
  have hg : ∀ c, (clearRankCell s Command.REFPB p.rank).bankGroupCell c p.bankGroup
      = s.bankGroupCell c p.bankGroup := fun _ => rfl
  have hw : (clearRankCell s Command.REFPB p.rank).window p.rank = s.window p.rank := rfl
  have hm : (clearRankCell s Command.REFPB p.rank).memSpec = s.memSpec := rfl
  have hbus : (clearRankCell s Command.REFPB p.rank).lastCommandOnBus = s.lastCommandOnBus :=
    rfl
  have hpre : (clearRankCell s Command.REFPB p.rank).tWRPRE = s.tWRPRE := rfl
  simp only [rule2_eq, timeToSatisfyConstraints, commandConstraints, constraintsREFPB,
    fourActivates_eq hs hp, index_bank hs hp, index_bankGroup hs hp, index_rank hs hp,
    index_counter hs hp, fourActivates_eq hs2 hp2, index_bank hs2 hp2,
    index_bankGroup hs2 hp2, index_rank hs2 hp2, index_counter hs2 hp2, hcell, hb, hg, hw, hm,
    hbus, hpre, pure_bind, ite_pure, reduceCtorEq, or_false, false_or, if_true, if_false,
    ne_eq, hT, not_false_eq_true, h0, false_and, true_and, not_true_eq_false]
  refine ⟨_, rfl, ?_⟩
  rw [rule_max, ite_max_max, rule_max]
  rfl

theorem query_REFPB_after_first {s : Checker} {p q : Payload} (hi : s.initial)
    (hp : p.inRange s.memSpec) (hq : q.inRange s.memSpec) (hr : q.rank = p.rank)
    (hb : q.bank ≠ p.bank) (h2 : 2 ≤ s.memSpec.banksPerRank) (T : Nat) (hT : isTimestamp T)
    (hf : T + max s.memSpec.tRREFD s.memSpec.tCK ≤ sc_max_time) :
    (insertResult s T Command.REFPB p).counter p.rank = 1
      ∧ timeToSatisfyConstraints (insertResult s T Command.REFPB p) T Command.REFPB q
        = Except.ok (T + max s.memSpec.tRREFD s.memSpec.tCK) := by
  have hT : T ≠ sc_max_time := hT
  have hs := hi.sized
  have he := hi.empty
  have hs1 := insertResult_sized hs T Command.REFPB p
  have hq1 : q.inRange (insertResult s T Command.REFPB p).memSpec := hq
  have hcnt : (insertResult s T Command.REFPB p).counter p.rank = 1 := by
    rw [insertResult_counter hs hp, if_pos ⟨rfl, rfl⟩, counter_initial hi]
    exact Nat.mod_eq_of_lt (by omega)
  refine ⟨hcnt, ?_⟩
  have hcnt2 : (insertResult s T Command.REFPB p).counter q.rank ≠ 0 := by
    rw [hr, hcnt]; exact Nat.one_ne_zero
  have hwin : (insertResult s T Command.REFPB p).window q.rank = [T] := by
    rw [insertResult_window hs hp, if_pos ⟨Or.inr rfl, hr⟩, window_empty he]
    rfl
  simp only [rule2_eq, timeToSatisfyConstraints, commandConstraints, constraintsREFPB,
    fourActivates_eq hs1 hq1, index_bank hs1 hq1, index_bankGroup hs1 hq1, index_rank hs1 hq1,
    index_counter hs1 hq1, hwin, hcnt2, pure_bind, ite_pure, reduceCtorEq, or_false, false_or,
    if_true, if_false]
  simp only [insertResult_bankCell hs hp, insertResult_bankGroupCell hs hp,
    insertResult_rankCell hs hp, insertResult_bus, insertResult_memSpec,
    bankCell_empty he, bankGroupCell_empty he, rankCell_empty he, rule_never, hb, hr,
    reduceCtorEq, if_true, if_false, ne_eq, hT,
    not_false_eq_true, false_and, true_and, and_false, and_true, not_true_eq_false,
    List.length_singleton, rule_timestamp _ _ _ hT]
  rw [if_neg (by omega)]
  show Except.ok _ = Except.ok _
  congr 1
  unfold sc_max_time at hf
  simp only [sc_time_add]
  omega

theorem otherRank_never (l : Nat) (h : l ≠ sc_max_time) : otherRank l sc_max_time = l := by
  simp [otherRank, h]

/-! ## Rule tables -/

theorem maxOfTerms_nil (e : Nat) : maxOfTerms e [] = e := rfl

theorem maxOfTerms_wrap_nil (e : Nat) : maxOfTerms e (wrapTerms []) = e := rfl

theorem wrapTerms_of_fit {terms : List (Option Nat)} (h : termsFit terms) :
    wrapTerms terms = terms := by
  unfold wrapTerms
  conv_rhs => rw [← List.map_id terms]
  apply List.map_congr_left
  intro t ht
  have := h t ht
  cases t with
  | none => rfl
  | some v =>
    have hv : v ≤ sc_max_time := this
    unfold sc_max_time at hv
    show some (v % 18446744073709551616) = some v
    rw [Nat.mod_eq_of_lt (by omega)]

theorem termsFit_of_mem {terms : List (Option Nat)} (h : termsFit terms) {v : Nat}
    (hv : some v ∈ terms) : v ≤ sc_max_time :=
  h _ hv

theorem termsFit_cellTerm {terms : List (Option Nat)} (h : termsFit terms) {cell delay : Nat}
    (hm : cellTerm cell delay ∈ terms) (hc : cell ≠ sc_max_time) :
    cell + delay ≤ sc_max_time := by
  have := h _ hm
  simpa [cellTerm, hc] using this

theorem maxOfTerms_cellTerm (e cell delay : Nat) (terms : List (Option Nat)) :
    maxOfTerms e (wrapTerms (cellTerm cell delay :: terms))
      = maxOfTerms (rule e cell delay) (wrapTerms terms) := by
  unfold maxOfTerms cellTerm rule wrapTerms sc_time_add
  by_cases h : cell = sc_max_time
  · simp [h]
  · simp [h]

theorem maxOfTerms_windowTerm (e tFAW : Nat) (window : List Nat) (terms : List (Option Nat))
    (h : window.length ≤ 4) :
    maxOfTerms e (wrapTerms (windowTerm window tFAW :: terms))
      = maxOfTerms (if 4 ≤ window.length then max e (sc_time_add (window.headD 0) tFAW) else e)
          (wrapTerms terms) := by
  unfold maxOfTerms windowTerm wrapTerms sc_time_add
  by_cases h4 : window.length = 4
  · cases window with
    | nil => simp at h4
    | cons x xs => simp [h4]
  · have h5 : ¬ 4 ≤ window.length := by omega
    simp [h4, h5]

theorem query_ACT_wrap {s : Checker} {p : Payload} (hs : s.sized) (hp : p.inRange s.memSpec)
    (now : Nat) (hw : (s.window p.rank).length ≤ 4) :
    timeToSatisfyConstraints s now Command.ACT p
      = Except.ok (maxOfTerms now (wrapTerms (tableACT s p))) := by
  simp only [rule2_eq, timeToSatisfyConstraints, commandConstraints, constraintsACT,
    fourActivates_eq hs hp, index_bank hs hp, index_bankGroup hs hp, index_rank hs hp,
    pure_bind, reduceCtorEq, or_false, false_or, if_true, if_false, tableACT,
    maxOfTerms_cellTerm,
    maxOfTerms_windowTerm _ _ _ _ hw, maxOfTerms_wrap_nil]
  rfl

theorem query_ACT_eq {s : Checker} {p : Payload} (hs : s.sized) (hp : p.inRange s.memSpec)
    (now : Nat) (hw : (s.window p.rank).length ≤ 4)
    (hfit : termsFit (tableACT s p)) :
    timeToSatisfyConstraints s now Command.ACT p
      = Except.ok (maxOfTerms now (tableACT s p)) := by
  rw [query_ACT_wrap hs hp now hw, wrapTerms_of_fit hfit]

/-! ## Rule tables of the other commands -/

theorem maxOfTerms_crossRankTerm (e channel rank delay : Nat) (terms : List (Option Nat)) :
    maxOfTerms e (wrapTerms (crossRankTerm channel rank delay :: terms))
      = maxOfTerms (rule e (otherRank channel rank) delay) (wrapTerms terms) := by
  unfold crossRankTerm otherRank
  by_cases h : channel = rank
  · simp only [h, if_true, ne_eq, not_true_eq_false, if_false, rule_never]
    rfl
  · simp only [h, if_false, ne_eq, not_false_eq_true, if_true]
    exact maxOfTerms_cellTerm _ _ _ _

theorem foldl_max_comm (l : List Nat) (e x : Nat) :
    List.foldl max (max e x) l = max (List.foldl max e l) x := by
  induction l generalizing e with
  | nil => rfl
  | cons y ys ih =>
    simp only [List.foldl_cons]
    rw [← ih]
    congr 1
    omega

theorem maxOfTerms_append_some (e x : Nat) (terms : List (Option Nat)) :
    maxOfTerms e (terms ++ [some x]) = max (maxOfTerms e terms) x := by
  simp [maxOfTerms, List.filterMap_append]

theorem maxOfTerms_append_none (e : Nat) (terms : List (Option Nat)) :
    maxOfTerms e (terms ++ [none]) = maxOfTerms e terms := by
  simp [maxOfTerms, List.filterMap_append]

theorem maxOfTerms_max (e x : Nat) (terms : List (Option Nat)) :
    maxOfTerms (max e x) terms = max (maxOfTerms e terms) x :=
  foldl_max_comm _ _ _

theorem le_foldl_max (l : List Nat) (e : Nat) : e ≤ List.foldl max e l := by
  induction l generalizing e with
  | nil => exact le_refl _
  | cons y ys ih => exact le_trans (le_max_left _ _) (ih (max e y))

theorem le_foldl_max_of_mem (l : List Nat) (e x : Nat) (h : x ∈ l) :
    x ≤ List.foldl max e l := by
  induction l generalizing e with
  | nil => cases h
  | cons y ys ih =>
    simp only [List.foldl_cons]
    rcases List.mem_cons.mp h with rfl | h
    · exact le_trans (le_max_right _ _) (le_foldl_max _ _)
    · exact ih _ h

theorem le_maxOfTerms (e : Nat) (terms : List (Option Nat)) : e ≤ maxOfTerms e terms :=
  le_foldl_max _ _

theorem le_maxOfTerms_of_mem (e x : Nat) (terms : List (Option Nat)) (h : some x ∈ terms) :
    x ≤ maxOfTerms e terms := by
  apply le_foldl_max_of_mem
  rw [List.mem_filterMap]
  exact ⟨some x, h, rfl⟩

theorem query_RD_wrap {s : Checker} {p : Payload} (hs : s.sized) (hp : p.inRange s.memSpec)
    (hl : p.burstLength = 16) (now : Nat) :
    timeToSatisfyConstraints s now Command.RD p
      = Except.ok (maxOfTerms now (wrapTerms (tableRead s p))) := by
  simp only [rule2_eq, timeToSatisfyConstraints, commandConstraints, constraintsRead,
    index_bank hs hp, index_bankGroup hs hp, index_rank hs hp, hl, pure_bind, reduceCtorEq,
    or_false, false_or, or_true, true_or, if_true, if_false, ne_eq, not_true_eq_false,
    tableRead, maxOfTerms_cellTerm, maxOfTerms_crossRankTerm, maxOfTerms_wrap_nil]
  rfl

theorem query_RD_eq {s : Checker} {p : Payload} (hs : s.sized) (hp : p.inRange s.memSpec)
    (hl : p.burstLength = 16) (now : Nat)
    (hfit : termsFit (tableRead s p)) :
    timeToSatisfyConstraints s now Command.RD p
      = Except.ok (maxOfTerms now (tableRead s p)) := by
  rw [query_RD_wrap hs hp hl now, wrapTerms_of_fit hfit]

theorem query_RDA_wrap {s : Checker} {p : Payload} (hs : s.sized) (hp : p.inRange s.memSpec)
    (hl : p.burstLength = 16) (now : Nat) :
    timeToSatisfyConstraints s now Command.RDA p
      = Except.ok (maxOfTerms now (wrapTerms (tableRead s p) ++ [termAutoPrecharge s p])) := by
  by_cases hw : s.bankCell Command.WR p.bank = sc_max_time
  · have ht : termAutoPrecharge s p = none := by
      simp [termAutoPrecharge, differenceTerm, hw]
    rw [ht, maxOfTerms_append_none]
    simp only [rule2_eq, timeToSatisfyConstraints, commandConstraints, constraintsRead,
      index_bank hs hp, index_bankGroup hs hp, index_rank hs hp, hl, pure_bind, reduceCtorEq,
      or_false, false_or, or_true, true_or, if_true, if_false, ne_eq, not_true_eq_false,
      hw, tableRead, maxOfTerms_cellTerm, maxOfTerms_crossRankTerm, maxOfTerms_wrap_nil]
    rfl
  · have ht : termAutoPrecharge s p
        = some (sc_time_sub (sc_time_add (s.bankCell Command.WR p.bank) s.tWRPRE)
            s.memSpec.tRTP) := by
      simp [termAutoPrecharge, differenceTerm, hw]
    rw [ht, maxOfTerms_append_some]
    simp only [rule2_eq, timeToSatisfyConstraints, commandConstraints, constraintsRead,
      index_bank hs hp, index_bankGroup hs hp, index_rank hs hp, hl, pure_bind, reduceCtorEq,
      or_false, false_or, or_true, true_or, if_true, if_false, ne_eq, not_true_eq_false,
      hw, not_false_eq_true, rule_max, tableRead, maxOfTerms_cellTerm,
      maxOfTerms_crossRankTerm, maxOfTerms_wrap_nil]
    rfl

theorem query_RDA_eq {s : Checker} {p : Payload} (hs : s.sized) (hp : p.inRange s.memSpec)
    (hl : p.burstLength = 16) (now : Nat)
    (hfit : termsFit (tableRead s p)) :
    timeToSatisfyConstraints s now Command.RDA p
      = Except.ok (maxOfTerms now (tableRead s p ++ [termAutoPrecharge s p])) := by
  rw [query_RDA_wrap hs hp hl now, wrapTerms_of_fit hfit]

theorem query_WR_wrap {s : Checker} {p : Payload} (hs : s.sized) (hp : p.inRange s.memSpec)
    (hl : p.burstLength = 16) (now : Nat) :
    timeToSatisfyConstraints s now Command.WR p
      = Except.ok (maxOfTerms now (wrapTerms (tableWrite s p))) := by
  simp only [rule2_eq, timeToSatisfyConstraints, commandConstraints, constraintsWrite,
    index_bank hs hp, index_bankGroup hs hp, index_rank hs hp, hl, pure_bind, reduceCtorEq,
    or_false, false_or, or_true, true_or, if_true, if_false, ne_eq, not_true_eq_false,
    tableWrite, maxOfTerms_cellTerm, maxOfTerms_crossRankTerm, maxOfTerms_wrap_nil]
  rfl

theorem query_WR_eq {s : Checker} {p : Payload} (hs : s.sized) (hp : p.inRange s.memSpec)
    (hl : p.burstLength = 16) (now : Nat)
    (hfit : termsFit (tableWrite s p)) :
    timeToSatisfyConstraints s now Command.WR p
      = Except.ok (maxOfTerms now (tableWrite s p)) := by
  rw [query_WR_wrap hs hp hl now, wrapTerms_of_fit hfit]

theorem query_WRA_wrap {s : Checker} {p : Payload} (hs : s.sized) (hp : p.inRange s.memSpec)
    (hl : p.burstLength = 16) (now : Nat) :
    timeToSatisfyConstraints s now Command.WRA p
      = Except.ok (maxOfTerms now (wrapTerms (tableWrite s p))) := by
  simp only [rule2_eq, timeToSatisfyConstraints, commandConstraints, constraintsWrite,
    index_bank hs hp, index_bankGroup hs hp, index_rank hs hp, hl, pure_bind, reduceCtorEq,
    or_false, false_or, or_true, true_or, if_true, if_false, ne_eq, not_true_eq_false,
    tableWrite, maxOfTerms_cellTerm, maxOfTerms_crossRankTerm, maxOfTerms_wrap_nil]
  rfl

theorem query_WRA_eq {s : Checker} {p : Payload} (hs : s.sized) (hp : p.inRange s.memSpec)
    (hl : p.burstLength = 16) (now : Nat)
    (hfit : termsFit (tableWrite s p)) :
    timeToSatisfyConstraints s now Command.WRA p
      = Except.ok (maxOfTerms now (tableWrite s p)) := by
  rw [query_WRA_wrap hs hp hl now, wrapTerms_of_fit hfit]

theorem query_PREPB_wrap {s : Checker} {p : Payload} (hs : s.sized) (hp : p.inRange s.memSpec)
    (now : Nat) :
    timeToSatisfyConstraints s now Command.PREPB p
      = Except.ok (maxOfTerms now (wrapTerms (tablePREPB s p))) := by
  simp only [timeToSatisfyConstraints, commandConstraints, constraintsPREPB,
    index_bank hs hp, index_rank hs hp, pure_bind, reduceCtorEq, or_false, false_or,
    if_true, if_false, tablePREPB, maxOfTerms_cellTerm, maxOfTerms_wrap_nil]
  rfl

theorem query_PREPB_eq {s : Checker} {p : Payload} (hs : s.sized) (hp : p.inRange s.memSpec)
    (now : Nat)
    (hfit : termsFit (tablePREPB s p)) :
    timeToSatisfyConstraints s now Command.PREPB p
      = Except.ok (maxOfTerms now (tablePREPB s p)) := by
  rw [query_PREPB_wrap hs hp now, wrapTerms_of_fit hfit]

theorem query_PREAB_wrap {s : Checker} {p : Payload} (hs : s.sized) (hp : p.inRange s.memSpec)
    (now : Nat) :
    timeToSatisfyConstraints s now Command.PREAB p
      = Except.ok (maxOfTerms now (wrapTerms (tablePREAB s p))) := by
  simp only [timeToSatisfyConstraints, commandConstraints, constraintsPREAB,
    index_rank hs hp, pure_bind, reduceCtorEq, or_false, false_or,
    if_true, if_false, tablePREAB, maxOfTerms_cellTerm, maxOfTerms_wrap_nil]
  rfl

theorem query_PREAB_eq {s : Checker} {p : Payload} (hs : s.sized) (hp : p.inRange s.memSpec)
    (now : Nat)
    (hfit : termsFit (tablePREAB s p)) :
    timeToSatisfyConstraints s now Command.PREAB p
      = Except.ok (maxOfTerms now (tablePREAB s p)) := by
  rw [query_PREAB_wrap hs hp now, wrapTerms_of_fit hfit]

theorem query_REFAB_wrap {s : Checker} {p : Payload} (hs : s.sized) (hp : p.inRange s.memSpec)
    (now : Nat) :
    timeToSatisfyConstraints s now Command.REFAB p
      = Except.ok (maxOfTerms now (wrapTerms (tableREFAB s p))) := by
  simp only [rule2_eq, timeToSatisfyConstraints, commandConstraints, constraintsREFAB,
    index_rank hs hp, pure_bind, reduceCtorEq, or_false, false_or,
    if_true, if_false, tableREFAB, maxOfTerms_cellTerm, maxOfTerms_wrap_nil]
  rfl

theorem query_REFAB_eq {s : Checker} {p : Payload} (hs : s.sized) (hp : p.inRange s.memSpec)
    (now : Nat)
    (hfit : termsFit (tableREFAB s p)) :
    timeToSatisfyConstraints s now Command.REFAB p
      = Except.ok (maxOfTerms now (tableREFAB s p)) := by
  rw [query_REFAB_wrap hs hp now, wrapTerms_of_fit hfit]

theorem query_PDEA_wrap {s : Checker} {p : Payload} (hs : s.sized) (hp : p.inRange s.memSpec)
    (now : Nat) :
    timeToSatisfyConstraints s now Command.PDEA p
      = Except.ok (maxOfTerms now (wrapTerms (tablePDEA s p))) := by
  simp only [timeToSatisfyConstraints, commandConstraints, constraintsPDEA,
    index_rank hs hp, pure_bind, reduceCtorEq, or_false, false_or,
    if_true, if_false, tablePDEA, maxOfTerms_cellTerm, maxOfTerms_wrap_nil]
  rfl

theorem query_PDEA_eq {s : Checker} {p : Payload} (hs : s.sized) (hp : p.inRange s.memSpec)
    (now : Nat)
    (hfit : termsFit (tablePDEA s p)) :
    timeToSatisfyConstraints s now Command.PDEA p
      = Except.ok (maxOfTerms now (tablePDEA s p)) := by
  rw [query_PDEA_wrap hs hp now, wrapTerms_of_fit hfit]

theorem query_PDXA_wrap {s : Checker} {p : Payload} (hs : s.sized) (hp : p.inRange s.memSpec)
    (now : Nat) :
    timeToSatisfyConstraints s now Command.PDXA p
      = Except.ok (maxOfTerms now (wrapTerms (tablePDXA s p))) := by
  simp only [timeToSatisfyConstraints, commandConstraints, constraintsPDXA,
    index_rank hs hp, pure_bind, reduceCtorEq, or_false, false_or,
    if_true, if_false, tablePDXA, maxOfTerms_cellTerm, maxOfTerms_wrap_nil]
  rfl

theorem query_PDXA_eq {s : Checker} {p : Payload} (hs : s.sized) (hp : p.inRange s.memSpec)
    (now : Nat)
    (hfit : termsFit (tablePDXA s p)) :
    timeToSatisfyConstraints s now Command.PDXA p
      = Except.ok (maxOfTerms now (tablePDXA s p)) := by
  rw [query_PDXA_wrap hs hp now, wrapTerms_of_fit hfit]

theorem query_PDEP_wrap {s : Checker} {p : Payload} (hs : s.sized) (hp : p.inRange s.memSpec)
    (now : Nat) :
    timeToSatisfyConstraints s now Command.PDEP p
      = Except.ok (maxOfTerms now (wrapTerms (tablePDEP s p))) := by
  simp only [timeToSatisfyConstraints, commandConstraints, constraintsPDEP,
    index_rank hs hp, pure_bind, reduceCtorEq, or_false, false_or,
    if_true, if_false, tablePDEP, maxOfTerms_cellTerm, maxOfTerms_wrap_nil]
  rfl

theorem query_PDEP_eq {s : Checker} {p : Payload} (hs : s.sized) (hp : p.inRange s.memSpec)
    (now : Nat)
    (hfit : termsFit (tablePDEP s p)) :
    timeToSatisfyConstraints s now Command.PDEP p
      = Except.ok (maxOfTerms now (tablePDEP s p)) := by
  rw [query_PDEP_wrap hs hp now, wrapTerms_of_fit hfit]

theorem query_PDXP_wrap {s : Checker} {p : Payload} (hs : s.sized) (hp : p.inRange s.memSpec)
    (now : Nat) :
    timeToSatisfyConstraints s now Command.PDXP p
      = Except.ok (maxOfTerms now (wrapTerms (tablePDXP s p))) := by
  simp only [timeToSatisfyConstraints, commandConstraints, constraintsPDXP,
    index_rank hs hp, pure_bind, reduceCtorEq, or_false, false_or,
    if_true, if_false, tablePDXP, maxOfTerms_cellTerm, maxOfTerms_wrap_nil]
  rfl

theorem query_PDXP_eq {s : Checker} {p : Payload} (hs : s.sized) (hp : p.inRange s.memSpec)
    (now : Nat)
    (hfit : termsFit (tablePDXP s p)) :
    timeToSatisfyConstraints s now Command.PDXP p
      = Except.ok (maxOfTerms now (tablePDXP s p)) := by
  rw [query_PDXP_wrap hs hp now, wrapTerms_of_fit hfit]

theorem query_SREFEN_wrap {s : Checker} {p : Payload} (hs : s.sized) (hp : p.inRange s.memSpec)
    (now : Nat)
    (h : s.rankCell Command.RDA p.rank ≠ sc_max_time →
      s.memSpec.tRTP + s.memSpec.tRP ≤ sc_max_time) :
    timeToSatisfyConstraints s now Command.SREFEN p
      = Except.ok (maxOfTerms now (wrapTerms (tableSREFEN s p))) := by
  by_cases hc : s.rankCell Command.RDA p.rank = sc_max_time
  · simp only [rule2_eq, timeToSatisfyConstraints, commandConstraints, constraintsSREFEN,
      index_rank hs hp, pure_bind, reduceCtorEq, or_false, false_or,
      if_true, if_false, tableSREFEN, maxOfTerms_cellTerm, maxOfTerms_wrap_nil]
    simp only [hc, rule_never]
    rfl
  · simp only [rule2_eq, timeToSatisfyConstraints, commandConstraints, constraintsSREFEN,
      index_rank hs hp, pure_bind, reduceCtorEq, or_false, false_or,
      if_true, if_false, tableSREFEN, maxOfTerms_cellTerm, maxOfTerms_wrap_nil,
      sc_time_add_of_le _ _ (h hc)]
    rfl

theorem query_SREFEN_eq {s : Checker} {p : Payload} (hs : s.sized) (hp : p.inRange s.memSpec)
    (now : Nat)
    (hfit : termsFit (tableSREFEN s p)) :
    timeToSatisfyConstraints s now Command.SREFEN p
      = Except.ok (maxOfTerms now (tableSREFEN s p)) := by
  rw [query_SREFEN_wrap hs hp now ?_, wrapTerms_of_fit hfit]
  intro hc
  have := @termsFit_cellTerm _ hfit (s.rankCell Command.RDA p.rank)
    (max (s.memSpec.tRTP + s.memSpec.tRP) s.tRDSRE) (by simp [tableSREFEN]) hc
  omega

theorem query_SREFEX_wrap {s : Checker} {p : Payload} (hs : s.sized) (hp : p.inRange s.memSpec)
    (now : Nat) :
    timeToSatisfyConstraints s now Command.SREFEX p
      = Except.ok (maxOfTerms now (wrapTerms (tableSREFEX s p))) := by
  simp only [timeToSatisfyConstraints, commandConstraints, constraintsSREFEX,
    index_rank hs hp, pure_bind, reduceCtorEq, or_false, false_or,
    if_true, if_false, tableSREFEX, maxOfTerms_cellTerm, maxOfTerms_wrap_nil]
  rfl

theorem query_SREFEX_eq {s : Checker} {p : Payload} (hs : s.sized) (hp : p.inRange s.memSpec)
    (now : Nat)
    (hfit : termsFit (tableSREFEX s p)) :
    timeToSatisfyConstraints s now Command.SREFEX p
      = Except.ok (maxOfTerms now (tableSREFEX s p)) := by
  rw [query_SREFEX_wrap hs hp now, wrapTerms_of_fit hfit]

theorem query_REFPB_wrap {s : Checker} {p : Payload} (hs : s.sized) (hp : p.inRange s.memSpec)
    (now : Nat) (hw : (s.window p.rank).length ≤ 4) :
    timeToSatisfyConstraints s now Command.REFPB p
      = Except.ok (maxOfTerms now (wrapTerms (tableREFPB s p))) := by
  by_cases hT : s.rankCell Command.REFPB p.rank = sc_max_time
  · simp only [rule2_eq, timeToSatisfyConstraints, commandConstraints, constraintsREFPB,
      fourActivates_eq hs hp, index_bank hs hp, index_bankGroup hs hp, index_rank hs hp,
      index_counter hs hp, pure_bind, reduceCtorEq, or_false, false_or, if_true,
      if_false, ne_eq, hT, not_true_eq_false, tableREFPB, maxOfTerms_cellTerm,
      maxOfTerms_windowTerm _ _ _ _ hw, maxOfTerms_wrap_nil, rule_never]
    rfl
  · by_cases hc : s.counter p.rank = 0
    · simp only [rule2_eq, timeToSatisfyConstraints, commandConstraints, constraintsREFPB,
        fourActivates_eq hs hp, index_bank hs hp, index_bankGroup hs hp, index_rank hs hp,
        index_counter hs hp, pure_bind, reduceCtorEq, or_false, false_or, if_true,
        if_false, ne_eq, hT, hc, not_false_eq_true, tableREFPB, maxOfTerms_cellTerm,
        maxOfTerms_windowTerm _ _ _ _ hw, maxOfTerms_wrap_nil, rule_timestamp _ _ _ hT]
      rfl
    · simp only [rule2_eq, timeToSatisfyConstraints, commandConstraints, constraintsREFPB,
        fourActivates_eq hs hp, index_bank hs hp, index_bankGroup hs hp, index_rank hs hp,
        index_counter hs hp, pure_bind, reduceCtorEq, or_false, false_or, if_true,
        if_false, ne_eq, hT, hc, not_false_eq_true, tableREFPB, maxOfTerms_cellTerm,
        maxOfTerms_windowTerm _ _ _ _ hw, maxOfTerms_wrap_nil, rule_timestamp _ _ _ hT]
      rfl



theorem query_REFPB_eq {s : Checker} {p : Payload} (hs : s.sized) (hp : p.inRange s.memSpec)
    (now : Nat) (hw : (s.window p.rank).length ≤ 4)
    (hfit : termsFit (tableREFPB s p)) :
    timeToSatisfyConstraints s now Command.REFPB p
      = Except.ok (maxOfTerms now (tableREFPB s p)) := by
  rw [query_REFPB_wrap hs hp now hw, wrapTerms_of_fit hfit]

/-! ## States that differ in rows a query does not read -/

theorem replaceBankRow_sized {s : Checker} (hs : s.sized) (c : Command) (row : List Nat)
    (h : row.length = s.memSpec.banksPerChannel) : (replaceBankRow s c row).sized := by
  refine ⟨?_, hs.byBankGroup, hs.byRank, hs.windows, hs.counters⟩
  intro c2
  show (if c2 = c then _ else _ : List Nat).length = _
  split
  · exact h
  · exact hs.byBank c2

theorem replaceCommand_sized {s : Checker} (hs : s.sized) (c : Command)
    (byBank byBankGroup byRank : List Nat) (channel : Nat)
    (h1 : byBank.length = s.memSpec.banksPerChannel)
    (h2 : byBankGroup.length = s.memSpec.bankGroupsPerChannel)
    (h3 : byRank.length = s.memSpec.ranksPerChannel) :
    (replaceCommand s c byBank byBankGroup byRank channel).sized := by
  refine ⟨?_, ?_, ?_, hs.windows, hs.counters⟩
  · intro c2
    show (if c2 = c then _ else _ : List Nat).length = _
    split
    · exact h1
    · exact hs.byBank c2
  · intro c2
    show (if c2 = c then _ else _ : List Nat).length = _
    split
    · exact h2
    · exact hs.byBankGroup c2
  · intro c2
    show (if c2 = c then _ else _ : List Nat).length = _
    split
    · exact h3
    · exact hs.byRank c2

theorem sc_time_sub_of_le (a b : Nat) (h : b ≤ a) : sc_time_sub a b = a - b := by
  simp [sc_time_sub, h]

theorem foldl_max_le (l : List Nat) (e b : Nat) (he : e ≤ b) (hl : ∀ x ∈ l, x ≤ b) :
    List.foldl max e l ≤ b := by
  induction l generalizing e with
  | nil => exact he
  | cons y ys ih =>
    simp only [List.foldl_cons]
    exact ih _ (max_le he (hl y (List.mem_cons_self _ _)))
      (fun x hx => hl x (List.mem_cons_of_mem _ hx))

theorem maxOfTerms_le_of_subset (e : Nat) (l1 l2 : List (Option Nat))
    (h : ∀ t ∈ l1, t ∈ l2) : maxOfTerms e l1 ≤ maxOfTerms e l2 := by
  apply foldl_max_le
  · exact le_maxOfTerms e l2
  · intro x hx
    rw [List.mem_filterMap] at hx
    obtain ⟨t, ht, htx⟩ := hx
    cases t with
    | none => cases htx
    | some y =>
      have hy : y = x := Option.some.inj htx
      subst hy
      exact le_maxOfTerms_of_mem e y l2 (h _ ht)

/-! ## Unknown commands and the burst length -/

theorem query_unknown (s : Checker) (now : Nat) (c : Command) (p : Payload)
    (hc : c ∉ supportedCommands) :
    timeToSatisfyConstraints s now c p = Except.error (Error.fatal "Unknown command!") := by
  cases c <;> first | exact absurd (by decide) hc | rfl

theorem query_data_assert (s : Checker) (now : Nat) (c : Command) (p : Payload)
    (hc : c ∈ dataCommands) (hl : p.burstLength ≠ 16) :
    timeToSatisfyConstraints s now c p = Except.error Error.assertion := by
  simp only [dataCommands, List.mem_cons, List.mem_singleton, List.not_mem_nil,
    or_false] at hc
  rcases hc with rfl | rfl | rfl | rfl <;>
  simp [timeToSatisfyConstraints, commandConstraints, constraintsRead, constraintsWrite, hl] <;>
  rfl

theorem query_burstLength_free (s : Checker) (now : Nat) (c : Command) (p : Payload)
    (hc : c ∉ dataCommands) (burstLength : Nat) :
    timeToSatisfyConstraints s now c { p with burstLength := burstLength }
      = timeToSatisfyConstraints s now c p := by
  cases c <;> first | exact absurd (by decide) hc | rfl

/-! ## The activate window on traces -/

theorem query_REFPB_window {s : Checker} {p : Payload} (hs : s.sized)
    (hp : p.inRange s.memSpec) (now : Nat) (hw : 4 ≤ (s.window p.rank).length) :
    ∃ v, timeToSatisfyConstraints s now Command.REFPB p = Except.ok v
      ∧ sc_time_add ((s.window p.rank).headD 0) s.memSpec.tFAW ≤ v := by
  by_cases hT : s.rankCell Command.REFPB p.rank = sc_max_time
  · simp only [rule2_eq, timeToSatisfyConstraints, commandConstraints, constraintsREFPB,
      fourActivates_eq hs hp, index_bank hs hp, index_bankGroup hs hp, index_rank hs hp,
      index_counter hs hp, pure_bind, reduceCtorEq, or_false, false_or, if_true,
      if_false, ne_eq, hT, not_true_eq_false, if_pos hw]
    exact ⟨_, rfl, le_trans (le_max_right _ _) (le_rule _ _ _)⟩
  · by_cases hc : s.counter p.rank = 0
    · simp only [rule2_eq, timeToSatisfyConstraints, commandConstraints, constraintsREFPB,
        fourActivates_eq hs hp, index_bank hs hp, index_bankGroup hs hp, index_rank hs hp,
        index_counter hs hp, pure_bind, reduceCtorEq, or_false, false_or, if_true,
        if_false, ne_eq, hT, hc, not_false_eq_true, if_pos hw]
      exact ⟨_, rfl, le_trans (le_max_right _ _) (le_rule _ _ _)⟩
    · simp only [rule2_eq, timeToSatisfyConstraints, commandConstraints, constraintsREFPB,
        fourActivates_eq hs hp, index_bank hs hp, index_bankGroup hs hp, index_rank hs hp,
        index_counter hs hp, pure_bind, reduceCtorEq, or_false, false_or, if_true,
        if_false, ne_eq, hT, hc, not_false_eq_true, if_pos hw]
      exact ⟨_, rfl, le_trans (le_max_right _ _) (le_rule _ _ _)⟩

theorem query_activate_window {s : Checker} {p : Payload} {c : Command} (hs : s.sized)
    (hp : p.inRange s.memSpec) (hc : isActivateClass c) (now v : Nat)
    (hq : timeToSatisfyConstraints s now c p = Except.ok v)
    (hw : 4 ≤ (s.window p.rank).length)
    (hf : (s.window p.rank).headD 0 + s.memSpec.tFAW ≤ sc_max_time) :
    (s.window p.rank).headD 0 + s.memSpec.tFAW ≤ v := by
  rw [← sc_time_add_of_le _ _ hf]
  rcases hc with rfl | rfl
  · obtain ⟨v2, h1, h2⟩ := query_ACT_window hs hp now hw
    rw [h1] at hq
    cases hq
    exact h2
  · obtain ⟨v2, h1, h2⟩ := query_REFPB_window hs hp now hw
    rw [h1] at hq
    cases hq
    exact h2

theorem pushWindow_lastN (hist : List Nat) (t : Nat) :
    pushWindow (lastN 4 hist) t = lastN 4 (hist ++ [t]) := by
  have h := lastN_pushWindow_append (lastN 4 hist) t []
    (by rw [length_lastN]; exact Nat.min_le_left _ _)
  rw [List.append_nil] at h
  rw [lastN_of_length_le 4 _
    (length_pushWindow_le _ _ (by rw [length_lastN]; exact Nat.min_le_left _ _))] at h
  rw [h]
  unfold lastN
  by_cases hl : hist.length ≤ 4
  · rw [Nat.sub_eq_zero_of_le hl, List.drop_zero]
  · have e1 : (hist.drop (hist.length - 4) ++ [t]).length = 5 := by
      rw [List.length_append, List.length_drop, List.length_singleton]; omega
    have e2 : (hist ++ [t]).length - 4 = hist.length - 4 + 1 := by
      rw [List.length_append, List.length_singleton]; omega
    rw [e1, e2]
    have e3 : hist.length - 4 + 1 ≤ hist.length := by omega
    rw [List.drop_append_of_le_length e3]
    show List.drop 1 _ = _
    rw [List.drop_append_of_le_length (by rw [List.length_drop]; omega), List.drop_drop]

theorem headD_lastN (hist : List Nat) :
    (lastN 4 hist).headD 0 = hist.getD (hist.length - 4) 0 := by
  unfold lastN
  rw [List.headD_eq_head?_getD, List.head?_drop, List.getD_eq_getElem?_getD]

theorem fawSpaced_snoc {tFAW : Nat} {hist : List Nat} {t : Nat} (h : fawSpaced tFAW hist)
    (ht : 4 ≤ hist.length → hist.getD (hist.length - 4) 0 + tFAW ≤ t) :
    fawSpaced tFAW (hist ++ [t]) := by
  intro i hi
  rw [List.length_append, List.length_singleton] at hi
  have hi0 : i < hist.length := by omega
  rw [List.getD_append _ _ _ _ hi0]
  by_cases h4 : i + 4 < hist.length
  · rw [List.getD_append _ _ _ _ h4]
    exact h i h4
  · have e : i + 4 = hist.length := by omega
    rw [List.getD_append_right _ _ _ _ (by omega), e, Nat.sub_self]
    have := ht (by omega)
    have e2 : hist.length - 4 = i := by omega
    rw [e2] at this
    exact this

theorem fawSpaced_trace {s : Checker} (hs : s.sized) (events : List Event)
    (hp : ∀ e ∈ events, e.payload.inRange s.memSpec)
    (hb : (∃ e ∈ events, e.command = Command.REFPB) → 0 < s.memSpec.banksPerRank)
    (hf : ∀ e ∈ events, isActivateClass e.command → e.time + s.memSpec.tFAW ≤ sc_max_time)
    (hl : legalActivates s events) (r : Nat) (hist : List Nat)
    (hw : s.window r = lastN 4 hist) (hh : fawSpaced s.memSpec.tFAW hist)
    (hh2 : ∀ t ∈ hist, t + s.memSpec.tFAW ≤ sc_max_time) :
    fawSpaced s.memSpec.tFAW (hist ++ activateTimes r events) := by
  induction events generalizing s hist with
  | nil =>
    simp only [activateTimes, List.filter_nil, List.map_nil, List.append_nil]
    exact hh
  | cons e es ih =>
    have he : e.payload.inRange s.memSpec := hp e (List.mem_cons_self _ _)
    have hbe : e.command = Command.REFPB → 0 < s.memSpec.banksPerRank :=
      fun h => hb ⟨e, List.mem_cons_self _ _, h⟩
    have hs1 := insertResult_sized hs e.time e.command e.payload
    obtain ⟨hq, hrest⟩ := hl
    rw [insert_eq hs he e.command hbe e.time] at hrest
    have hrest : legalActivates (insertResult s e.time e.command e.payload) es := hrest
    have hp1 : ∀ x ∈ es, x.payload.inRange
        (insertResult s e.time e.command e.payload).memSpec :=
      fun x hx => hp x (List.mem_cons_of_mem _ hx)
    have hb1 : (∃ x ∈ es, x.command = Command.REFPB)
        → 0 < (insertResult s e.time e.command e.payload).memSpec.banksPerRank :=
      fun ⟨x, hx, hc⟩ => hb ⟨x, List.mem_cons_of_mem _ hx, hc⟩
    have hf1 : ∀ x ∈ es, isActivateClass x.command →
        x.time + (insertResult s e.time e.command e.payload).memSpec.tFAW ≤ sc_max_time :=
      fun x hx => hf x (List.mem_cons_of_mem _ hx)
    rw [activateTimes_cons]
    by_cases hc : isActivateClass e.command ∧ e.payload.rank = r
    · rw [if_pos hc]
      obtain ⟨hact, hr⟩ := hc
      obtain ⟨now, v, hv, hvt⟩ := hq hact
      have hw1 : (insertResult s e.time e.command e.payload).window r
          = lastN 4 (hist ++ [e.time]) := by
        rw [insertResult_window hs he, if_pos ⟨hact, hr.symm⟩, hw, pushWindow_lastN]
      have hh1 : fawSpaced s.memSpec.tFAW (hist ++ [e.time]) := by
        apply fawSpaced_snoc hh
        intro h4
        have hlen : 4 ≤ (s.window e.payload.rank).length := by
          rw [hr, hw, length_lastN]; omega
        have hold : hist.getD (hist.length - 4) 0 + s.memSpec.tFAW ≤ sc_max_time := by
          have hlt : hist.length - 4 < hist.length := by omega
          rw [List.getD_eq_getElem _ _ hlt]
          exact hh2 _ (List.getElem_mem hlt)
        have := query_activate_window hs he hact now v hv hlen
          (by rw [hr, hw, headD_lastN]; exact hold)
        rw [hr, hw, headD_lastN] at this
        exact le_trans this hvt
      have hh3 : ∀ t ∈ hist ++ [e.time], t + s.memSpec.tFAW ≤ sc_max_time := by
        intro t ht
        rcases List.mem_append.mp ht with ht | ht
        · exact hh2 t ht
        · rw [List.mem_singleton] at ht
          subst ht
          exact hf e (List.mem_cons_self _ _) hact
      have := ih hs1 hp1 hb1 hf1 hrest (hist ++ [e.time]) hw1 hh1 hh3
      rw [List.append_assoc] at this
      exact this
    · rw [if_neg hc]
      have hw1 : (insertResult s e.time e.command e.payload).window r = lastN 4 hist := by
        rw [insertResult_window hs he, if_neg (fun h => hc ⟨h.1, h.2.symm⟩), hw]
      exact ih hs1 hp1 hb1 hf1 hrest hist hw1 hh hh2

/-! ## Bounds on the recorded timestamps -/

theorem boundedBy_mono {s : Checker} {b t : Nat} (h : s.boundedBy b) (hbt : b ≤ t) :
    s.boundedBy t :=
  ⟨fun c i hx => le_trans (h.byBank c i hx) hbt,
   fun c i hx => le_trans (h.byBankGroup c i hx) hbt,
   fun c i hx => le_trans (h.byRank c i hx) hbt,
   fun c hx => le_trans (h.byCommand c hx) hbt,
   fun r x hx => le_trans (h.windows r x hx) hbt⟩

theorem boundedBy_empty {s : Checker} (he : s.emptyHistory) (b : Nat) : s.boundedBy b :=
  ⟨fun c i hx => absurd (bankCell_empty he c i) hx,
   fun c i hx => absurd (bankGroupCell_empty he c i) hx,
   fun c i hx => absurd (rankCell_empty he c i) hx,
   fun c hx => absurd (he.byCommand c) hx,
   fun r x hx => by rw [window_empty he r] at hx; cases hx⟩

theorem mem_pushWindow {w : List Nat} {t x : Nat} (h : x ∈ pushWindow w t) : x ∈ w ∨ x = t := by
  unfold pushWindow at h
  rw [List.mem_append, List.mem_singleton] at h
  rcases h with h | h
  · left
    split at h
    · exact List.mem_of_mem_tail h
    · exact h
  · exact Or.inr h

theorem pairwise_pushWindow {w : List Nat} {t : Nat} (hw : w.Pairwise (fun a b => a ≤ b))
    (ht : ∀ x ∈ w, x ≤ t) : (pushWindow w t).Pairwise (fun a b => a ≤ b) := by
  unfold pushWindow
  rw [List.pairwise_append]
  refine ⟨?_, List.pairwise_singleton _ _, ?_⟩
  · split
    · exact hw.sublist (List.tail_sublist w)
    · exact hw
  · intro a ha b hb
    rw [List.mem_singleton] at hb
    subst hb
    split at ha
    · exact ht a (List.mem_of_mem_tail ha)
    · exact ht a ha

theorem insertResult_boundedBy {s : Checker} {p : Payload} (hs : s.sized)
    (hp : p.inRange s.memSpec) {b : Nat} (h : s.boundedBy b) (t : Nat) (hbt : b ≤ t)
    (c : Command) : (insertResult s t c p).boundedBy t := by
  refine ⟨?_, ?_, ?_, ?_, ?_⟩
  · intro c2 i
    rw [insertResult_bankCell hs hp]
    split
    · exact fun _ => le_refl t
    · exact fun hx => le_trans (h.byBank c2 i hx) hbt
  · intro c2 i
    rw [insertResult_bankGroupCell hs hp]
    split
    · exact fun _ => le_refl t
    · exact fun hx => le_trans (h.byBankGroup c2 i hx) hbt
  · intro c2 i
    rw [insertResult_rankCell hs hp]
    split
    · exact fun _ => le_refl t
    · exact fun hx => le_trans (h.byRank c2 i hx) hbt
  · intro c2
    rw [insertResult_byCommand]
    split
    · exact fun _ => le_refl t
    · exact fun hx => le_trans (h.byCommand c2 hx) hbt
  · intro r x hx
    rw [insertResult_window hs hp] at hx
    split at hx
    · rcases mem_pushWindow hx with hx | hx
      · exact le_trans (h.windows r x hx) hbt
      · exact le_of_eq hx
    · exact le_trans (h.windows r x hx) hbt

theorem insertResult_windowsSorted {s : Checker} {p : Payload} (hs : s.sized)
    (hp : p.inRange s.memSpec) {b : Nat} (h : s.boundedBy b) (hw : s.windowsSorted) (t : Nat)
    (hbt : b ≤ t) (c : Command) : (insertResult s t c p).windowsSorted := by
  intro r
  rw [insertResult_window hs hp]
  split
  · exact pairwise_pushWindow (hw r) (fun x hx => le_trans (h.windows r x hx) hbt)
  · exact hw r

theorem insertAllResult_boundedBy {s : Checker} (hs : s.sized) (events : List Event)
    (hp : ∀ e ∈ events, e.payload.inRange s.memSpec) {b : Nat} (h : s.boundedBy b)
    (hw : s.windowsSorted) (hb : ∀ e ∈ events, b ≤ e.time) (hmono : nonDecreasing events)
    (hne : events ≠ []) :
    (insertAllResult s events).boundedBy (insertAllResult s events).lastCommandOnBus
      ∧ (insertAllResult s events).windowsSorted
      ∧ ∀ e ∈ events, e.time ≤ (insertAllResult s events).lastCommandOnBus := by
  induction events generalizing s b with
  | nil => exact absurd rfl hne
  | cons e es ih =>
    have he : e.payload.inRange s.memSpec := hp e (List.mem_cons_self _ _)
    have hs1 := insertResult_sized hs e.time e.command e.payload
    have hbe : b ≤ e.time := hb e (List.mem_cons_self _ _)
    have hb1 := insertResult_boundedBy hs he h e.time hbe e.command
    have hw1 := insertResult_windowsSorted hs he h hw e.time hbe e.command
    have hm : ∀ x ∈ es, e.time ≤ x.time ∧ nonDecreasing es := by
      intro x hx
      unfold nonDecreasing at hmono
      rw [List.map_cons, List.pairwise_cons] at hmono
      exact ⟨hmono.1 _ (List.mem_map_of_mem _ hx), hmono.2⟩
    show (insertAllResult (insertResult s e.time e.command e.payload) es).boundedBy _ ∧ _
    cases es with
    | nil =>
      refine ⟨hb1, hw1, ?_⟩
      intro x hx
      rw [List.mem_singleton] at hx
      subst hx
      exact le_refl _
    | cons e2 es2 =>
      obtain ⟨r1, r2, r3⟩ := ih hs1 (fun x hx => hp x (List.mem_cons_of_mem _ hx)) hb1 hw1
        (fun x hx => (hm x hx).1) (hm e2 (List.mem_cons_self _ _)).2 (List.cons_ne_nil _ _)
      refine ⟨r1, r2, ?_⟩
      intro x hx
      rcases List.mem_cons.mp hx with rfl | hx
      · exact le_trans (hm e2 (List.mem_cons_self _ _)).1 (r3 e2 (List.mem_cons_self _ _))
      · exact r3 x hx

/-! ## The derived delays -/

theorem crossRankTerm_same (cell delay : Nat) : crossRankTerm cell cell delay = none := by
  simp [crossRankTerm]

theorem crossRankTerm_never (rank delay : Nat) : crossRankTerm sc_max_time rank delay = none := by
  simp [crossRankTerm, cellTerm]

theorem clearChannelCell_sized {s : Checker} (hs : s.sized) (c : Command) :
    (clearChannelCell s c).sized :=
  ⟨hs.byBank, hs.byBankGroup, hs.byRank, hs.windows, hs.counters⟩

theorem query_clearChannelCell {s : Checker} {p : Payload} (hs : s.sized)
    (hp : p.inRange s.memSpec) (hl : p.burstLength = 16) (now : Nat) (c x : Command)
    (hc : c ∈ dataCommands) (hx : x ∈ dataCommands)
    (he : s.lastScheduledByCommand x = s.rankCell x p.rank) :
    timeToSatisfyConstraints s now c p
      = timeToSatisfyConstraints (clearChannelCell s x) now c p := by
  have hs2 := clearChannelCell_sized hs x
  have hp2 : p.inRange (clearChannelCell s x).memSpec := hp
  have hr : ∀ c2, (clearChannelCell s x).rankCell c2 p.rank = s.rankCell c2 p.rank :=
    fun _ => rfl
  have hg : ∀ c2, (clearChannelCell s x).bankGroupCell c2 p.bankGroup
      = s.bankGroupCell c2 p.bankGroup := fun _ => rfl
  have hb : ∀ c2, (clearChannelCell s x).bankCell c2 p.bank = s.bankCell c2 p.bank :=
    fun _ => rfl
  have hch : ∀ c2, (clearChannelCell s x).lastScheduledByCommand c2
      = if c2 = x then sc_max_time else s.lastScheduledByCommand c2 := fun _ => rfl
  have hm : (clearChannelCell s x).memSpec = s.memSpec := rfl
  have hbus : (clearChannelCell s x).lastCommandOnBus = s.lastCommandOnBus := rfl
  have d1 : (clearChannelCell s x).tBURST = s.tBURST := rfl
  have d2 : (clearChannelCell s x).tWRRD_L = s.tWRRD_L := rfl
  have d3 : (clearChannelCell s x).tWRRD_S = s.tWRRD_S := rfl
  have d4 : (clearChannelCell s x).tWRRD_R = s.tWRRD_R := rfl
  have d5 : (clearChannelCell s x).tRDWR_R = s.tRDWR_R := rfl
  have d6 : (clearChannelCell s x).tWRPRE = s.tWRPRE := rfl
  simp only [dataCommands, List.mem_cons, List.mem_singleton, List.not_mem_nil,
    or_false] at hc hx
  rcases hc with rfl | rfl | rfl | rfl
  · rw [query_RD_wrap hs hp hl now, query_RD_wrap hs2 hp2 hl now]
    rcases hx with rfl | rfl | rfl | rfl <;>
    simp only [tableRead, hr, hg, hb, hch, hm, hbus, d1, d2, d3, d4, reduceCtorEq, if_true,
      if_false, he, crossRankTerm_same, crossRankTerm_never]
  · rw [query_RDA_wrap hs hp hl now, query_RDA_wrap hs2 hp2 hl now]
    rcases hx with rfl | rfl | rfl | rfl <;>
    simp only [tableRead, termAutoPrecharge, hr, hg, hb, hch, hm, hbus, d1, d2, d3, d4, d6,
      reduceCtorEq, if_true, if_false, he, crossRankTerm_same, crossRankTerm_never]
  · rw [query_WR_wrap hs hp hl now, query_WR_wrap hs2 hp2 hl now]
    rcases hx with rfl | rfl | rfl | rfl <;>
    simp only [tableWrite, hr, hg, hb, hch, hm, hbus, d1, d5, reduceCtorEq, if_true,
      if_false, he, crossRankTerm_same, crossRankTerm_never]
  · rw [query_WRA_wrap hs hp hl now, query_WRA_wrap hs2 hp2 hl now]
    rcases hx with rfl | rfl | rfl | rfl <;>
    simp only [tableWrite, hr, hg, hb, hch, hm, hbus, d1, d5, reduceCtorEq, if_true,
      if_false, he, crossRankTerm_same, crossRankTerm_never]

theorem query_WR_after_two_reads {s : Checker} {pA pB q : Payload} (hs : s.sized)
    (he : s.emptyHistory) (hA : pA.inRange s.memSpec) (hB : pB.inRange s.memSpec)
    (hq : q.inRange s.memSpec) (hl : q.burstLength = 16) (hr : q.rank = pA.rank)
    (T now : Nat) (hT : isTimestamp T) :
    timeToSatisfyConstraints
        (insertResult (insertResult s T Command.RD pA) T Command.RD pB) now Command.WR q
      = Except.ok (max now
          (max (sc_time_add T s.memSpec.tRTW) (sc_time_add T s.memSpec.tCK))) := by
  have hT : T ≠ sc_max_time := hT
  have hs1 := insertResult_sized hs T Command.RD pA
  have hB1 : pB.inRange (insertResult s T Command.RD pA).memSpec := hB
  have hs2 := insertResult_sized hs1 T Command.RD pB
  have hq2 : q.inRange (insertResult (insertResult s T Command.RD pA) T Command.RD pB).memSpec :=
    hq
  simp only [rule2_eq, timeToSatisfyConstraints, commandConstraints, constraintsWrite,
    index_bank hs2 hq2, index_bankGroup hs2 hq2, index_rank hs2 hq2, hl, pure_bind,
    reduceCtorEq, or_false, false_or, or_true, true_or, if_true, if_false, ne_eq,
    not_true_eq_false]
  simp only [insertResult_bankCell hs1 hB1, insertResult_bankGroupCell hs1 hB1,
    insertResult_rankCell hs1 hB1, insertResult_bankCell hs hA,
    insertResult_bankGroupCell hs hA, insertResult_rankCell hs hA, insertResult_bus,
    insertResult_memSpec, insertResult_byCommand, bankCell_empty he, bankGroupCell_empty he,
    rankCell_empty he, he.byCommand, rule_never, otherRank_same, hr, reduceCtorEq, if_true,
    if_false, false_and, true_and, and_true, and_false, and_self, ite_self,
    rule_timestamp _ _ _ hT]
  show Except.ok _ = Except.ok _
  congr 1
  omega

/-! ## The query as a clamp -/

theorem rule_eq_max (e l d : Nat) :
    rule e l d = max e (if l = sc_max_time then 0 else sc_time_add l d) := by
  unfold rule
  by_cases h : l = sc_max_time
  · simp [h]
  · simp [h]

theorem ite_max_eq (c : Prop) [Decidable c] (e k : Nat) :
    (if c then max e k else e) = max e (if c then k else 0) := by
  split <;> simp

theorem query_clamp {s : Checker} {p : Payload} {c : Command} (hs : s.sized)
    (hc : c ∈ supportedCommands) (hp : p.admissible s.memSpec c) :
    ∃ b, ∀ now, timeToSatisfyConstraints s now c p = Except.ok (max now b) := by
  obtain ⟨hr, hb⟩ := hp
  simp only [supportedCommands, List.mem_cons, List.mem_singleton, List.not_mem_nil,
    or_false] at hc
  rcases hc with rfl | rfl | rfl | rfl | rfl | rfl | rfl | rfl | rfl | rfl | rfl | rfl | rfl
    | rfl | rfl
  case inr.inr.inr.inr.inr.inr.inr.inr.inl =>
    by_cases hT : s.rankCell Command.REFPB p.rank = sc_max_time
    · simp only [rule2_eq, timeToSatisfyConstraints, commandConstraints, constraintsREFPB,
        fourActivates_eq hs hr, index_bank hs hr, index_bankGroup hs hr, index_rank hs hr,
        index_counter hs hr, pure_bind, reduceCtorEq, or_false, false_or, if_true,
        if_false, ne_eq, hT, not_true_eq_false, ite_max_eq]
      simp only [rule_eq_max, max_assoc]
      exact ⟨_, fun _ => rfl⟩
    · by_cases h0 : s.counter p.rank = 0 <;>
      simp only [rule2_eq, timeToSatisfyConstraints, commandConstraints, constraintsREFPB,
        fourActivates_eq hs hr, index_bank hs hr, index_bankGroup hs hr, index_rank hs hr,
        index_counter hs hr, pure_bind, reduceCtorEq, or_false, false_or, if_true,
        if_false, ne_eq, hT, h0, not_false_eq_true, ite_max_eq] <;>
      simp only [rule_eq_max, max_assoc] <;>
      exact ⟨_, fun _ => rfl⟩
  all_goals
    simp [dataCommands] at hb
    simp only [rule2_eq, timeToSatisfyConstraints, commandConstraints, constraintsRead, constraintsWrite,
      constraintsACT, constraintsPREPB, constraintsPREAB, constraintsREFAB,
      constraintsPDEA, constraintsPDXA, constraintsPDEP, constraintsPDXP, constraintsSREFEN,
      constraintsSREFEX, fourActivates_eq hs hr, index_bank hs hr, index_bankGroup hs hr,
      index_rank hs hr, hb, pure_bind, ite_pure, reduceCtorEq, or_false,
      false_or, or_true, true_or, if_true, if_false, ne_eq, not_true_eq_false,
      ite_max_eq]
    simp only [rule_eq_max, max_assoc]
    exact ⟨_, fun _ => rfl⟩

/-! ## The arithmetic of `sc_time` at the edge of its range -/

theorem sc_time_edge_examples :
    (∃ s, construct { exampleSpec with tRL := 40 } = Except.ok s
      ∧ s.tWRRD_R = 18446744073709551594
      ∧ ∃ s1, insert s 100 Command.WR ⟨1, 2, 4, 16⟩ = Except.ok s1
        ∧ timeToSatisfyConstraints s1 101 Command.RD ⟨0, 0, 0, 16⟩ = Except.ok 102)
    ∧ (∃ s, construct { exampleSpec with tWL := 40 } = Except.ok s
      ∧ s.tRDWR_R = 18446744073709551596
      ∧ ∃ s1, insert s 100 Command.RD ⟨1, 2, 4, 16⟩ = Except.ok s1
        ∧ timeToSatisfyConstraints s1 101 Command.WR ⟨0, 0, 0, 16⟩ = Except.ok 102)
    ∧ (∃ s1, insert exampleChecker 18446744073709551614 Command.PDEA ⟨0, 0, 0, 16⟩
          = Except.ok s1
        ∧ timeToSatisfyConstraints s1 5 Command.PDXP ⟨1, 2, 4, 16⟩ = Except.ok 5)
    ∧ (∃ s1, insert exampleChecker 18446744073709551600 Command.ACT ⟨0, 0, 0, 16⟩
          = Except.ok s1
        ∧ timeToSatisfyConstraints s1 0 Command.RD ⟨0, 0, 0, 16⟩
          = Except.ok 18446744073709551602)
    ∧ sc_time_mul (16 / 16) 4503599627370497 = Except.ok 4503599627370498
    ∧ sc_time_mul 3 6004799503160661 = Except.ok 18014398509481984 :=
  ⟨⟨_, rfl, rfl, _, rfl, rfl⟩, ⟨_, rfl, rfl, _, rfl, rfl⟩, ⟨_, rfl, rfl⟩, ⟨_, rfl, rfl⟩, rfl,
    rfl⟩

/-! ## Claims -/

/-- C1: with an empty history (every cell and the bus at `sc_max_time()`, every
activate window empty) a query for any of the fifteen supported commands, at
any in-range rank, bank group and bank and at any current time, returns the
current time. -/
theorem timeToSatisfyConstraints_emptyHistory (s : Checker) (now : Nat) (command : Command)
    (payload : Payload) (hs : s.sized) (he : s.emptyHistory)
    (hc : command ∈ supportedCommands) (hp : payload.admissible s.memSpec command) :
    timeToSatisfyConstraints s now command payload = Except.ok now :=
  query_empty hs he hc hp now

theorem timeToSatisfyConstraints_emptyHistory_witness :
    timeToSatisfyConstraints exampleChecker 5 Command.RDA ⟨1, 3, 7, 16⟩ = Except.ok 5 :=
  timeToSatisfyConstraints_emptyHistory exampleChecker 5 Command.RDA ⟨1, 3, 7, 16⟩
    exampleChecker_initial.sized exampleChecker_initial.empty (by decide) (by decide)

/-- C2: universal bus rule. In a state whose `lastCommandOnBus` holds a
timestamp, every supported query at an in-range address returns a time of at
least `lastCommandOnBus + tCK`; and after an `insert` of any command at a
timestamp `t1`, every such query returns at least `t1 + tCK`. The sum is that
of `sc_time` (`sc_time_add`, reduced modulo `2 ^ 64`); it is the exact sum
when that is at most `sc_max_time()`. -/
theorem timeToSatisfyConstraints_bus (s : Checker) (now : Nat) (command : Command)
    (payload : Payload) (hs : s.sized) (hc : command ∈ supportedCommands)
    (hp : payload.admissible s.memSpec command) :
    (isTimestamp s.lastCommandOnBus →
      ∃ v, timeToSatisfyConstraints s now command payload = Except.ok v
        ∧ sc_time_add s.lastCommandOnBus s.memSpec.tCK ≤ v
        ∧ (s.lastCommandOnBus + s.memSpec.tCK ≤ sc_max_time →
            s.lastCommandOnBus + s.memSpec.tCK ≤ v))
    ∧ ∀ (t1 : Nat) (inserted : Command) (target : Payload), isTimestamp t1 →
        target.inRange s.memSpec →
        (inserted = Command.REFPB → 0 < s.memSpec.banksPerRank) →
        ∃ s1, insert s t1 inserted target = Except.ok s1
          ∧ ∃ v, timeToSatisfyConstraints s1 now command payload = Except.ok v
            ∧ sc_time_add t1 s.memSpec.tCK ≤ v
            ∧ (t1 + s.memSpec.tCK ≤ sc_max_time → t1 + s.memSpec.tCK ≤ v) := by
  constructor
  · intro hT
    obtain ⟨e, he⟩ := query_total hs hc hp now
    refine ⟨_, he, ?_, ?_⟩
    · rw [rule_timestamp _ _ _ hT]
      exact le_max_right _ _
    · intro hf
      rw [rule_fit _ _ _ hT hf]
      exact le_max_right _ _
  · intro t1 inserted target hT ht hb
    refine ⟨_, insert_eq hs ht inserted hb t1, ?_⟩
    obtain ⟨e, he⟩ := query_total (s := insertResult s t1 inserted target)
      (insertResult_sized hs t1 inserted target) hc hp now
    refine ⟨_, he, ?_, ?_⟩
    · rw [insertResult_bus, rule_timestamp _ _ _ hT]
      exact le_max_right _ _
    · intro hf
      have hf1 : t1 + (insertResult s t1 inserted target).memSpec.tCK ≤ sc_max_time := hf
      rw [insertResult_bus, rule_fit _ _ _ hT hf1]
      exact le_max_right _ _

theorem timeToSatisfyConstraints_bus_witness :
    (∃ v, timeToSatisfyConstraints (insertResult exampleChecker 10 Command.ACT ⟨0, 0, 0, 16⟩)
        10 Command.PDEA ⟨1, 2, 5, 16⟩ = Except.ok v ∧ 10 + 2 ≤ v)
    ∧ ∃ s1, insert exampleChecker 10 Command.WR ⟨0, 1, 2, 16⟩ = Except.ok s1
        ∧ ∃ v, timeToSatisfyConstraints s1 10 Command.PDEA ⟨1, 2, 5, 16⟩ = Except.ok v
          ∧ 10 + 2 ≤ v :=
  ⟨((timeToSatisfyConstraints_bus (insertResult exampleChecker 10 Command.ACT ⟨0, 0, 0, 16⟩) 10
      Command.PDEA ⟨1, 2, 5, 16⟩ (insertResult_sized exampleChecker_initial.sized _ _ _)
      (by decide) (by decide)).1 (by decide)).elim
      fun v h => ⟨v, h.1, h.2.2 (by decide)⟩,
   ((timeToSatisfyConstraints_bus exampleChecker 10 Command.PDEA ⟨1, 2, 5, 16⟩
      exampleChecker_initial.sized (by decide) (by decide)).2 10 Command.WR ⟨0, 1, 2, 16⟩
      (by decide) (by decide) (by decide)).elim
      fun s1 h => ⟨s1, h.1, h.2.elim fun v hv => ⟨v, hv.1, hv.2.2 (by decide)⟩⟩⟩

/-- C3: `insert(command, payload)` at current time `t` writes `t` into the
bank, bank-group, rank and channel-wide cell of the command and into
`lastCommandOnBus`, for every command and every in-range address. -/
theorem insert_records (s : Checker) (t : Nat) (command : Command) (payload : Payload)
    (hs : s.sized) (hp : payload.inRange s.memSpec)
    (hb : command = Command.REFPB → 0 < s.memSpec.banksPerRank) :
    ∃ s1, insert s t command payload = Except.ok s1
      ∧ (s1.lastScheduledByCommandAndBank command)[payload.bank]? = some t
      ∧ (s1.lastScheduledByCommandAndBankGroup command)[payload.bankGroup]? = some t
      ∧ (s1.lastScheduledByCommandAndRank command)[payload.rank]? = some t
      ∧ s1.lastScheduledByCommand command = t
      ∧ s1.lastCommandOnBus = t := by
  have h1 : payload.bank < (s.lastScheduledByCommandAndBank command).length := by
    rw [hs.byBank command]; exact hp.2.2
  have h2 : payload.bankGroup < (s.lastScheduledByCommandAndBankGroup command).length := by
    rw [hs.byBankGroup command]; exact hp.2.1
  have h3 : payload.rank < (s.lastScheduledByCommandAndRank command).length := by
    rw [hs.byRank command]; exact hp.1
  refine ⟨_, insert_eq hs hp command hb t, ?_, ?_, ?_, ?_, rfl⟩
  · simp [insertResult, h1]
  · simp [insertResult, h2]
  · simp [insertResult, h3]
  · simp [insertResult]

theorem insert_records_witness :
    ∃ s1, insert exampleChecker 7 Command.REFPB ⟨1, 2, 5, 16⟩ = Except.ok s1
      ∧ (s1.lastScheduledByCommandAndBank Command.REFPB)[5]? = some 7
      ∧ (s1.lastScheduledByCommandAndBankGroup Command.REFPB)[2]? = some 7
      ∧ (s1.lastScheduledByCommandAndRank Command.REFPB)[1]? = some 7
      ∧ s1.lastScheduledByCommand Command.REFPB = 7
      ∧ s1.lastCommandOnBus = 7 :=
  insert_records exampleChecker 7 Command.REFPB ⟨1, 2, 5, 16⟩ exampleChecker_initial.sized
    (by decide) (by decide)

/-- C4: four-activate window. From a state whose window of rank `R` is empty,
after four ACT inserts on rank `R` at times `t1`, `t2`, `t3`, `t4` every ACT
query on rank `R` returns at least `t1 + tFAW`; after a fifth ACT insert at
`t5` the window is `t2, t3, t4, t5` and every ACT query on rank `R` returns at
least `t2 + tFAW`. The sums are those of `sc_time` (`sc_time_add`, reduced
modulo `2 ^ 64`); they are the exact sums when these are at most
`sc_max_time()`. The order of the times and the banks play no part. -/
theorem fourActivateWindow (s : Checker) (R t1 t2 t3 t4 t5 now : Nat)
    (p1 p2 p3 p4 p5 q : Payload) (hs : s.sized) (hw : s.window R = [])
    (h1 : p1.inRange s.memSpec ∧ p1.rank = R) (h2 : p2.inRange s.memSpec ∧ p2.rank = R)
    (h3 : p3.inRange s.memSpec ∧ p3.rank = R) (h4 : p4.inRange s.memSpec ∧ p4.rank = R)
    (h5 : p5.inRange s.memSpec ∧ p5.rank = R) (hq : q.inRange s.memSpec ∧ q.rank = R) :
    ∃ s4, insertAll s [⟨t1, Command.ACT, p1⟩, ⟨t2, Command.ACT, p2⟩, ⟨t3, Command.ACT, p3⟩,
        ⟨t4, Command.ACT, p4⟩] = Except.ok s4
      ∧ (∃ v, timeToSatisfyConstraints s4 now Command.ACT q = Except.ok v
          ∧ sc_time_add t1 s.memSpec.tFAW ≤ v
          ∧ (t1 + s.memSpec.tFAW ≤ sc_max_time → t1 + s.memSpec.tFAW ≤ v))
      ∧ ∃ s5, insert s4 t5 Command.ACT p5 = Except.ok s5
        ∧ s5.last4Activates[R]? = some [t2, t3, t4, t5]
        ∧ ∃ v, timeToSatisfyConstraints s5 now Command.ACT q = Except.ok v
          ∧ sc_time_add t2 s.memSpec.tFAW ≤ v
          ∧ (t2 + s.memSpec.tFAW ≤ sc_max_time → t2 + s.memSpec.tFAW ≤ v) := by
  obtain ⟨h1, r1⟩ := h1
  obtain ⟨h2, r2⟩ := h2
  obtain ⟨h3, r3⟩ := h3
  obtain ⟨h4, r4⟩ := h4
  obtain ⟨h5, r5⟩ := h5
  obtain ⟨hq, rq⟩ := hq
  have hin : ∀ e ∈ [(⟨t1, Command.ACT, p1⟩ : Event), ⟨t2, Command.ACT, p2⟩,
      ⟨t3, Command.ACT, p3⟩, ⟨t4, Command.ACT, p4⟩], e.payload.inRange s.memSpec := by
    intro e he
    simp only [List.mem_cons, List.mem_singleton, List.not_mem_nil, or_false] at he
    rcases he with rfl | rfl | rfl | rfl <;> assumption
  have hnoref : (∃ e ∈ [(⟨t1, Command.ACT, p1⟩ : Event), ⟨t2, Command.ACT, p2⟩,
      ⟨t3, Command.ACT, p3⟩, ⟨t4, Command.ACT, p4⟩], e.command = Command.REFPB)
      → 0 < s.memSpec.banksPerRank := by
    rintro ⟨e, he, hc⟩
    simp only [List.mem_cons, List.mem_singleton, List.not_mem_nil, or_false] at he
    rcases he with rfl | rfl | rfl | rfl <;> cases hc
  have hs4 := insertAllResult_sized hs [(⟨t1, Command.ACT, p1⟩ : Event),
    ⟨t2, Command.ACT, p2⟩, ⟨t3, Command.ACT, p3⟩, ⟨t4, Command.ACT, p4⟩]
  have hm4 := insertAllResult_memSpec s [(⟨t1, Command.ACT, p1⟩ : Event),
    ⟨t2, Command.ACT, p2⟩, ⟨t3, Command.ACT, p3⟩, ⟨t4, Command.ACT, p4⟩]
  have hw4 := insertAllResult_window hs _ hin R (by rw [hw]; exact Nat.zero_le 4)
  have hwin : activateTimes R [(⟨t1, Command.ACT, p1⟩ : Event), ⟨t2, Command.ACT, p2⟩,
      ⟨t3, Command.ACT, p3⟩, ⟨t4, Command.ACT, p4⟩] = [t1, t2, t3, t4] := by
    simp [activateTimes, isActivateClass, r1, r2, r3, r4]
  rw [hw, hwin] at hw4
  have hw4 : (insertAllResult s [(⟨t1, Command.ACT, p1⟩ : Event), ⟨t2, Command.ACT, p2⟩,
      ⟨t3, Command.ACT, p3⟩, ⟨t4, Command.ACT, p4⟩]).window R = [t1, t2, t3, t4] := hw4
  refine ⟨_, insertAll_eq hs _ hin hnoref, ?_, ?_⟩
  · obtain ⟨v, hv, hle⟩ := query_ACT_window hs4 (p := q) (by rw [hm4]; exact hq) now
      (by rw [rq, hw4]; exact Nat.le_refl 4)
    rw [rq, hw4, hm4] at hle
    have hle : sc_time_add t1 s.memSpec.tFAW ≤ v := hle
    refine ⟨v, hv, hle, ?_⟩
    intro hf
    rw [← sc_time_add_of_le _ _ hf]
    exact hle
  · have h5in : p5.inRange (insertAllResult s [(⟨t1, Command.ACT, p1⟩ : Event),
        ⟨t2, Command.ACT, p2⟩, ⟨t3, Command.ACT, p3⟩, ⟨t4, Command.ACT, p4⟩]).memSpec := by
      rw [hm4]; exact h5
    have hs5 := insertResult_sized hs4 t5 Command.ACT p5
    have hw5 := insertResult_window hs4 h5in t5 Command.ACT R
    rw [if_pos ⟨Or.inl rfl, r5.symm⟩, hw4] at hw5
    have hw5 : (insertResult (insertAllResult s [(⟨t1, Command.ACT, p1⟩ : Event),
        ⟨t2, Command.ACT, p2⟩, ⟨t3, Command.ACT, p3⟩, ⟨t4, Command.ACT, p4⟩]) t5
        Command.ACT p5).window R = [t2, t3, t4, t5] := hw5
    refine ⟨_, insert_eq hs4 h5in Command.ACT (fun h => by cases h) t5, ?_, ?_⟩
    · have hR : R < (insertResult (insertAllResult s [(⟨t1, Command.ACT, p1⟩ : Event),
          ⟨t2, Command.ACT, p2⟩, ⟨t3, Command.ACT, p3⟩, ⟨t4, Command.ACT, p4⟩]) t5
          Command.ACT p5).last4Activates.length := by
        rw [hs5.windows, insertResult_memSpec, hm4, ← rq]; exact hq.1
      rw [getElem?_of_getD _ _ [] hR]
      exact congrArg some hw5
    · obtain ⟨v, hv, hle⟩ := query_ACT_window hs5 (p := q)
        (by rw [insertResult_memSpec, hm4]; exact hq) now (by rw [rq, hw5]; exact Nat.le_refl 4)
      rw [rq, hw5, insertResult_memSpec, hm4] at hle
      have hle : sc_time_add t2 s.memSpec.tFAW ≤ v := hle
      refine ⟨v, hv, hle, ?_⟩
      intro hf
      rw [← sc_time_add_of_le _ _ hf]
      exact hle

theorem fourActivateWindow_witness :
    ∃ s4, insertAll exampleChecker [⟨1, Command.ACT, ⟨0, 0, 0, 16⟩⟩,
        ⟨7, Command.ACT, ⟨0, 0, 1, 16⟩⟩, ⟨13, Command.ACT, ⟨0, 1, 2, 16⟩⟩,
        ⟨19, Command.ACT, ⟨0, 1, 3, 16⟩⟩] = Except.ok s4
      ∧ (∃ v, timeToSatisfyConstraints s4 25 Command.ACT ⟨0, 0, 1, 16⟩ = Except.ok v
          ∧ 1 + 40 ≤ v)
      ∧ ∃ s5, insert s4 41 Command.ACT ⟨0, 0, 0, 16⟩ = Except.ok s5
        ∧ s5.last4Activates[0]? = some [7, 13, 19, 41]
        ∧ ∃ v, timeToSatisfyConstraints s5 25 Command.ACT ⟨0, 0, 1, 16⟩ = Except.ok v
          ∧ 7 + 40 ≤ v :=
  (fourActivateWindow exampleChecker 0 1 7 13 19 41 25 ⟨0, 0, 0, 16⟩ ⟨0, 0, 1, 16⟩
    ⟨0, 1, 2, 16⟩ ⟨0, 1, 3, 16⟩ ⟨0, 0, 0, 16⟩ ⟨0, 0, 1, 16⟩ exampleChecker_initial.sized rfl
    (by decide) (by decide) (by decide) (by decide) (by decide) (by decide)).elim
    fun s4 h => ⟨s4, h.1, h.2.1.elim fun v hv => ⟨v, hv.1, hv.2.2 (by decide)⟩,
      h.2.2.elim fun s5 h5 => ⟨s5, h5.1, h5.2.1,
        h5.2.2.elim fun v hv => ⟨v, hv.1, hv.2.2 (by decide)⟩⟩⟩

/-- C5: bounded FIFO window. After any sequence of in-range inserts from the
initial state, `last4Activates[r]` is the list of the insert times of the last
`min 4 k` activate-class inserts (ACT or REFPB) on rank `r`, oldest first, `k`
being the number of such inserts. -/
theorem last4Activates_trace (s : Checker) (events : List Event) (r : Nat) (hi : s.initial)
    (hp : ∀ e ∈ events, e.payload.inRange s.memSpec)
    (hb : (∃ e ∈ events, e.command = Command.REFPB) → 0 < s.memSpec.banksPerRank)
    (hr : r < s.memSpec.ranksPerChannel) :
    ∃ s1, insertAll s events = Except.ok s1
      ∧ s1.last4Activates[r]? = some (lastN 4 (activateTimes r events))
      ∧ (lastN 4 (activateTimes r events)).length = min 4 (activateTimes r events).length := by
  refine ⟨_, insertAll_eq hi.sized events hp hb, ?_, length_lastN _ _⟩
  have hs1 := insertAllResult_sized hi.sized events
  have hw := insertAllResult_window hi.sized events hp r
    (by rw [window_initial hi]; exact Nat.zero_le 4)
  rw [window_initial hi, List.nil_append] at hw
  have hlen : r < (insertAllResult s events).last4Activates.length := by
    rw [hs1.windows, insertAllResult_memSpec]; exact hr
  rw [getElem?_of_getD _ _ [] hlen]
  exact congrArg some hw

theorem last4Activates_trace_witness :
    ∃ s1, insertAll exampleChecker [⟨1, Command.ACT, ⟨0, 0, 0, 16⟩⟩,
        ⟨3, Command.RD, ⟨0, 0, 0, 16⟩⟩, ⟨5, Command.REFPB, ⟨0, 1, 2, 16⟩⟩,
        ⟨7, Command.ACT, ⟨1, 2, 4, 16⟩⟩, ⟨9, Command.ACT, ⟨0, 0, 1, 16⟩⟩,
        ⟨11, Command.PREAB, ⟨0, 0, 0, 16⟩⟩, ⟨13, Command.ACT, ⟨0, 1, 3, 16⟩⟩,
        ⟨15, Command.REFPB, ⟨0, 0, 0, 16⟩⟩] = Except.ok s1
      ∧ s1.last4Activates[0]? = some [5, 9, 13, 15]
      ∧ [5, 9, 13, 15].length = min 4 5 :=
  last4Activates_trace exampleChecker [⟨1, Command.ACT, ⟨0, 0, 0, 16⟩⟩,
    ⟨3, Command.RD, ⟨0, 0, 0, 16⟩⟩, ⟨5, Command.REFPB, ⟨0, 1, 2, 16⟩⟩,
    ⟨7, Command.ACT, ⟨1, 2, 4, 16⟩⟩, ⟨9, Command.ACT, ⟨0, 0, 1, 16⟩⟩,
    ⟨11, Command.PREAB, ⟨0, 0, 0, 16⟩⟩, ⟨13, Command.ACT, ⟨0, 1, 3, 16⟩⟩,
    ⟨15, Command.REFPB, ⟨0, 0, 0, 16⟩⟩] 0 exampleChecker_initial (by decide)
    (fun _ => by decide) (by decide)

/-- C6: refresh-bank alternation in the query. In a state whose cell
`lastScheduledByCommandAndRank[REFPB][rank]` holds a timestamp `T`, a REFPB
query on that rank returns at least `T + tRFCpb` when the counter of the rank
is zero; when the counter is not zero the result is the maximum of
`T + tRREFD` and the result the same query has with that cell cleared. From
the initial state with `2 ≤ banksPerRank`, after one REFPB insert at a
timestamp `T` the counter of the rank is 1 and a REFPB query at time `T` for
another bank of the rank returns `T + max tRREFD tCK`. The sums are those of
`sc_time` (`sc_time_add`, reduced modulo `2 ^ 64`); they are the exact sums
when these are at most `sc_max_time()`. -/
theorem refreshBankAlternation (s : Checker) (now T : Nat) (p q : Payload) (hs : s.sized)
    (hp : p.inRange s.memSpec) :
    (isTimestamp (s.rankCell Command.REFPB p.rank) → s.counter p.rank = 0 →
      ∃ v, timeToSatisfyConstraints s now Command.REFPB p = Except.ok v
        ∧ sc_time_add (s.rankCell Command.REFPB p.rank) s.memSpec.tRFCpb ≤ v
        ∧ (s.rankCell Command.REFPB p.rank + s.memSpec.tRFCpb ≤ sc_max_time →
            s.rankCell Command.REFPB p.rank + s.memSpec.tRFCpb ≤ v))
    ∧ (isTimestamp (s.rankCell Command.REFPB p.rank) → s.counter p.rank ≠ 0 →
      ∃ v0, timeToSatisfyConstraints (clearRankCell s Command.REFPB p.rank) now
            Command.REFPB p = Except.ok v0
        ∧ timeToSatisfyConstraints s now Command.REFPB p
          = Except.ok (max v0 (sc_time_add (s.rankCell Command.REFPB p.rank)
              s.memSpec.tRREFD))
        ∧ (s.rankCell Command.REFPB p.rank + s.memSpec.tRREFD ≤ sc_max_time →
            timeToSatisfyConstraints s now Command.REFPB p
              = Except.ok (max v0 (s.rankCell Command.REFPB p.rank + s.memSpec.tRREFD))))
    ∧ (s.initial → 2 ≤ s.memSpec.banksPerRank → isTimestamp T →
      T + max s.memSpec.tRREFD s.memSpec.tCK ≤ sc_max_time → q.inRange s.memSpec →
      q.rank = p.rank → q.bank ≠ p.bank →
      ∃ s1, insert s T Command.REFPB p = Except.ok s1
        ∧ s1.bankwiseRefreshCounter[p.rank]? = some 1
        ∧ timeToSatisfyConstraints s1 T Command.REFPB q
          = Except.ok (T + max s.memSpec.tRREFD s.memSpec.tCK)) := by
  refine ⟨?_, ?_, ?_⟩
  · intro hT h0
    obtain ⟨v, hv, hle⟩ := query_REFPB_counter_zero hs hp now hT h0
    refine ⟨v, hv, hle, ?_⟩
    intro hf
    rw [← sc_time_add_of_le _ _ hf]
    exact hle
  · intro hT h0
    obtain ⟨v0, hv0, hq⟩ := query_REFPB_counter_pos hs hp now hT h0
    refine ⟨v0, hv0, hq, ?_⟩
    intro hf
    rw [hq, sc_time_add_of_le _ _ hf]
  intro hi h2 hT hf hq hr hb
  obtain ⟨hcnt, hquery⟩ := query_REFPB_after_first hi hp hq hr hb h2 T hT hf
  refine ⟨_, insert_eq hs hp Command.REFPB (fun _ => by omega) T, ?_, hquery⟩
  have hlen : p.rank < (insertResult s T Command.REFPB p).bankwiseRefreshCounter.length := by
    rw [(insertResult_sized hs T Command.REFPB p).counters]; exact hp.1
  rw [getElem?_of_getD _ _ 0 hlen]
  exact congrArg some hcnt

theorem refreshBankAlternation_witness :
    (∃ v, timeToSatisfyConstraints
          (insertAllResult exampleChecker [⟨10, Command.REFPB, ⟨0, 0, 0, 16⟩⟩,
            ⟨22, Command.REFPB, ⟨0, 0, 1, 16⟩⟩, ⟨34, Command.REFPB, ⟨0, 1, 2, 16⟩⟩,
            ⟨46, Command.REFPB, ⟨0, 1, 3, 16⟩⟩]) 50 Command.REFPB ⟨0, 0, 0, 16⟩ = Except.ok v
        ∧ 46 + 60 ≤ v)
    ∧ (∃ v0, timeToSatisfyConstraints
          (clearRankCell (insertResult exampleChecker 10 Command.REFPB ⟨0, 0, 0, 16⟩)
            Command.REFPB 0) 11 Command.REFPB ⟨0, 0, 1, 16⟩ = Except.ok v0
        ∧ timeToSatisfyConstraints (insertResult exampleChecker 10 Command.REFPB ⟨0, 0, 0, 16⟩)
            11 Command.REFPB ⟨0, 0, 1, 16⟩ = Except.ok (max v0 (10 + 12)))
    ∧ ∃ s1, insert exampleChecker 10 Command.REFPB ⟨0, 0, 0, 16⟩ = Except.ok s1
        ∧ s1.bankwiseRefreshCounter[0]? = some 1
        ∧ timeToSatisfyConstraints s1 10 Command.REFPB ⟨0, 0, 1, 16⟩
          = Except.ok (10 + max 12 2) :=
  ⟨((refreshBankAlternation
      (insertAllResult exampleChecker [⟨10, Command.REFPB, ⟨0, 0, 0, 16⟩⟩,
        ⟨22, Command.REFPB, ⟨0, 0, 1, 16⟩⟩, ⟨34, Command.REFPB, ⟨0, 1, 2, 16⟩⟩,
        ⟨46, Command.REFPB, ⟨0, 1, 3, 16⟩⟩]) 50 0 ⟨0, 0, 0, 16⟩ ⟨0, 0, 0, 16⟩
      (insertAllResult_sized exampleChecker_initial.sized _) (by decide)).1
      (by decide) (by decide)).elim fun v h => ⟨v, h.1, h.2.2 (by decide)⟩,
   ((refreshBankAlternation (insertResult exampleChecker 10 Command.REFPB ⟨0, 0, 0, 16⟩) 11 0
      ⟨0, 0, 1, 16⟩ ⟨0, 0, 0, 16⟩ (insertResult_sized exampleChecker_initial.sized _ _ _)
      (by decide)).2.1 (by decide) (by decide)).elim
      fun v0 h => ⟨v0, h.1, h.2.2 (by decide)⟩,
   (refreshBankAlternation exampleChecker 0 10 ⟨0, 0, 0, 16⟩ ⟨0, 0, 1, 16⟩
      exampleChecker_initial.sized (by decide)).2.2 exampleChecker_initial (by decide)
      (by decide) (by decide) (by decide) (by decide) (by decide)⟩

/-- C7: refresh alternation counter. With `1 ≤ banksPerRank` (an `unsigned`,
so below `2 ^ 32`), after any sequence of in-range inserts from the initial
state that holds `k` REFPB inserts on rank `r`, `bankwiseRefreshCounter[r]` is
`k % banksPerRank`: a value below `banksPerRank`, which is 1 for `k = 1` when
`2 ≤ banksPerRank` and 0 for `k = banksPerRank`. -/
theorem bankwiseRefreshCounter_trace (s : Checker) (events : List Event) (r : Nat)
    (hi : s.initial) (hp : ∀ e ∈ events, e.payload.inRange s.memSpec)
    (h1 : 1 ≤ s.memSpec.banksPerRank) (h32 : s.memSpec.banksPerRank < 4294967296)
    (hr : r < s.memSpec.ranksPerChannel) :
    ∃ s1, insertAll s events = Except.ok s1
      ∧ s1.bankwiseRefreshCounter[r]? = some (refreshCount r events % s.memSpec.banksPerRank)
      ∧ refreshCount r events % s.memSpec.banksPerRank < s.memSpec.banksPerRank
      ∧ (refreshCount r events = 1 → 2 ≤ s.memSpec.banksPerRank →
          s1.bankwiseRefreshCounter[r]? = some 1)
      ∧ (refreshCount r events = s.memSpec.banksPerRank →
          s1.bankwiseRefreshCounter[r]? = some 0) := by
  have hs1 := insertAllResult_sized hi.sized events
  have hc := insertAllResult_counter hi.sized events hp r h32
    (by rw [counter_initial hi]; exact h1)
  rw [counter_initial hi, Nat.zero_add] at hc
  have hlen : r < (insertAllResult s events).bankwiseRefreshCounter.length := by
    rw [hs1.counters, insertAllResult_memSpec]; exact hr
  have hcell : (insertAllResult s events).bankwiseRefreshCounter[r]?
      = some (refreshCount r events % s.memSpec.banksPerRank) := by
    rw [getElem?_of_getD _ _ 0 hlen]
    exact congrArg some hc
  refine ⟨_, insertAll_eq hi.sized events hp (fun _ => h1), hcell, Nat.mod_lt _ h1, ?_, ?_⟩
  · intro hk h2
    rw [hcell, hk, Nat.mod_eq_of_lt (by omega)]
  · intro hk
    rw [hcell, hk, Nat.mod_self]

theorem bankwiseRefreshCounter_trace_witness :
    ∃ s1, insertAll exampleChecker [⟨1, Command.REFPB, ⟨0, 0, 0, 16⟩⟩,
        ⟨3, Command.ACT, ⟨0, 0, 0, 16⟩⟩, ⟨5, Command.REFPB, ⟨0, 1, 2, 16⟩⟩,
        ⟨7, Command.REFPB, ⟨1, 2, 4, 16⟩⟩, ⟨9, Command.REFPB, ⟨0, 0, 1, 16⟩⟩,
        ⟨11, Command.REFPB, ⟨0, 1, 3, 16⟩⟩, ⟨13, Command.REFPB, ⟨0, 0, 0, 16⟩⟩]
        = Except.ok s1
      ∧ s1.bankwiseRefreshCounter[0]? = some (5 % 4)
      ∧ 5 % 4 < 4
      ∧ (5 = 1 → 2 ≤ 4 → s1.bankwiseRefreshCounter[0]? = some 1)
      ∧ (5 = 4 → s1.bankwiseRefreshCounter[0]? = some 0) :=
  bankwiseRefreshCounter_trace exampleChecker [⟨1, Command.REFPB, ⟨0, 0, 0, 16⟩⟩,
    ⟨3, Command.ACT, ⟨0, 0, 0, 16⟩⟩, ⟨5, Command.REFPB, ⟨0, 1, 2, 16⟩⟩,
    ⟨7, Command.REFPB, ⟨1, 2, 4, 16⟩⟩, ⟨9, Command.REFPB, ⟨0, 0, 1, 16⟩⟩,
    ⟨11, Command.REFPB, ⟨0, 1, 3, 16⟩⟩, ⟨13, Command.REFPB, ⟨0, 0, 0, 16⟩⟩] 0
    exampleChecker_initial (by decide) (by decide) (by decide) (by decide)

/-- C8: cross-rank versus same-rank. From an empty history, after
`insert(RD)` on rank `A` at a timestamp `T`, a WR or WRA query on rank `A` at
time `now` returns `max now (max (T + tRTW) (T + tCK))`, free of `tRDWR_R`; a WR
or WRA query on any other rank returns at least `T + tRDWR_R`. The sums are
those of `sc_time` (`sc_time_add`, reduced modulo `2 ^ 64`); they are the
exact sums when these are at most `sc_max_time()`. -/
theorem readToWrite_ranks (s : Checker) (T now : Nat) (pA q : Payload) (command : Command)
    (hs : s.sized) (he : s.emptyHistory) (hT : isTimestamp T) (hA : pA.inRange s.memSpec)
    (hq : q.inRange s.memSpec) (hl : q.burstLength = 16)
    (hc : command = Command.WR ∨ command = Command.WRA) :
    ∃ s1, insert s T Command.RD pA = Except.ok s1
      ∧ (q.rank = pA.rank →
          timeToSatisfyConstraints s1 now command q
            = Except.ok (max now
                (max (sc_time_add T s.memSpec.tRTW) (sc_time_add T s.memSpec.tCK)))
          ∧ (T + s.memSpec.tRTW ≤ sc_max_time → T + s.memSpec.tCK ≤ sc_max_time →
            timeToSatisfyConstraints s1 now command q
              = Except.ok (max now (max (T + s.memSpec.tRTW) (T + s.memSpec.tCK)))))
      ∧ (q.rank ≠ pA.rank →
          ∃ v, timeToSatisfyConstraints s1 now command q = Except.ok v
            ∧ sc_time_add T s.tRDWR_R ≤ v
            ∧ (T + s.tRDWR_R ≤ sc_max_time → T + s.tRDWR_R ≤ v)) := by
  have hT : T ≠ sc_max_time := hT
  have hs1 := insertResult_sized hs T Command.RD pA
  have hq1 : q.inRange (insertResult s T Command.RD pA).memSpec := hq
  have htr : (insertResult s T Command.RD pA).tRDWR_R = s.tRDWR_R := rfl
  refine ⟨_, insert_eq hs hA Command.RD (fun h => by cases h) T, ?_, ?_⟩
  · intro hr
    have hquery : timeToSatisfyConstraints (insertResult s T Command.RD pA) now command q
        = Except.ok (max now
            (max (sc_time_add T s.memSpec.tRTW) (sc_time_add T s.memSpec.tCK))) := by
      rcases hc with rfl | rfl <;>
      simp only [rule2_eq, timeToSatisfyConstraints, commandConstraints, constraintsWrite,
        index_bank hs1 hq1, index_bankGroup hs1 hq1, index_rank hs1 hq1, hl, pure_bind,
        reduceCtorEq, or_false, false_or, or_true, true_or, if_true, if_false, ne_eq,
        not_true_eq_false] <;>
      simp only [insertResult_bankCell hs hA, insertResult_bankGroupCell hs hA,
        insertResult_rankCell hs hA, insertResult_bus, insertResult_memSpec,
        insertResult_byCommand, bankCell_empty he, bankGroupCell_empty he, rankCell_empty he,
        he.byCommand, rule_never, otherRank_same, hr, reduceCtorEq, if_true, if_false,
        false_and, true_and, and_true, rule_timestamp _ _ _ hT] <;>
      (show Except.ok _ = Except.ok _) <;>
      congr 1 <;>
      omega
    refine ⟨hquery, ?_⟩
    intro hf1 hf2
    rw [hquery, sc_time_add_of_le _ _ hf1, sc_time_add_of_le _ _ hf2]
  · intro hr
    have hquery : ∃ v, timeToSatisfyConstraints (insertResult s T Command.RD pA) now command q
        = Except.ok v ∧ sc_time_add T s.tRDWR_R ≤ v := by
      rcases hc with rfl | rfl <;>
      simp only [rule2_eq, timeToSatisfyConstraints, commandConstraints, constraintsWrite,
        index_bank hs1 hq1, index_bankGroup hs1 hq1, index_rank hs1 hq1, hl, pure_bind,
        reduceCtorEq, or_false, false_or, or_true, true_or, if_true, if_false, ne_eq,
        not_true_eq_false] <;>
      simp only [insertResult_bankCell hs hA, insertResult_bankGroupCell hs hA,
        insertResult_rankCell hs hA, insertResult_bus, insertResult_memSpec,
        insertResult_byCommand, bankCell_empty he, bankGroupCell_empty he, rankCell_empty he,
        he.byCommand, rule_never, otherRank_same, otherRank_never _ hT, hr, htr, reduceCtorEq,
        if_true, if_false, false_and, true_and, and_true, and_false,
        rule_timestamp _ _ _ hT] <;>
      exact ⟨_, rfl, by omega⟩
    obtain ⟨v, hv, hle⟩ := hquery
    refine ⟨v, hv, hle, ?_⟩
    intro hf
    rw [← sc_time_add_of_le _ _ hf]
    exact hle

theorem readToWrite_ranks_witness :
    (∃ s1, insert exampleChecker 100 Command.RD ⟨0, 0, 0, 16⟩ = Except.ok s1
      ∧ timeToSatisfyConstraints s1 101 Command.WR ⟨0, 1, 2, 16⟩
          = Except.ok (max 101 (max (100 + 18) (100 + 2))))
    ∧ ∃ s1, insert exampleChecker 100 Command.RD ⟨0, 0, 0, 16⟩ = Except.ok s1
      ∧ ∃ v, timeToSatisfyConstraints s1 101 Command.WRA ⟨1, 2, 5, 16⟩ = Except.ok v
        ∧ 100 + 12 ≤ v :=
  ⟨(readToWrite_ranks exampleChecker 100 101 ⟨0, 0, 0, 16⟩ ⟨0, 1, 2, 16⟩ Command.WR
      exampleChecker_initial.sized exampleChecker_initial.empty (by decide) (by decide)
      (by decide) rfl (Or.inl rfl)).elim
        fun s1 h => ⟨s1, h.1, (h.2.1 rfl).2 (by decide) (by decide)⟩,
   (readToWrite_ranks exampleChecker 100 101 ⟨0, 0, 0, 16⟩ ⟨1, 2, 5, 16⟩ Command.WRA
      exampleChecker_initial.sized exampleChecker_initial.empty (by decide) (by decide)
      (by decide) rfl (Or.inr rfl)).elim
        fun s1 h => ⟨s1, h.1, (h.2.2 (by decide)).elim
          fun v hv => ⟨v, hv.1, hv.2.2 (by decide)⟩⟩⟩

/-- C9: concrete scenario. With `tRCDRD = 24`, `tCCDL = 6`, `tCCDS = 3` and
`tCK ≤ 3`, from the initial state: after `insert(ACT)` on bank 0 at time 0 a
RD query on that bank at time 0 returns 24; after `insert(RD)` on that bank at
time 24 a RD query at time 24 returns 30 on another bank of the same bank
group and 27 on any bank of another bank group of the same rank. -/
theorem readAfterActivate_scenario (s : Checker) (p0 q1 q2 : Payload) (hi : s.initial)
    (hRCD : s.memSpec.tRCDRD = 24) (hCCDL : s.memSpec.tCCDL = 6) (hCCDS : s.memSpec.tCCDS = 3)
    (hCK : s.memSpec.tCK ≤ 3)
    (h0 : p0.inRange s.memSpec ∧ p0.bank = 0 ∧ p0.burstLength = 16)
    (h1 : q1.inRange s.memSpec ∧ q1.burstLength = 16 ∧ q1.rank = p0.rank
      ∧ q1.bankGroup = p0.bankGroup ∧ q1.bank ≠ p0.bank)
    (h2 : q2.inRange s.memSpec ∧ q2.burstLength = 16 ∧ q2.rank = p0.rank
      ∧ q2.bankGroup ≠ p0.bankGroup) :
    ∃ s1, insert s 0 Command.ACT p0 = Except.ok s1
      ∧ timeToSatisfyConstraints s1 0 Command.RD p0 = Except.ok 24
      ∧ ∃ s2, insert s1 24 Command.RD p0 = Except.ok s2
        ∧ timeToSatisfyConstraints s2 24 Command.RD q1 = Except.ok 30
        ∧ timeToSatisfyConstraints s2 24 Command.RD q2 = Except.ok 27 := by
  obtain ⟨hp0, -, hl0⟩ := h0
  obtain ⟨hq1, hl1, hr1, hg1, hb1⟩ := h1
  obtain ⟨hq2, hl2, hr2, hg2⟩ := h2
  have hs := hi.sized
  have he := hi.empty
  have hs1 := insertResult_sized hs 0 Command.ACT p0
  have hp1 : p0.inRange (insertResult s 0 Command.ACT p0).memSpec := hp0
  have hs2 := insertResult_sized hs1 24 Command.RD p0
  have hp2 : p0.inRange (insertResult (insertResult s 0 Command.ACT p0) 24 Command.RD p0).memSpec :=
    hp0
  have hq1' : q1.inRange
      (insertResult (insertResult s 0 Command.ACT p0) 24 Command.RD p0).memSpec := hq1
  have hq2' : q2.inRange
      (insertResult (insertResult s 0 Command.ACT p0) 24 Command.RD p0).memSpec := hq2
  have t0 : (0 : Nat) ≠ sc_max_time := by decide
  have t24 : (24 : Nat) ≠ sc_max_time := by decide
  refine ⟨_, insert_eq hs hp0 Command.ACT (fun h => by cases h) 0, ?_,
    _, insert_eq hs1 hp1 Command.RD (fun h => by cases h) 24, ?_, ?_⟩
  · simp only [rule2_eq, timeToSatisfyConstraints, commandConstraints, constraintsRead,
      index_bank hs1 hp1, index_bankGroup hs1 hp1, index_rank hs1 hp1, hl0, pure_bind,
      reduceCtorEq, or_false, false_or, or_true, true_or, if_true, if_false, ne_eq,
      not_true_eq_false]
    simp only [insertResult_bankCell hs hp0, insertResult_bankGroupCell hs hp0,
      insertResult_rankCell hs hp0, insertResult_bus, insertResult_memSpec,
      insertResult_byCommand, bankCell_empty he, bankGroupCell_empty he, rankCell_empty he,
      he.byCommand, rule_never, otherRank_same, reduceCtorEq, if_true, if_false,
      false_and, true_and, and_true, and_self, rule_timestamp _ _ _ t0, hRCD, sc_time_add]
    show Except.ok _ = Except.ok _
    congr 1
    omega
  · simp only [rule2_eq, timeToSatisfyConstraints, commandConstraints, constraintsRead,
      index_bank hs2 hq1', index_bankGroup hs2 hq1', index_rank hs2 hq1', hl1, pure_bind,
      reduceCtorEq, or_false, false_or, or_true, true_or, if_true, if_false, ne_eq,
      not_true_eq_false]
    simp only [insertResult_bankCell hs1 hp1, insertResult_bankGroupCell hs1 hp1,
      insertResult_rankCell hs1 hp1, insertResult_bankCell hs hp0,
      insertResult_bankGroupCell hs hp0, insertResult_rankCell hs hp0, insertResult_bus,
      insertResult_memSpec, insertResult_byCommand, bankCell_empty he, bankGroupCell_empty he,
      rankCell_empty he, he.byCommand, rule_never, otherRank_same, hr1, hg1, hb1, reduceCtorEq,
      if_true, if_false, false_and, true_and, and_true, and_false, and_self,
      rule_timestamp _ _ _ t24, hCCDL, hCCDS, sc_time_add]
    show Except.ok _ = Except.ok _
    congr 1
    omega
  · simp only [rule2_eq, timeToSatisfyConstraints, commandConstraints, constraintsRead,
      index_bank hs2 hq2', index_bankGroup hs2 hq2', index_rank hs2 hq2', hl2, pure_bind,
      reduceCtorEq, or_false, false_or, or_true, true_or, if_true, if_false, ne_eq,
      not_true_eq_false]
    by_cases hb2 : q2.bank = p0.bank <;>
    simp only [insertResult_bankCell hs1 hp1, insertResult_bankGroupCell hs1 hp1,
      insertResult_rankCell hs1 hp1, insertResult_bankCell hs hp0,
      insertResult_bankGroupCell hs hp0, insertResult_rankCell hs hp0, insertResult_bus,
      insertResult_memSpec, insertResult_byCommand, bankCell_empty he, bankGroupCell_empty he,
      rankCell_empty he, he.byCommand, rule_never, otherRank_same, hr2, hg2, hb2, reduceCtorEq,
      if_true, if_false, false_and, true_and, and_true, and_false, and_self,
      rule_timestamp _ _ _ t24, rule_timestamp _ _ _ t0, hCCDL, hCCDS, hRCD, sc_time_add] <;>
    (show Except.ok _ = Except.ok _) <;>
    congr 1 <;>
    omega

theorem readAfterActivate_scenario_witness :
    ∃ s1, insert exampleChecker 0 Command.ACT ⟨0, 0, 0, 16⟩ = Except.ok s1
      ∧ timeToSatisfyConstraints s1 0 Command.RD ⟨0, 0, 0, 16⟩ = Except.ok 24
      ∧ ∃ s2, insert s1 24 Command.RD ⟨0, 0, 0, 16⟩ = Except.ok s2
        ∧ timeToSatisfyConstraints s2 24 Command.RD ⟨0, 0, 1, 16⟩ = Except.ok 30
        ∧ timeToSatisfyConstraints s2 24 Command.RD ⟨0, 1, 2, 16⟩ = Except.ok 27 :=
  readAfterActivate_scenario exampleChecker ⟨0, 0, 0, 16⟩ ⟨0, 0, 1, 16⟩ ⟨0, 1, 2, 16⟩
    exampleChecker_initial rfl rfl rfl (by decide) (by decide) (by decide) (by decide)

/-- C10: the ACT query equals its rule table. In a sized state whose window
holds at most four entries, at an in-range address, the result is the maximum
of the current time and of the terms of `tableACT` that are present:
`cell + delay` for each of the thirteen listed cells that holds a timestamp,
the oldest window entry plus `tFAW` when the window of the rank holds four
entries, and `lastCommandOnBus + tCK` when the bus has been used. The sums
are those of `sc_time`, reduced modulo `2 ^ 64` (`wrapTerms`); when every
term that is present is at most `sc_max_time()` no sum wraps and the result
is the maximum with the exact sums. Two states that agree on these cells, on
the window of the rank, on the bus, on `tWRPRE` and on the memory
specification give the same result. -/
theorem activate_ruleTable (s s2 : Checker) (now : Nat) (p : Payload) (hs : s.sized)
    (hp : p.inRange s.memSpec) (hw : (s.window p.rank).length ≤ 4) :
    timeToSatisfyConstraints s now Command.ACT p
      = Except.ok (maxOfTerms now (wrapTerms (tableACT s p)))
    ∧ (termsFit (tableACT s p) →
      timeToSatisfyConstraints s now Command.ACT p
        = Except.ok (maxOfTerms now
            [cellTerm (s.bankCell Command.ACT p.bank) s.memSpec.tRC,
             cellTerm (s.bankGroupCell Command.ACT p.bankGroup) s.memSpec.tRRDL,
             cellTerm (s.rankCell Command.ACT p.rank) s.memSpec.tRRDS,
             cellTerm (s.bankCell Command.RDA p.bank) (s.memSpec.tRTP + s.memSpec.tRP),
             cellTerm (s.bankCell Command.WRA p.bank) (s.tWRPRE + s.memSpec.tRP),
             cellTerm (s.bankCell Command.PREPB p.bank) s.memSpec.tRP,
             cellTerm (s.rankCell Command.PREAB p.rank) s.memSpec.tRP,
             cellTerm (s.rankCell Command.PDXA p.rank) s.memSpec.tXP,
             cellTerm (s.rankCell Command.PDXP p.rank) s.memSpec.tXP,
             cellTerm (s.rankCell Command.REFAB p.rank) s.memSpec.tRFCab,
             cellTerm (s.bankCell Command.REFPB p.bank) s.memSpec.tRFCpb,
             cellTerm (s.rankCell Command.REFPB p.rank) s.memSpec.tRREFD,
             cellTerm (s.rankCell Command.SREFEX p.rank) s.memSpec.tXS,
             windowTerm (s.window p.rank) s.memSpec.tFAW,
             cellTerm s.lastCommandOnBus s.memSpec.tCK]))
    ∧ (s2.sized → s2.memSpec = s.memSpec → s2.tWRPRE = s.tWRPRE →
        s2.bankCell Command.ACT p.bank = s.bankCell Command.ACT p.bank →
        s2.bankGroupCell Command.ACT p.bankGroup = s.bankGroupCell Command.ACT p.bankGroup →
        s2.rankCell Command.ACT p.rank = s.rankCell Command.ACT p.rank →
        s2.bankCell Command.RDA p.bank = s.bankCell Command.RDA p.bank →
        s2.bankCell Command.WRA p.bank = s.bankCell Command.WRA p.bank →
        s2.bankCell Command.PREPB p.bank = s.bankCell Command.PREPB p.bank →
        s2.rankCell Command.PREAB p.rank = s.rankCell Command.PREAB p.rank →
        s2.rankCell Command.PDXA p.rank = s.rankCell Command.PDXA p.rank →
        s2.rankCell Command.PDXP p.rank = s.rankCell Command.PDXP p.rank →
        s2.rankCell Command.REFAB p.rank = s.rankCell Command.REFAB p.rank →
        s2.bankCell Command.REFPB p.bank = s.bankCell Command.REFPB p.bank →
        s2.rankCell Command.REFPB p.rank = s.rankCell Command.REFPB p.rank →
        s2.rankCell Command.SREFEX p.rank = s.rankCell Command.SREFEX p.rank →
        s2.window p.rank = s.window p.rank →
        s2.lastCommandOnBus = s.lastCommandOnBus →
        timeToSatisfyConstraints s2 now Command.ACT p
          = timeToSatisfyConstraints s now Command.ACT p) := by
  refine ⟨query_ACT_wrap hs hp now hw, fun hfit => query_ACT_eq hs hp now hw hfit, ?_⟩
  intro hs2 hm ht a1 a2 a3 a4 a5 a6 a7 a8 a9 a10 a11 a12 a13 a14 a15
  rw [query_ACT_wrap hs hp now hw,
    query_ACT_wrap hs2 (by rw [hm]; exact hp) now (by rw [a14]; exact hw)]
  simp only [tableACT, hm, ht, a1, a2, a3, a4, a5, a6, a7, a8, a9, a10, a11, a12, a13, a14,
    a15]

theorem activate_ruleTable_witness :
    timeToSatisfyConstraints
        (insertAllResult exampleChecker [⟨0, Command.ACT, ⟨1, 2, 4, 16⟩⟩,
          ⟨1, Command.ACT, ⟨0, 0, 0, 16⟩⟩,
          ⟨7, Command.ACT, ⟨0, 0, 1, 16⟩⟩, ⟨13, Command.ACT, ⟨0, 1, 2, 16⟩⟩,
          ⟨19, Command.ACT, ⟨0, 1, 3, 16⟩⟩]) 25 Command.ACT ⟨0, 1, 2, 16⟩
      = Except.ok (maxOfTerms 25
          [some (13 + 60), some (19 + 8), some (19 + 6), none, none, none, none, none, none,
           none, none, none, none, some (1 + 40), some (19 + 2)])
    ∧ timeToSatisfyConstraints
        (clearRankCell (insertAllResult exampleChecker [⟨0, Command.ACT, ⟨1, 2, 4, 16⟩⟩,
          ⟨1, Command.ACT, ⟨0, 0, 0, 16⟩⟩,
          ⟨7, Command.ACT, ⟨0, 0, 1, 16⟩⟩, ⟨13, Command.ACT, ⟨0, 1, 2, 16⟩⟩,
          ⟨19, Command.ACT, ⟨0, 1, 3, 16⟩⟩]) Command.ACT 1) 25 Command.ACT ⟨0, 1, 2, 16⟩
      = timeToSatisfyConstraints
        (insertAllResult exampleChecker [⟨0, Command.ACT, ⟨1, 2, 4, 16⟩⟩,
          ⟨1, Command.ACT, ⟨0, 0, 0, 16⟩⟩,
          ⟨7, Command.ACT, ⟨0, 0, 1, 16⟩⟩, ⟨13, Command.ACT, ⟨0, 1, 2, 16⟩⟩,
          ⟨19, Command.ACT, ⟨0, 1, 3, 16⟩⟩]) 25 Command.ACT ⟨0, 1, 2, 16⟩ :=
  have h := activate_ruleTable
    (insertAllResult exampleChecker [⟨0, Command.ACT, ⟨1, 2, 4, 16⟩⟩,
          ⟨1, Command.ACT, ⟨0, 0, 0, 16⟩⟩,
      ⟨7, Command.ACT, ⟨0, 0, 1, 16⟩⟩, ⟨13, Command.ACT, ⟨0, 1, 2, 16⟩⟩,
      ⟨19, Command.ACT, ⟨0, 1, 3, 16⟩⟩])
    (clearRankCell (insertAllResult exampleChecker [⟨0, Command.ACT, ⟨1, 2, 4, 16⟩⟩,
          ⟨1, Command.ACT, ⟨0, 0, 0, 16⟩⟩,
      ⟨7, Command.ACT, ⟨0, 0, 1, 16⟩⟩, ⟨13, Command.ACT, ⟨0, 1, 2, 16⟩⟩,
      ⟨19, Command.ACT, ⟨0, 1, 3, 16⟩⟩]) Command.ACT 1)
    25 ⟨0, 1, 2, 16⟩ (insertAllResult_sized exampleChecker_initial.sized _) (by decide)
    (by decide)
  ⟨h.2.1 (by decide), h.2.2 (clearRankCell_sized
      (insertAllResult_sized exampleChecker_initial.sized _) _ _) rfl rfl rfl rfl rfl rfl rfl
      rfl rfl rfl rfl rfl rfl rfl rfl rfl rfl⟩

/-- C11: the RD and RDA query equal their rule table. In a sized state, at an
in-range address with burst length 16, the RD result is the maximum of the
current time and of the terms of `tableRead` that are present, and the RDA
result is that maximum with the one further term `WR[bank] + tWRPRE - tRTP`
in the arithmetic of `sc_time`. The sums are those of `sc_time`, reduced
modulo `2 ^ 64` (`wrapTerms`); when every term of `tableRead` that is present
is at most `sc_max_time()` no sum wraps and the results are the maxima with
the exact sums. So the RDA result is the maximum of the RD result and the
further term when `WR[bank]` holds a timestamp and the RD result otherwise.
The further term is the true difference whenever `WR[bank] + tWRPRE` is at
most `sc_max_time()` and `tRTP` is at most that sum. The RD result is the
same whatever the bank-scoped WR row holds. -/
theorem read_ruleTable (s : Checker) (now : Nat) (p : Payload) (row : List Nat) (hs : s.sized)
    (hp : p.inRange s.memSpec) (hl : p.burstLength = 16) :
    (termsFit (tableRead s p) →
      timeToSatisfyConstraints s now Command.RD p = Except.ok (maxOfTerms now (tableRead s p))
      ∧ timeToSatisfyConstraints s now Command.RDA p
          = Except.ok (maxOfTerms now (tableRead s p ++ [termAutoPrecharge s p]))
      ∧ (isTimestamp (s.bankCell Command.WR p.bank) →
          timeToSatisfyConstraints s now Command.RDA p
            = Except.ok (max (maxOfTerms now (tableRead s p))
                (sc_time_sub (sc_time_add (s.bankCell Command.WR p.bank) s.tWRPRE)
                  s.memSpec.tRTP)))
      ∧ (s.bankCell Command.WR p.bank = sc_max_time →
          timeToSatisfyConstraints s now Command.RDA p
            = Except.ok (maxOfTerms now (tableRead s p))))
    ∧ (s.bankCell Command.WR p.bank + s.tWRPRE ≤ sc_max_time →
        s.memSpec.tRTP ≤ s.bankCell Command.WR p.bank + s.tWRPRE →
        sc_time_sub (sc_time_add (s.bankCell Command.WR p.bank) s.tWRPRE) s.memSpec.tRTP
          = s.bankCell Command.WR p.bank + s.tWRPRE - s.memSpec.tRTP)
    ∧ (row.length = s.memSpec.banksPerChannel →
        timeToSatisfyConstraints (replaceBankRow s Command.WR row) now Command.RD p
          = timeToSatisfyConstraints s now Command.RD p)
    ∧ timeToSatisfyConstraints s now Command.RD p
        = Except.ok (maxOfTerms now (wrapTerms (tableRead s p)))
    ∧ timeToSatisfyConstraints s now Command.RDA p
        = Except.ok (maxOfTerms now (wrapTerms (tableRead s p) ++ [termAutoPrecharge s p])) := by
  refine ⟨fun hfit => ⟨query_RD_eq hs hp hl now hfit, query_RDA_eq hs hp hl now hfit, ?_, ?_⟩,
    ?_, ?_, query_RD_wrap hs hp hl now, query_RDA_wrap hs hp hl now⟩
  · intro hT
    have hT : s.bankCell Command.WR p.bank ≠ sc_max_time := hT
    rw [query_RDA_eq hs hp hl now hfit]
    have ht : termAutoPrecharge s p
        = some (sc_time_sub (sc_time_add (s.bankCell Command.WR p.bank) s.tWRPRE)
            s.memSpec.tRTP) := by
      simp [termAutoPrecharge, differenceTerm, hT]
    rw [ht, maxOfTerms_append_some]
  · intro hN
    rw [query_RDA_eq hs hp hl now hfit]
    have ht : termAutoPrecharge s p = none := by
      simp [termAutoPrecharge, differenceTerm, hN]
    rw [ht, maxOfTerms_append_none]
  · intro hsum hle
    rw [sc_time_add_of_le _ _ hsum, sc_time_sub_of_le _ _ hle]
  · intro hrow
    rw [query_RD_wrap hs hp hl now,
      query_RD_wrap (replaceBankRow_sized hs Command.WR row hrow) (p := p) hp hl now]
    rfl

theorem read_ruleTable_witness :
    timeToSatisfyConstraints
        (insertAllResult exampleChecker [⟨50, Command.WR, ⟨0, 0, 0, 16⟩⟩,
          ⟨60, Command.RD, ⟨1, 2, 4, 16⟩⟩]) 70 Command.RD ⟨0, 0, 0, 16⟩ = Except.ok 74
    ∧ timeToSatisfyConstraints
        (insertAllResult exampleChecker [⟨50, Command.WR, ⟨0, 0, 0, 16⟩⟩,
          ⟨60, Command.RD, ⟨1, 2, 4, 16⟩⟩]) 70 Command.RDA ⟨0, 0, 0, 16⟩
        = Except.ok (max 74 (50 + 36 - 4))
    ∧ timeToSatisfyConstraints
        (replaceBankRow (insertAllResult exampleChecker [⟨50, Command.WR, ⟨0, 0, 0, 16⟩⟩,
          ⟨60, Command.RD, ⟨1, 2, 4, 16⟩⟩]) Command.WR [1, 2, 3, 4, 5, 6, 7, 8]) 70
        Command.RD ⟨0, 0, 0, 16⟩ = Except.ok 74 :=
  have h := read_ruleTable
    (insertAllResult exampleChecker [⟨50, Command.WR, ⟨0, 0, 0, 16⟩⟩,
      ⟨60, Command.RD, ⟨1, 2, 4, 16⟩⟩]) 70 ⟨0, 0, 0, 16⟩ [1, 2, 3, 4, 5, 6, 7, 8]
    (insertAllResult_sized exampleChecker_initial.sized _) (by decide) rfl
  ⟨(h.1 (by decide)).1, (h.1 (by decide)).2.2.1 (by decide),
    (h.2.2.1 rfl).trans (h.1 (by decide)).1⟩

/-- C12: the WR and the WRA query equal the same rule table. In a sized
state, at an in-range address with burst length 16, both results are the
maximum of the current time and of the terms of `tableWrite` that are
present, so the two queries return the same time. The sums are those of
`sc_time`, reduced modulo `2 ^ 64` (`wrapTerms`); when every term that is
present is at most `sc_max_time()` no sum wraps and the results are the
maximum with the exact sums. -/
theorem write_ruleTable (s : Checker) (now : Nat) (p : Payload) (hs : s.sized)
    (hp : p.inRange s.memSpec) (hl : p.burstLength = 16) :
    (termsFit (tableWrite s p) →
      timeToSatisfyConstraints s now Command.WR p
          = Except.ok (maxOfTerms now (tableWrite s p))
      ∧ timeToSatisfyConstraints s now Command.WRA p
          = Except.ok (maxOfTerms now (tableWrite s p)))
    ∧ timeToSatisfyConstraints s now Command.WR p
        = timeToSatisfyConstraints s now Command.WRA p
    ∧ timeToSatisfyConstraints s now Command.WR p
        = Except.ok (maxOfTerms now (wrapTerms (tableWrite s p)))
    ∧ timeToSatisfyConstraints s now Command.WRA p
        = Except.ok (maxOfTerms now (wrapTerms (tableWrite s p))) := by
  refine ⟨fun hfit => ⟨query_WR_eq hs hp hl now hfit, query_WRA_eq hs hp hl now hfit⟩, ?_,
    query_WR_wrap hs hp hl now, query_WRA_wrap hs hp hl now⟩
  rw [query_WR_wrap hs hp hl now, query_WRA_wrap hs hp hl now]

theorem write_ruleTable_witness :
    (timeToSatisfyConstraints (insertResult exampleChecker 60 Command.RD ⟨1, 2, 4, 16⟩) 61
        Command.WR ⟨0, 0, 0, 16⟩ = Except.ok (60 + 12)
      ∧ timeToSatisfyConstraints (insertResult exampleChecker 60 Command.RD ⟨1, 2, 4, 16⟩) 61
        Command.WRA ⟨0, 0, 0, 16⟩ = Except.ok (60 + 12))
    ∧ timeToSatisfyConstraints (insertResult exampleChecker 60 Command.RD ⟨1, 2, 4, 16⟩) 61
        Command.WR ⟨0, 0, 0, 16⟩
      = timeToSatisfyConstraints (insertResult exampleChecker 60 Command.RD ⟨1, 2, 4, 16⟩) 61
        Command.WRA ⟨0, 0, 0, 16⟩ :=
  have h := write_ruleTable (insertResult exampleChecker 60 Command.RD ⟨1, 2, 4, 16⟩) 61
    ⟨0, 0, 0, 16⟩ (insertResult_sized exampleChecker_initial.sized _ _ _) (by decide) rfl
  ⟨h.1 (by decide), h.2.1⟩

/-- C13 as stated fails: after one RDA insert on rank 0 at time 100 the PREAB
query at time 101 returns 104, which is `RDA[rank] + tRTP`, while the maximum
over the table of the claim is 102; after one WRA insert it returns 136, which
is `WRA[rank] + tWRPRE`, against 102. -/
theorem preab_claimedTable_counterexample :
    (∃ s1, insert exampleChecker 100 Command.RDA ⟨0, 0, 0, 16⟩ = Except.ok s1
      ∧ timeToSatisfyConstraints s1 101 Command.PREAB ⟨0, 0, 0, 16⟩ = Except.ok 104
      ∧ maxOfTerms 101 (tablePREABClaimed s1 ⟨0, 0, 0, 16⟩) = 102)
    ∧ ∃ s1, insert exampleChecker 100 Command.WRA ⟨0, 0, 0, 16⟩ = Except.ok s1
      ∧ timeToSatisfyConstraints s1 101 Command.PREAB ⟨0, 0, 0, 16⟩ = Except.ok 136
      ∧ maxOfTerms 101 (tablePREABClaimed s1 ⟨0, 0, 0, 16⟩) = 102 :=
  ⟨⟨_, rfl, rfl, rfl⟩, ⟨_, rfl, rfl, rfl⟩⟩

/-- C13, amended: in a sized state, at an in-range address, the PREAB result
is the maximum of the current time and of the terms of `tablePREAB` that are
present: the rules of the claim and, with them, `RDA[rank] + tRTP` and
`WRA[rank] + tWRPRE`. The sums are those of `sc_time`, reduced modulo
`2 ^ 64` (`wrapTerms`); when every term that is present is at most
`sc_max_time()` no sum wraps and the result is the maximum with the exact
sums, which is never below the maximum over the table of the claim. -/
theorem preab_ruleTable (s : Checker) (now : Nat) (p : Payload) (hs : s.sized)
    (hp : p.inRange s.memSpec) :
    (termsFit (tablePREAB s p) →
      timeToSatisfyConstraints s now Command.PREAB p
        = Except.ok (maxOfTerms now (tablePREAB s p)))
    ∧ maxOfTerms now (tablePREABClaimed s p) ≤ maxOfTerms now (tablePREAB s p)
    ∧ timeToSatisfyConstraints s now Command.PREAB p
        = Except.ok (maxOfTerms now (wrapTerms (tablePREAB s p))) := by
  refine ⟨query_PREAB_eq hs hp now, maxOfTerms_le_of_subset _ _ _ ?_,
    query_PREAB_wrap hs hp now⟩
  intro t ht
  simp only [tablePREABClaimed, List.mem_cons, List.mem_singleton, List.not_mem_nil,
    or_false] at ht
  simp only [tablePREAB, List.mem_cons, List.mem_singleton, List.not_mem_nil, or_false]
  rcases ht with h | h | h | h | h | h | h <;> simp [h]

theorem preab_ruleTable_witness :
    timeToSatisfyConstraints (insertResult exampleChecker 100 Command.RDA ⟨0, 0, 0, 16⟩) 101
        Command.PREAB ⟨0, 1, 2, 16⟩ = Except.ok (100 + 4)
    ∧ 102 ≤ 104 :=
  have h := preab_ruleTable (insertResult exampleChecker 100 Command.RDA ⟨0, 0, 0, 16⟩) 101
    ⟨0, 1, 2, 16⟩ (insertResult_sized exampleChecker_initial.sized _ _ _) (by decide)
  ⟨h.1 (by decide), h.2.1⟩

/-- C14 as stated fails: the REFPB branch holds no rank-scoped rule on ACT
with `tRC`, on RDA, on WRA or on PREPB, and applies `REFPB[rank] + tRFCpb`
only while the refresh counter is zero. After one insert on bank 0 of rank 0
at time 100, the REFPB query for bank 2 of that rank at time 100 returns 106
after ACT (the claim asks at least 160), 102 after RDA (126), 102 after WRA
(158), 102 after PREPB (122) and 112 after REFPB (160). -/
theorem refpb_union_counterexample :
    (∃ s1, insert exampleChecker 100 Command.ACT ⟨0, 0, 0, 16⟩ = Except.ok s1
      ∧ cellTerm (s1.rankCell Command.ACT 0) s1.memSpec.tRC = some 160
      ∧ timeToSatisfyConstraints s1 100 Command.REFPB ⟨0, 1, 2, 16⟩ = Except.ok 106)
    ∧ (∃ s1, insert exampleChecker 100 Command.RDA ⟨0, 0, 0, 16⟩ = Except.ok s1
      ∧ cellTerm (s1.rankCell Command.RDA 0) (s1.memSpec.tRTP + s1.memSpec.tRP) = some 126
      ∧ timeToSatisfyConstraints s1 100 Command.REFPB ⟨0, 1, 2, 16⟩ = Except.ok 102)
    ∧ (∃ s1, insert exampleChecker 100 Command.WRA ⟨0, 0, 0, 16⟩ = Except.ok s1
      ∧ cellTerm (s1.rankCell Command.WRA 0) (s1.tWRPRE + s1.memSpec.tRP) = some 158
      ∧ timeToSatisfyConstraints s1 100 Command.REFPB ⟨0, 1, 2, 16⟩ = Except.ok 102)
    ∧ (∃ s1, insert exampleChecker 100 Command.PREPB ⟨0, 0, 0, 16⟩ = Except.ok s1
      ∧ cellTerm (s1.rankCell Command.PREPB 0) s1.memSpec.tRP = some 122
      ∧ timeToSatisfyConstraints s1 100 Command.REFPB ⟨0, 1, 2, 16⟩ = Except.ok 102)
    ∧ (∃ s1, insert exampleChecker 100 Command.REFPB ⟨0, 0, 0, 16⟩ = Except.ok s1
      ∧ cellTerm (s1.rankCell Command.REFPB 0) s1.memSpec.tRFCpb = some 160
      ∧ timeToSatisfyConstraints s1 100 Command.REFPB ⟨0, 1, 2, 16⟩ = Except.ok 112) :=
  ⟨⟨_, rfl, rfl, rfl⟩, ⟨_, rfl, rfl, rfl⟩, ⟨_, rfl, rfl, rfl⟩, ⟨_, rfl, rfl, rfl⟩,
    ⟨_, rfl, rfl, rfl⟩⟩

/-- C14, amended: in a sized state whose window holds at most four entries,
at an in-range address, the REFPB result is the maximum of the current time
and of the terms of `tableREFPB` that are present, the sums being those of
`sc_time`, reduced modulo `2 ^ 64` (`wrapTerms`); when every term that is
present is at most `sc_max_time()` no sum wraps and the result is the maximum
with the exact sums, hence at least each of them: the rules of the activate row, `REFPB[rank]` plus `tRFCpb` when the
refresh counter of the rank is zero and plus `tRREFD` otherwise, the oldest
window entry plus `tFAW` when the window holds four entries, and the bus. Of
the refresh-all row it holds the rules on PREAB, PDXP, REFAB and SREFEX, which
the activate row has too. -/
theorem refpb_ruleTable (s : Checker) (now : Nat) (p : Payload) (hs : s.sized)
    (hp : p.inRange s.memSpec) (hw : (s.window p.rank).length ≤ 4) :
    (termsFit (tableREFPB s p) →
      ∃ v, timeToSatisfyConstraints s now Command.REFPB p = Except.ok v
        ∧ v = maxOfTerms now (tableREFPB s p)
        ∧ ∀ x, some x ∈ tableREFPB s p → x ≤ v)
    ∧ timeToSatisfyConstraints s now Command.REFPB p
        = Except.ok (maxOfTerms now (wrapTerms (tableREFPB s p))) :=
  ⟨fun hfit => ⟨_, query_REFPB_eq hs hp now hw hfit, rfl,
      fun x hx => le_maxOfTerms_of_mem now x _ hx⟩,
    query_REFPB_wrap hs hp now hw⟩

theorem refpb_ruleTable_witness :
    ∃ v, timeToSatisfyConstraints (insertResult exampleChecker 100 Command.REFPB ⟨0, 0, 0, 16⟩)
        100 Command.REFPB ⟨0, 1, 2, 16⟩ = Except.ok v
      ∧ v = 100 + 12
      ∧ ∀ x, some x ∈ tableREFPB (insertResult exampleChecker 100 Command.REFPB ⟨0, 0, 0, 16⟩)
          ⟨0, 1, 2, 16⟩ → x ≤ v :=
  (refpb_ruleTable (insertResult exampleChecker 100 Command.REFPB ⟨0, 0, 0, 16⟩) 100
    ⟨0, 1, 2, 16⟩ (insertResult_sized exampleChecker_initial.sized _ _ _) (by decide)
    (by decide)).1 (by decide)

/-- C15: the PREPB and the REFAB query equal their rule tables. In a sized
state, at an in-range address, the result is the maximum of the current time
and of the terms of `tablePREPB`, of `tableREFAB`, that are present. The sums
are those of `sc_time`, reduced modulo `2 ^ 64` (`wrapTerms`); when every term
that is present is at most `sc_max_time()` no sum wraps and the result is the
maximum with the exact sums. -/
theorem prepb_refab_ruleTable (s : Checker) (now : Nat) (p : Payload) (hs : s.sized)
    (hp : p.inRange s.memSpec) :
    (termsFit (tablePREPB s p) →
      timeToSatisfyConstraints s now Command.PREPB p
        = Except.ok (maxOfTerms now (tablePREPB s p)))
    ∧ (termsFit (tableREFAB s p) →
      timeToSatisfyConstraints s now Command.REFAB p
        = Except.ok (maxOfTerms now (tableREFAB s p)))
    ∧ timeToSatisfyConstraints s now Command.PREPB p
        = Except.ok (maxOfTerms now (wrapTerms (tablePREPB s p)))
    ∧ timeToSatisfyConstraints s now Command.REFAB p
        = Except.ok (maxOfTerms now (wrapTerms (tableREFAB s p))) :=
  ⟨query_PREPB_eq hs hp now, query_REFAB_eq hs hp now, query_PREPB_wrap hs hp now,
    query_REFAB_wrap hs hp now⟩

theorem prepb_refab_ruleTable_witness :
    timeToSatisfyConstraints (insertResult exampleChecker 10 Command.ACT ⟨0, 0, 0, 16⟩) 11
        Command.PREPB ⟨0, 0, 0, 16⟩ = Except.ok (10 + 38)
    ∧ timeToSatisfyConstraints (insertResult exampleChecker 10 Command.ACT ⟨0, 0, 0, 16⟩) 11
        Command.REFAB ⟨0, 0, 0, 16⟩ = Except.ok (10 + 60) :=
  have h := prepb_refab_ruleTable (insertResult exampleChecker 10 Command.ACT ⟨0, 0, 0, 16⟩)
    11 ⟨0, 0, 0, 16⟩ (insertResult_sized exampleChecker_initial.sized _ _ _) (by decide)
  ⟨h.1 (by decide), h.2.1 (by decide)⟩

/-- C16: the power-down queries equal their rule tables, all at rank scope. In
a sized state, at an in-range address, the PDEA, PDEP, PDXA and PDXP results
are the maximum of the current time and of the terms of `tablePDEA`,
`tablePDEP`, `tablePDXA`, `tablePDXP` that are present. The sums are those of
`sc_time`, reduced modulo `2 ^ 64` (`wrapTerms`); when every term of the
table that is present is at most `sc_max_time()` no sum wraps and the result
is the maximum with the exact sums. The PDEP result is the same whatever the
cells of WR hold. -/
theorem powerDown_ruleTable (s : Checker) (now : Nat) (p : Payload)
    (byBank byBankGroup byRank : List Nat) (channel : Nat) (hs : s.sized)
    (hp : p.inRange s.memSpec) :
    (termsFit (tablePDEA s p) →
      timeToSatisfyConstraints s now Command.PDEA p
        = Except.ok (maxOfTerms now (tablePDEA s p)))
    ∧ (termsFit (tablePDEP s p) →
      timeToSatisfyConstraints s now Command.PDEP p
        = Except.ok (maxOfTerms now (tablePDEP s p)))
    ∧ (termsFit (tablePDXA s p) →
      timeToSatisfyConstraints s now Command.PDXA p
        = Except.ok (maxOfTerms now (tablePDXA s p)))
    ∧ (termsFit (tablePDXP s p) →
      timeToSatisfyConstraints s now Command.PDXP p
        = Except.ok (maxOfTerms now (tablePDXP s p)))
    ∧ (byBank.length = s.memSpec.banksPerChannel →
        byBankGroup.length = s.memSpec.bankGroupsPerChannel →
        byRank.length = s.memSpec.ranksPerChannel →
        timeToSatisfyConstraints
            (replaceCommand s Command.WR byBank byBankGroup byRank channel) now Command.PDEP p
          = timeToSatisfyConstraints s now Command.PDEP p)
    ∧ timeToSatisfyConstraints s now Command.PDEA p
        = Except.ok (maxOfTerms now (wrapTerms (tablePDEA s p)))
    ∧ timeToSatisfyConstraints s now Command.PDEP p
        = Except.ok (maxOfTerms now (wrapTerms (tablePDEP s p)))
    ∧ timeToSatisfyConstraints s now Command.PDXA p
        = Except.ok (maxOfTerms now (wrapTerms (tablePDXA s p)))
    ∧ timeToSatisfyConstraints s now Command.PDXP p
        = Except.ok (maxOfTerms now (wrapTerms (tablePDXP s p))) := by
  refine ⟨query_PDEA_eq hs hp now, query_PDEP_eq hs hp now, query_PDXA_eq hs hp now,
    query_PDXP_eq hs hp now, ?_, query_PDEA_wrap hs hp now, query_PDEP_wrap hs hp now,
    query_PDXA_wrap hs hp now, query_PDXP_wrap hs hp now⟩
  intro h1 h2 h3
  rw [query_PDEP_wrap hs hp now,
    query_PDEP_wrap (replaceCommand_sized hs Command.WR _ _ _ channel h1 h2 h3) (p := p) hp now]
  rfl

theorem powerDown_ruleTable_witness :
    timeToSatisfyConstraints
        (insertAllResult exampleChecker [⟨10, Command.WR, ⟨0, 0, 0, 16⟩⟩,
          ⟨20, Command.PDEA, ⟨0, 0, 0, 16⟩⟩, ⟨24, Command.PDEP, ⟨0, 0, 0, 16⟩⟩])
        25 Command.PDEA ⟨0, 0, 0, 16⟩ = Except.ok (10 + 19)
    ∧ timeToSatisfyConstraints
        (insertAllResult exampleChecker [⟨10, Command.WR, ⟨0, 0, 0, 16⟩⟩,
          ⟨20, Command.PDEA, ⟨0, 0, 0, 16⟩⟩, ⟨24, Command.PDEP, ⟨0, 0, 0, 16⟩⟩])
        25 Command.PDEP ⟨0, 0, 0, 16⟩ = Except.ok (24 + 2)
    ∧ timeToSatisfyConstraints
        (insertAllResult exampleChecker [⟨10, Command.WR, ⟨0, 0, 0, 16⟩⟩,
          ⟨20, Command.PDEA, ⟨0, 0, 0, 16⟩⟩, ⟨24, Command.PDEP, ⟨0, 0, 0, 16⟩⟩])
        25 Command.PDXA ⟨0, 0, 0, 16⟩ = Except.ok (20 + 10)
    ∧ timeToSatisfyConstraints
        (insertAllResult exampleChecker [⟨10, Command.WR, ⟨0, 0, 0, 16⟩⟩,
          ⟨20, Command.PDEA, ⟨0, 0, 0, 16⟩⟩, ⟨24, Command.PDEP, ⟨0, 0, 0, 16⟩⟩])
        25 Command.PDXP ⟨0, 0, 0, 16⟩ = Except.ok (24 + 10)
    ∧ timeToSatisfyConstraints
        (replaceCommand (insertAllResult exampleChecker [⟨10, Command.WR, ⟨0, 0, 0, 16⟩⟩,
          ⟨20, Command.PDEA, ⟨0, 0, 0, 16⟩⟩, ⟨24, Command.PDEP, ⟨0, 0, 0, 16⟩⟩])
          Command.WR [1, 2, 3, 4, 5, 6, 7, 8] [1, 2, 3, 4] [24, 24] 24)
        25 Command.PDEP ⟨0, 0, 0, 16⟩ = Except.ok (24 + 2) :=
  have h := powerDown_ruleTable
    (insertAllResult exampleChecker [⟨10, Command.WR, ⟨0, 0, 0, 16⟩⟩,
      ⟨20, Command.PDEA, ⟨0, 0, 0, 16⟩⟩, ⟨24, Command.PDEP, ⟨0, 0, 0, 16⟩⟩]) 25
    ⟨0, 0, 0, 16⟩ [1, 2, 3, 4, 5, 6, 7, 8] [1, 2, 3, 4] [24, 24] 24
    (insertAllResult_sized exampleChecker_initial.sized _) (by decide)
  ⟨h.1 (by decide), h.2.1 (by decide), h.2.2.1 (by decide), h.2.2.2.1 (by decide),
    (h.2.2.2.2.1 rfl rfl rfl).trans (h.2.1 (by decide))⟩

/-- C17: the self-refresh queries equal their rule tables, all at rank scope.
In a sized state, at an in-range address, the SREFEN, the SREFEX, result is
the maximum of the current time and of the terms of `tableSREFEN`, of
`tableSREFEX`, that are present. The sums are those of `sc_time`, reduced
modulo `2 ^ 64` (`wrapTerms`), for SREFEN with `tRTP + tRP` at most
`sc_max_time()` when `RDA[rank]` holds a timestamp; when every term that is
present is at most `sc_max_time()` no sum wraps and the result is the maximum
with the exact sums. -/
theorem selfRefresh_ruleTable (s : Checker) (now : Nat) (p : Payload) (hs : s.sized)
    (hp : p.inRange s.memSpec) :
    (termsFit (tableSREFEN s p) →
      timeToSatisfyConstraints s now Command.SREFEN p
        = Except.ok (maxOfTerms now (tableSREFEN s p)))
    ∧ (termsFit (tableSREFEX s p) →
      timeToSatisfyConstraints s now Command.SREFEX p
        = Except.ok (maxOfTerms now (tableSREFEX s p)))
    ∧ ((isTimestamp (s.rankCell Command.RDA p.rank) →
        s.memSpec.tRTP + s.memSpec.tRP ≤ sc_max_time) →
      timeToSatisfyConstraints s now Command.SREFEN p
        = Except.ok (maxOfTerms now (wrapTerms (tableSREFEN s p))))
    ∧ timeToSatisfyConstraints s now Command.SREFEX p
        = Except.ok (maxOfTerms now (wrapTerms (tableSREFEX s p))) :=
  ⟨query_SREFEN_eq hs hp now, query_SREFEX_eq hs hp now, query_SREFEN_wrap hs hp now,
    query_SREFEX_wrap hs hp now⟩

theorem selfRefresh_ruleTable_witness :
    timeToSatisfyConstraints
        (insertAllResult exampleChecker [⟨10, Command.RDA, ⟨0, 0, 0, 16⟩⟩,
          ⟨40, Command.SREFEN, ⟨0, 0, 0, 16⟩⟩]) 41 Command.SREFEN ⟨0, 0, 0, 16⟩
        = Except.ok (max (10 + max (4 + 22) 21) (40 + 2))
    ∧ timeToSatisfyConstraints
        (insertAllResult exampleChecker [⟨10, Command.RDA, ⟨0, 0, 0, 16⟩⟩,
          ⟨40, Command.SREFEN, ⟨0, 0, 0, 16⟩⟩]) 41 Command.SREFEX ⟨0, 0, 0, 16⟩
        = Except.ok (40 + 12) :=
  have h := selfRefresh_ruleTable
    (insertAllResult exampleChecker [⟨10, Command.RDA, ⟨0, 0, 0, 16⟩⟩,
      ⟨40, Command.SREFEN, ⟨0, 0, 0, 16⟩⟩]) 41 ⟨0, 0, 0, 16⟩
    (insertAllResult_sized exampleChecker_initial.sized _) (by decide)
  ⟨h.1 (by decide), h.2.1 (by decide)⟩

/-- C18: the query fails exactly on unknown commands. In a sized state, at an
in-range address with burst length 16, `timeToSatisfyConstraints` returns a
time for each of the fifteen supported commands and reports the fatal error
"Unknown command!" for every other command kind. -/
theorem query_fails_exactly_on_unknown (s : Checker) (now : Nat) (command : Command)
    (p : Payload) (hs : s.sized) (hp : p.inRange s.memSpec) (hl : p.burstLength = 16) :
    (command ∈ supportedCommands →
      ∃ v, timeToSatisfyConstraints s now command p = Except.ok v)
    ∧ (command ∉ supportedCommands →
      timeToSatisfyConstraints s now command p
        = Except.error (Error.fatal "Unknown command!")) := by
  constructor
  · intro hc
    obtain ⟨e, he⟩ := query_total hs hc ⟨hp, fun _ => hl⟩ now
    exact ⟨_, he⟩
  · exact query_unknown s now command p

theorem query_fails_exactly_on_unknown_witness :
    (∃ v, timeToSatisfyConstraints exampleChecker 5 Command.SREFEX ⟨1, 3, 7, 16⟩ = Except.ok v)
    ∧ timeToSatisfyConstraints exampleChecker 5 Command.NOP ⟨1, 3, 7, 16⟩
        = Except.error (Error.fatal "Unknown command!") :=
  ⟨(query_fails_exactly_on_unknown exampleChecker 5 Command.SREFEX ⟨1, 3, 7, 16⟩
      exampleChecker_initial.sized (by decide) rfl).1 (by decide),
   (query_fails_exactly_on_unknown exampleChecker 5 Command.NOP ⟨1, 3, 7, 16⟩
      exampleChecker_initial.sized (by decide) rfl).2 (by decide)⟩

/-- C19 as stated fails: `insert` of NOP, a kind outside the fifteen, at time
7 returns a state and that state holds 7 in the channel-wide cell of NOP and
in `lastCommandOnBus`; no error is reported. -/
theorem insert_unknown_counterexample :
    ∃ s1, insert exampleChecker 7 Command.NOP ⟨1, 2, 5, 16⟩ = Except.ok s1
      ∧ Command.NOP ∉ supportedCommands
      ∧ s1.lastScheduledByCommand Command.NOP = 7
      ∧ s1.lastCommandOnBus = 7 :=
  ⟨_, rfl, by decide, rfl, rfl⟩

/-- C19, amended: `insert` does not check the command kind. Invoked in a sized
state at an in-range address with a kind outside the fifteen supported ones,
it returns a state in which the four cells of that kind and
`lastCommandOnBus` hold the current time; the activate windows and the
refresh counters are unchanged. -/
theorem insert_unknown_records (s : Checker) (t : Nat) (command : Command) (p : Payload)
    (hs : s.sized) (hp : p.inRange s.memSpec) (hc : command ∉ supportedCommands) :
    ∃ s1, insert s t command p = Except.ok s1
      ∧ (s1.lastScheduledByCommandAndBank command)[p.bank]? = some t
      ∧ (s1.lastScheduledByCommandAndBankGroup command)[p.bankGroup]? = some t
      ∧ (s1.lastScheduledByCommandAndRank command)[p.rank]? = some t
      ∧ s1.lastScheduledByCommand command = t
      ∧ s1.lastCommandOnBus = t
      ∧ s1.last4Activates = s.last4Activates
      ∧ s1.bankwiseRefreshCounter = s.bankwiseRefreshCounter := by
  have hR : command ≠ Command.REFPB := fun h => hc (by rw [h]; decide)
  have hA : command ≠ Command.ACT := fun h => hc (by rw [h]; decide)
  have h1 : p.bank < (s.lastScheduledByCommandAndBank command).length := by
    rw [hs.byBank command]; exact hp.2.2
  have h2 : p.bankGroup < (s.lastScheduledByCommandAndBankGroup command).length := by
    rw [hs.byBankGroup command]; exact hp.2.1
  have h3 : p.rank < (s.lastScheduledByCommandAndRank command).length := by
    rw [hs.byRank command]; exact hp.1
  refine ⟨_, insert_eq hs hp command (fun h => absurd h hR) t, ?_, ?_, ?_, ?_, rfl, ?_, ?_⟩
  · simp [insertResult, h1]
  · simp [insertResult, h2]
  · simp [insertResult, h3]
  · simp [insertResult]
  · simp [insertResult, hA, hR]
  · simp [insertResult, hR]

theorem insert_unknown_records_witness :
    ∃ s1, insert exampleChecker 7 Command.NOP ⟨1, 2, 5, 16⟩ = Except.ok s1
      ∧ (s1.lastScheduledByCommandAndBank Command.NOP)[5]? = some 7
      ∧ (s1.lastScheduledByCommandAndBankGroup Command.NOP)[2]? = some 7
      ∧ (s1.lastScheduledByCommandAndRank Command.NOP)[1]? = some 7
      ∧ s1.lastScheduledByCommand Command.NOP = 7
      ∧ s1.lastCommandOnBus = 7
      ∧ s1.last4Activates = [[], []]
      ∧ s1.bankwiseRefreshCounter = [0, 0] :=
  insert_unknown_records exampleChecker 7 Command.NOP ⟨1, 2, 5, 16⟩
    exampleChecker_initial.sized (by decide) (by decide)

/-- C20: burst-length check. A query for a data-bearing command (RD, RDA, WR,
WRA) with a burst length other than 16 ends in the failed assertion, so it
returns a time only with burst length 16, and with it, in a sized state at an
in-range address, it does return one. For every other command kind the burst
length of the payload does not change the result. -/
theorem burstLength_check (s : Checker) (now : Nat) (command : Command) (p : Payload)
    (burstLength : Nat) :
    (command ∈ dataCommands → p.burstLength ≠ 16 →
      timeToSatisfyConstraints s now command p = Except.error Error.assertion)
    ∧ (command ∈ dataCommands →
      ∀ v, timeToSatisfyConstraints s now command p = Except.ok v → p.burstLength = 16)
    ∧ (command ∈ dataCommands → s.sized → p.inRange s.memSpec → p.burstLength = 16 →
      ∃ v, timeToSatisfyConstraints s now command p = Except.ok v)
    ∧ (command ∉ dataCommands →
      timeToSatisfyConstraints s now command { p with burstLength := burstLength }
        = timeToSatisfyConstraints s now command p) := by
  refine ⟨query_data_assert s now command p, ?_, ?_, ?_⟩
  · intro hc v hv
    by_contra hl
    rw [query_data_assert s now command p hc hl] at hv
    cases hv
  · intro hc hs hp hl
    have hsup : command ∈ supportedCommands := by
      simp only [dataCommands, List.mem_cons, List.mem_singleton, List.not_mem_nil,
        or_false] at hc
      rcases hc with rfl | rfl | rfl | rfl <;> decide
    obtain ⟨e, he⟩ := query_total hs hsup ⟨hp, fun _ => hl⟩ now
    exact ⟨_, he⟩
  · intro hc
    exact query_burstLength_free s now command p hc burstLength

theorem burstLength_check_witness :
    timeToSatisfyConstraints exampleChecker 5 Command.WRA ⟨0, 0, 0, 8⟩
        = Except.error Error.assertion
    ∧ (∃ v, timeToSatisfyConstraints exampleChecker 5 Command.WRA ⟨0, 0, 0, 16⟩ = Except.ok v)
    ∧ timeToSatisfyConstraints exampleChecker 5 Command.ACT ⟨0, 0, 0, 8⟩
        = timeToSatisfyConstraints exampleChecker 5 Command.ACT ⟨0, 0, 0, 16⟩ :=
  ⟨(burstLength_check exampleChecker 5 Command.WRA ⟨0, 0, 0, 8⟩ 0).1 (by decide) (by decide),
   (burstLength_check exampleChecker 5 Command.WRA ⟨0, 0, 0, 16⟩ 0).2.2.1 (by decide)
      exampleChecker_initial.sized (by decide) rfl,
   (burstLength_check exampleChecker 5 Command.ACT ⟨0, 0, 0, 16⟩ 8).2.2.2 (by decide)⟩

/-- C21: four-activate window on traces. Start from the initial state and
apply a sequence of in-range inserts in which every ACT or REFPB insert is
made at a time not earlier than a value the query returned for it in the
state just before the insert, and at a time `a` with `a + tFAW` at most
`sc_max_time()` (so that the 64-bit sum of the source does not wrap). Then,
for every rank, any five consecutive activate-class insert times `a1 .. a5`
on that rank satisfy `a1 + tFAW ≤ a5`, and the sequence of inserts succeeds.
The clock need not be non-decreasing. -/
theorem fourActivateWindow_on_traces (s : Checker) (events : List Event) (hi : s.initial)
    (hp : ∀ e ∈ events, e.payload.inRange s.memSpec)
    (hb : (∃ e ∈ events, e.command = Command.REFPB) → 0 < s.memSpec.banksPerRank)
    (hf : ∀ e ∈ events, isActivateClass e.command → e.time + s.memSpec.tFAW ≤ sc_max_time)
    (hl : legalActivates s events) :
    (∃ s1, insertAll s events = Except.ok s1)
      ∧ ∀ r, fawSpaced s.memSpec.tFAW (activateTimes r events) := by
  refine ⟨⟨_, insertAll_eq hi.sized events hp hb⟩, ?_⟩
  intro r
  have h := fawSpaced_trace hi.sized events hp hb hf hl r []
    (by rw [window_empty hi.empty r]; rfl) (fun i hi => absurd hi (Nat.not_lt_zero _))
    (fun t ht => by cases ht)
  rw [List.nil_append] at h
  exact h

theorem fourActivateWindow_on_traces_witness :
    (∃ s1, insertAll exampleChecker exampleTrace = Except.ok s1)
      ∧ ∀ r, fawSpaced exampleChecker.memSpec.tFAW (activateTimes r exampleTrace) :=
  fourActivateWindow_on_traces exampleChecker exampleTrace exampleChecker_initial
    (by decide) (fun _ => by decide) (by decide)
    ⟨fun _ => ⟨0, _, rfl, by decide⟩, ⟨fun _ => ⟨0, _, rfl, by decide⟩,
      ⟨fun _ => ⟨0, _, rfl, by decide⟩, ⟨fun _ => ⟨0, _, rfl, by decide⟩,
        ⟨fun _ => ⟨0, _, rfl, by decide⟩, ⟨fun _ => ⟨0, _, rfl, by decide⟩, trivial⟩⟩⟩⟩⟩⟩

/-- C22: history never regresses. After any sequence of in-range inserts from
the initial state made at non-decreasing clock values, every cell that holds
a timestamp and every window entry is at most `lastCommandOnBus`, every
window is in non-decreasing order, and every timestamp the state holds is at
most any clock value `t` not below the clock of the inserts made, so that the
next insert, at such a `t`, overwrites no timestamp with a smaller one. -/
theorem history_never_regresses (s : Checker) (events : List Event) (hi : s.initial)
    (hp : ∀ e ∈ events, e.payload.inRange s.memSpec)
    (hb : (∃ e ∈ events, e.command = Command.REFPB) → 0 < s.memSpec.banksPerRank)
    (hmono : nonDecreasing events) :
    ∃ s1, insertAll s events = Except.ok s1
      ∧ s1.boundedBy s1.lastCommandOnBus
      ∧ s1.windowsSorted
      ∧ ∀ t, (∀ e ∈ events, e.time ≤ t) → s1.boundedBy t := by
  refine ⟨_, insertAll_eq hi.sized events hp hb, ?_⟩
  by_cases hne : events = []
  · subst hne
    refine ⟨boundedBy_empty hi.empty _, ?_, fun t _ => boundedBy_empty hi.empty t⟩
    intro r
    show (s.window r).Pairwise _
    rw [window_empty hi.empty r]
    exact List.Pairwise.nil
  · have hw0 : s.windowsSorted := by
      intro r
      rw [window_empty hi.empty r]
      exact List.Pairwise.nil
    obtain ⟨r1, r2, r3⟩ := insertAllResult_boundedBy hi.sized events hp
      (boundedBy_empty hi.empty 0) hw0 (fun _ _ => Nat.zero_le _) hmono hne
    refine ⟨r1, r2, ?_⟩
    intro t ht
    apply boundedBy_mono r1
    obtain ⟨e, es, rfl⟩ := List.exists_cons_of_ne_nil hne
    have hlast : ∃ x ∈ e :: es,
        (insertAllResult s (e :: es)).lastCommandOnBus = x.time := by
      clear r1 r2 r3 hmono hb hp hne ht hw0 hi
      induction es generalizing s e with
      | nil => exact ⟨e, List.mem_cons_self _ _, rfl⟩
      | cons e2 es2 ih =>
        obtain ⟨x, hx, hxe⟩ := ih (insertResult s e.time e.command e.payload) e2
        exact ⟨x, List.mem_cons_of_mem _ hx, hxe⟩
    obtain ⟨x, hx, hxe⟩ := hlast
    rw [hxe]
    exact ht x hx

theorem history_never_regresses_witness :
    ∃ s1, insertAll exampleChecker exampleTrace = Except.ok s1
      ∧ s1.boundedBy s1.lastCommandOnBus
      ∧ s1.windowsSorted
      ∧ ∀ t, (∀ e ∈ exampleTrace, e.time ≤ t) → s1.boundedBy t :=
  history_never_regresses exampleChecker exampleTrace exampleChecker_initial
    (by decide) (fun _ => by decide) (by decide)

/-- C24: cross-rank detection is by timestamp equality. In a sized state, at
an in-range address with burst length 16, when `lastScheduledByCommand[X]`
equals `lastScheduledByCommandAndRank[X][rank]` for a data command `X`, a RD,
RDA, WR or WRA query on that rank returns what it returns with the
channel-wide cell of `X` cleared: no cross-rank rule of `X` is applied. From
an empty history, after `insert(RD)` on rank `A` and then `insert(RD)` on
another rank `B`, both at the timestamp `T`, the channel-wide RD cell and the
RD cell of rank `A` both hold `T` and a WR query on rank `A` at time `now`
returns `max now (max (T + tRTW) (T + tCK))`, the sums being those of
`sc_time`, whatever `tRDWR_R` is; the sums are the exact ones when they are at
most `sc_max_time()`. -/
theorem crossRank_by_equality (s : Checker) (now T : Nat) (p pA pB : Payload)
    (command x : Command) (hs : s.sized) (hp : p.inRange s.memSpec)
    (hl : p.burstLength = 16) :
    (command ∈ dataCommands → x ∈ dataCommands →
      s.lastScheduledByCommand x = s.rankCell x p.rank →
      timeToSatisfyConstraints s now command p
        = timeToSatisfyConstraints (clearChannelCell s x) now command p)
    ∧ (s.emptyHistory → isTimestamp T → pA.inRange s.memSpec → pB.inRange s.memSpec →
      pB.rank ≠ pA.rank → p.rank = pA.rank →
      ∃ s1, insert s T Command.RD pA = Except.ok s1
        ∧ ∃ s2, insert s1 T Command.RD pB = Except.ok s2
          ∧ s2.lastScheduledByCommand Command.RD = T
          ∧ s2.rankCell Command.RD pA.rank = T
          ∧ timeToSatisfyConstraints s2 now Command.WR p
            = Except.ok (max now
                (max (sc_time_add T s.memSpec.tRTW) (sc_time_add T s.memSpec.tCK)))
          ∧ (T + s.memSpec.tRTW ≤ sc_max_time → T + s.memSpec.tCK ≤ sc_max_time →
            timeToSatisfyConstraints s2 now Command.WR p
              = Except.ok (max now (max (T + s.memSpec.tRTW) (T + s.memSpec.tCK))))) := by
  refine ⟨query_clearChannelCell hs hp hl now command x, ?_⟩
  intro he hT hA hB hne hr
  have hs1 := insertResult_sized hs T Command.RD pA
  have hB1 : pB.inRange (insertResult s T Command.RD pA).memSpec := hB
  refine ⟨_, insert_eq hs hA Command.RD (fun h => by cases h) T,
    _, insert_eq hs1 hB1 Command.RD (fun h => by cases h) T, rfl, ?_,
    query_WR_after_two_reads hs he hA hB hp hl hr T now hT, ?_⟩
  · rw [insertResult_rankCell hs1 hB1, if_neg (fun h => hne h.2.symm),
      insertResult_rankCell hs hA, if_pos ⟨rfl, rfl⟩]
  · intro hf1 hf2
    rw [query_WR_after_two_reads hs he hA hB hp hl hr T now hT, sc_time_add_of_le _ _ hf1,
      sc_time_add_of_le _ _ hf2]

theorem crossRank_by_equality_witness :
    timeToSatisfyConstraints (insertResult exampleChecker 100 Command.WR ⟨0, 0, 0, 16⟩) 101
        Command.RDA ⟨0, 1, 2, 16⟩
      = timeToSatisfyConstraints
        (clearChannelCell (insertResult exampleChecker 100 Command.WR ⟨0, 0, 0, 16⟩)
          Command.WR) 101 Command.RDA ⟨0, 1, 2, 16⟩
    ∧ ∃ s1, insert exampleChecker 100 Command.RD ⟨0, 0, 0, 16⟩ = Except.ok s1
        ∧ ∃ s2, insert s1 100 Command.RD ⟨1, 2, 4, 16⟩ = Except.ok s2
          ∧ s2.lastScheduledByCommand Command.RD = 100
          ∧ s2.rankCell Command.RD 0 = 100
          ∧ timeToSatisfyConstraints s2 101 Command.WR ⟨0, 1, 2, 16⟩
            = Except.ok (max 101 (max (100 + 18) (100 + 2))) :=
  ⟨(crossRank_by_equality (insertResult exampleChecker 100 Command.WR ⟨0, 0, 0, 16⟩) 101 0
      ⟨0, 1, 2, 16⟩ ⟨0, 0, 0, 16⟩ ⟨0, 0, 0, 16⟩ Command.RDA Command.WR
      (insertResult_sized exampleChecker_initial.sized _ _ _) (by decide) rfl).1
      (by decide) (by decide) rfl,
   ((crossRank_by_equality exampleChecker 101 100 ⟨0, 1, 2, 16⟩ ⟨0, 0, 0, 16⟩ ⟨1, 2, 4, 16⟩
      Command.WR Command.RD exampleChecker_initial.sized (by decide) rfl).2
      exampleChecker_initial.empty (by decide) (by decide) (by decide) (by decide) rfl).elim
      fun s1 h1 => ⟨s1, h1.1, h1.2.elim fun s2 h2 =>
        ⟨s2, h2.1, h2.2.1, h2.2.2.1, h2.2.2.2.2 (by decide) (by decide)⟩⟩⟩

/-- C25: frame of `insert`. In a sized state, at an in-range address, `insert`
returns a state in which the memory specification and the eight derived
delays are unchanged, every row and channel-wide cell of every other command
is unchanged, every cell of the command itself at another bank, bank group or
rank is unchanged, the windows and the refresh counters of all other ranks are
unchanged, all windows are unchanged unless the command is ACT or REFPB, and
all refresh counters are unchanged unless the command is REFPB. -/
theorem insert_frame (s : Checker) (t : Nat) (command : Command) (p : Payload) (hs : s.sized)
    (hp : p.inRange s.memSpec)
    (hb : command = Command.REFPB → 0 < s.memSpec.banksPerRank) :
    ∃ s1, insert s t command p = Except.ok s1
      ∧ s1.memSpec = s.memSpec
      ∧ (s1.tBURST = s.tBURST ∧ s1.tRDSRE = s.tRDSRE ∧ s1.tWRSRE = s.tWRSRE
        ∧ s1.tRDWR_R = s.tRDWR_R ∧ s1.tWRRD_R = s.tWRRD_R ∧ s1.tWRRD_S = s.tWRRD_S
        ∧ s1.tWRRD_L = s.tWRRD_L ∧ s1.tWRPRE = s.tWRPRE)
      ∧ (∀ c, c ≠ command →
          s1.lastScheduledByCommandAndBank c = s.lastScheduledByCommandAndBank c
          ∧ s1.lastScheduledByCommandAndBankGroup c = s.lastScheduledByCommandAndBankGroup c
          ∧ s1.lastScheduledByCommandAndRank c = s.lastScheduledByCommandAndRank c
          ∧ s1.lastScheduledByCommand c = s.lastScheduledByCommand c)
      ∧ (∀ i, i ≠ p.bank →
          (s1.lastScheduledByCommandAndBank command)[i]?
            = (s.lastScheduledByCommandAndBank command)[i]?)
      ∧ (∀ i, i ≠ p.bankGroup →
          (s1.lastScheduledByCommandAndBankGroup command)[i]?
            = (s.lastScheduledByCommandAndBankGroup command)[i]?)
      ∧ (∀ i, i ≠ p.rank →
          (s1.lastScheduledByCommandAndRank command)[i]?
            = (s.lastScheduledByCommandAndRank command)[i]?)
      ∧ (∀ i, i ≠ p.rank → s1.last4Activates[i]? = s.last4Activates[i]?)
      ∧ (∀ i, i ≠ p.rank → s1.bankwiseRefreshCounter[i]? = s.bankwiseRefreshCounter[i]?)
      ∧ (¬ isActivateClass command → s1.last4Activates = s.last4Activates)
      ∧ (command ≠ Command.REFPB → s1.bankwiseRefreshCounter = s.bankwiseRefreshCounter) := by
  refine ⟨_, insert_eq hs hp command hb t, rfl, ⟨rfl, rfl, rfl, rfl, rfl, rfl, rfl, rfl⟩,
    ?_, ?_, ?_, ?_, ?_, ?_, ?_, ?_⟩
  · intro c hc
    simp [insertResult, hc]
  · intro i hi
    simp [insertResult, List.getElem?_set_ne (Ne.symm hi)]
  · intro i hi
    simp [insertResult, List.getElem?_set_ne (Ne.symm hi)]
  · intro i hi
    simp [insertResult, List.getElem?_set_ne (Ne.symm hi)]
  · intro i hi
    unfold insertResult
    by_cases h : command = Command.ACT ∨ command = Command.REFPB
    · simp only [h, if_true]
      exact List.getElem?_set_ne (Ne.symm hi)
    · simp only [h, if_false]
  · intro i hi
    unfold insertResult
    by_cases h : command = Command.REFPB
    · simp only [h, if_true]
      exact List.getElem?_set_ne (Ne.symm hi)
    · simp only [h, if_false]
  · intro h
    have h2 : ¬ (command = Command.ACT ∨ command = Command.REFPB) := h
    simp [insertResult, h2]
  · intro h
    simp [insertResult, h]

theorem insert_frame_witness :
    ∃ s1, insert exampleChecker 7 Command.REFPB ⟨1, 2, 5, 16⟩ = Except.ok s1
      ∧ s1.memSpec = exampleSpec
      ∧ (s1.tBURST = 8 ∧ s1.tRDSRE = 21 ∧ s1.tWRSRE = 19 ∧ s1.tRDWR_R = 12 ∧ s1.tWRRD_R = 8
        ∧ s1.tWRRD_S = 22 ∧ s1.tWRRD_L = 24 ∧ s1.tWRPRE = 36)
      ∧ (∀ c, c ≠ Command.REFPB →
          s1.lastScheduledByCommandAndBank c = exampleChecker.lastScheduledByCommandAndBank c
          ∧ s1.lastScheduledByCommandAndBankGroup c
              = exampleChecker.lastScheduledByCommandAndBankGroup c
          ∧ s1.lastScheduledByCommandAndRank c = exampleChecker.lastScheduledByCommandAndRank c
          ∧ s1.lastScheduledByCommand c = exampleChecker.lastScheduledByCommand c)
      ∧ (∀ i, i ≠ 5 →
          (s1.lastScheduledByCommandAndBank Command.REFPB)[i]?
            = (exampleChecker.lastScheduledByCommandAndBank Command.REFPB)[i]?)
      ∧ (∀ i, i ≠ 2 →
          (s1.lastScheduledByCommandAndBankGroup Command.REFPB)[i]?
            = (exampleChecker.lastScheduledByCommandAndBankGroup Command.REFPB)[i]?)
      ∧ (∀ i, i ≠ 1 →
          (s1.lastScheduledByCommandAndRank Command.REFPB)[i]?
            = (exampleChecker.lastScheduledByCommandAndRank Command.REFPB)[i]?)
      ∧ (∀ i, i ≠ 1 → s1.last4Activates[i]? = exampleChecker.last4Activates[i]?)
      ∧ (∀ i, i ≠ 1 →
          s1.bankwiseRefreshCounter[i]? = exampleChecker.bankwiseRefreshCounter[i]?)
      ∧ (¬ isActivateClass Command.REFPB → s1.last4Activates = exampleChecker.last4Activates)
      ∧ (Command.REFPB ≠ Command.REFPB →
          s1.bankwiseRefreshCounter = exampleChecker.bankwiseRefreshCounter) :=
  insert_frame exampleChecker 7 Command.REFPB ⟨1, 2, 5, 16⟩ exampleChecker_initial.sized
    (by decide) (by decide)

/-- C26: the query is the clock clamped from below by a bound of the history.
In a sized state, for a supported command at an admissible address and
current times `now1 ≤ now2`, the queries return times `v1` and `v2` with
`v2 = max now2 v1`; `now1 ≤ v1`, `v1 ≤ v2`, and the query made at time `v1`
returns `v1`. -/
theorem query_clamped (s : Checker) (now1 now2 : Nat) (command : Command) (p : Payload)
    (hs : s.sized) (hc : command ∈ supportedCommands) (hp : p.admissible s.memSpec command)
    (h12 : now1 ≤ now2) :
    ∃ v1 v2, timeToSatisfyConstraints s now1 command p = Except.ok v1
      ∧ timeToSatisfyConstraints s now2 command p = Except.ok v2
      ∧ v2 = max now2 v1
      ∧ now1 ≤ v1
      ∧ v1 ≤ v2
      ∧ timeToSatisfyConstraints s v1 command p = Except.ok v1 := by
  obtain ⟨b, hb⟩ := query_clamp hs hc hp
  refine ⟨max now1 b, max now2 b, hb now1, hb now2, ?_, ?_, ?_, ?_⟩
  · omega
  · omega
  · omega
  · rw [hb (max now1 b)]
    congr 1
    omega

theorem query_clamped_witness :
    ∃ v1 v2, timeToSatisfyConstraints (insertResult exampleChecker 10 Command.ACT ⟨0, 0, 0, 16⟩)
          12 Command.RD ⟨0, 0, 0, 16⟩ = Except.ok v1
      ∧ timeToSatisfyConstraints (insertResult exampleChecker 10 Command.ACT ⟨0, 0, 0, 16⟩)
          40 Command.RD ⟨0, 0, 0, 16⟩ = Except.ok v2
      ∧ v2 = max 40 v1
      ∧ 12 ≤ v1
      ∧ v1 ≤ v2
      ∧ timeToSatisfyConstraints (insertResult exampleChecker 10 Command.ACT ⟨0, 0, 0, 16⟩)
          v1 Command.RD ⟨0, 0, 0, 16⟩ = Except.ok v1 :=
  query_clamped (insertResult exampleChecker 10 Command.ACT ⟨0, 0, 0, 16⟩) 12 40 Command.RD
    ⟨0, 0, 0, 16⟩ (insertResult_sized exampleChecker_initial.sized _ _ _) (by decide)
    (by decide) (by decide)

/-- C27: scope independence of the query. Two sized states with the same
memory specification and derived delays that agree, for every command kind,
on the bank-scoped cell at the bank of the payload, on the bank-group-scoped
cell at its bank group, on the rank-scoped cell at its rank and on the
channel-wide cell, and that agree on `lastCommandOnBus`, on the activate
window and on the refresh counter of that rank, give the same result for every
command kind at that in-range address and every current time. -/
theorem query_scope (s1 s2 : Checker) (now : Nat) (command : Command) (p : Payload)
    (hs1 : s1.sized) (hs2 : s2.sized) (hp : p.inRange s1.memSpec)
    (hm : s2.memSpec = s1.memSpec)
    (hd : s2.tBURST = s1.tBURST ∧ s2.tRDSRE = s1.tRDSRE ∧ s2.tWRSRE = s1.tWRSRE
      ∧ s2.tRDWR_R = s1.tRDWR_R ∧ s2.tWRRD_R = s1.tWRRD_R ∧ s2.tWRRD_S = s1.tWRRD_S
      ∧ s2.tWRRD_L = s1.tWRRD_L ∧ s2.tWRPRE = s1.tWRPRE)
    (hb : ∀ c, s2.bankCell c p.bank = s1.bankCell c p.bank)
    (hg : ∀ c, s2.bankGroupCell c p.bankGroup = s1.bankGroupCell c p.bankGroup)
    (hr : ∀ c, s2.rankCell c p.rank = s1.rankCell c p.rank)
    (hc : ∀ c, s2.lastScheduledByCommand c = s1.lastScheduledByCommand c)
    (hbus : s2.lastCommandOnBus = s1.lastCommandOnBus)
    (hw : s2.window p.rank = s1.window p.rank)
    (hn : s2.counter p.rank = s1.counter p.rank) :
    timeToSatisfyConstraints s2 now command p = timeToSatisfyConstraints s1 now command p := by
  obtain ⟨d1, d2, d3, d4, d5, d6, d7, d8⟩ := hd
  have hp2 : p.inRange s2.memSpec := by rw [hm]; exact hp
  by_cases hdata : command ∈ dataCommands
  · by_cases hl : p.burstLength = 16
    · simp only [dataCommands, List.mem_cons, List.mem_singleton, List.not_mem_nil,
        or_false] at hdata
      rcases hdata with rfl | rfl | rfl | rfl <;>
      simp only [rule2_eq, timeToSatisfyConstraints, commandConstraints, constraintsRead,
        constraintsWrite, index_bank hs1 hp, index_bankGroup hs1 hp, index_rank hs1 hp,
        index_bank hs2 hp2, index_bankGroup hs2 hp2, index_rank hs2 hp2, hl, pure_bind,
        reduceCtorEq, or_false, false_or, or_true, true_or, if_true, if_false, ne_eq,
        not_true_eq_false] <;>
      simp only [hm, d1, d4, d5, d6, d7, d8, hb, hg, hr, hc, hbus]
    · rw [query_data_assert s2 now command p hdata hl,
        query_data_assert s1 now command p hdata hl]
  · cases command <;> first
      | exact absurd (by decide) hdata
      | (simp only [rule2_eq, timeToSatisfyConstraints, commandConstraints,
          constraintsACT, constraintsPREPB, constraintsPREAB, constraintsREFAB,
          constraintsREFPB, constraintsPDEA, constraintsPDXA, constraintsPDEP,
          constraintsPDXP, constraintsSREFEN, constraintsSREFEX, fourActivates_eq hs1 hp,
          index_bank hs1 hp, index_bankGroup hs1 hp, index_rank hs1 hp,
          index_counter hs1 hp, fourActivates_eq hs2 hp2, index_bank hs2 hp2,
          index_bankGroup hs2 hp2, index_rank hs2 hp2, index_counter hs2 hp2, pure_bind,
          reduceCtorEq, or_false, false_or, if_true, if_false]
         simp only [hm, d2, d3, d8, hb, hg, hr, hbus, hw, hn])

theorem query_scope_witness :
    timeToSatisfyConstraints
        (insertAllResult exampleChecker [⟨5, Command.ACT, ⟨1, 2, 4, 16⟩⟩,
          ⟨10, Command.ACT, ⟨0, 0, 0, 16⟩⟩]) 12 Command.RD ⟨0, 0, 0, 16⟩
      = timeToSatisfyConstraints
        (clearRankCell (replaceBankRow
          (insertAllResult exampleChecker [⟨5, Command.ACT, ⟨1, 2, 4, 16⟩⟩,
            ⟨10, Command.ACT, ⟨0, 0, 0, 16⟩⟩]) Command.ACT
          [10, 1, 2, 3, 4, 5, 6, 7]) Command.ACT 1) 12 Command.RD ⟨0, 0, 0, 16⟩ :=
  query_scope
    (clearRankCell (replaceBankRow
      (insertAllResult exampleChecker [⟨5, Command.ACT, ⟨1, 2, 4, 16⟩⟩,
        ⟨10, Command.ACT, ⟨0, 0, 0, 16⟩⟩]) Command.ACT
      [10, 1, 2, 3, 4, 5, 6, 7]) Command.ACT 1)
    (insertAllResult exampleChecker [⟨5, Command.ACT, ⟨1, 2, 4, 16⟩⟩,
      ⟨10, Command.ACT, ⟨0, 0, 0, 16⟩⟩]) 12 Command.RD ⟨0, 0, 0, 16⟩
    (clearRankCell_sized (replaceBankRow_sized
      (insertAllResult_sized exampleChecker_initial.sized [⟨5, Command.ACT, ⟨1, 2, 4, 16⟩⟩,
        ⟨10, Command.ACT, ⟨0, 0, 0, 16⟩⟩]) Command.ACT [10, 1, 2, 3, 4, 5, 6, 7] rfl) _ _)
    (insertAllResult_sized exampleChecker_initial.sized _) (by decide) rfl
    ⟨rfl, rfl, rfl, rfl, rfl, rfl, rfl, rfl⟩
    (fun c => by cases c <;> rfl) (fun c => by cases c <;> rfl) (fun c => by cases c <;> rfl)
    (fun _ => rfl) rfl rfl rfl

end CheckerGDDR6
